import Mathlib

/-!
Shallow embedding of the bidirectional synchronization subsystem of the
disaster-shelter reporting system (backend `src/db/database.ts`
`syncRepository`, backend routes in `src/repositories/shelterRepository.ts`,
frontend `src/lib/sync-service.ts`).

The Cloudflare D1 store is modelled as an explicit `DB` state value holding
the four entity tables, the `sync_logs` table, an event trace of terminal
SyncLog updates (instrumentation used to count transitions), the pull-cursor
store and the next auto-increment log id.  Each repository function becomes a
pure state-passing function.  Fallible `INSERT` statements take an error
oracle (`ErrOracle`): `err id = some msg` means the D1 insert for that record
id throws with message `msg` (e.g. a constraint violation); `SELECT`s and
`UPDATE`s on the local store are modelled as infallible except where a claim
explicitly concerns their failure (the push mark-as-synced step takes its own
failure parameter).  Outbound HTTP calls are modelled by an explicit outcome
value covering the branches the code distinguishes: transport error,
non-success status, unparseable body, parseable success.

Numeric `latitude`/`longitude` (REAL in the schema) are modelled as `Int`:
no synchronization decision inspects their value.  `ORDER BY created_at` in
the collection queries is dropped: it only permutes result lists and every
property below is invariant under that order.
-/

namespace SyncSpec

/-- Transfer shape of an unsynced post (type `UnsyncedPost` in database.ts). -/
structure UnsyncedPost where
  id : String
  author_name : String
  shelter_id : Nat
  content : Option String
  latitude : Int
  longitude : Int
  posted_at : String
  created_at : String
  updated_at : String
  is_free_chat : Nat
  status : Option String
deriving DecidableEq, Repr

/-- Transfer shape of an unsynced comment (type `UnsyncedComment`). -/
structure UnsyncedComment where
  id : String
  post_id : String
  author_name : String
  content : String
  status : String
  created_at : String
  updated_at : String
deriving DecidableEq, Repr

/-- Transfer shape of an unsynced location track (type `UnsyncedLocationTrack`). -/
structure UnsyncedLocationTrack where
  id : String
  post_id : String
  recorded_at : String
  latitude : Int
  longitude : Int
  created_at : String
  updated_at : String
deriving DecidableEq, Repr

/-- Transfer shape of an unsynced media row (type `UnsyncedMedia`). -/
structure UnsyncedMedia where
  id : String
  post_id : String
  file_path : String
  media_type : String
  file_name : Option String
  created_at : String
  updated_at : String
  deleted_at : Option String
deriving DecidableEq, Repr

/-- A stored row of the `posts` table. -/
structure PostRow where
  id : String
  author_name : String
  shelter_id : Nat
  content : Option String
  latitude : Int
  longitude : Int
  posted_at : String
  created_at : String
  updated_at : String
  is_free_chat : Nat
  status : Option String
  is_synced : Nat
  deleted_at : Option String
deriving DecidableEq, Repr

/-- A stored row of the `comments` table. -/
structure CommentRow where
  id : String
  post_id : String
  author_name : String
  content : String
  status : String
  created_at : String
  updated_at : String
  is_synced : Nat
  deleted_at : Option String
deriving DecidableEq, Repr

/-- A stored row of the `post_location_tracks` table. -/
structure TrackRow where
  id : String
  post_id : String
  recorded_at : String
  latitude : Int
  longitude : Int
  created_at : String
  updated_at : String
  is_synced : Nat
  deleted_at : Option String
deriving DecidableEq, Repr

/-- A stored row of the `media` table. -/
structure MediaRow where
  id : String
  post_id : String
  file_path : String
  media_type : String
  file_name : Option String
  created_at : String
  updated_at : String
  deleted_at : Option String
  url : Option String
  is_synced : Nat
deriving DecidableEq, Repr

/-- A stored row of the `sync_logs` table (type `SyncLog` in database.ts). -/
structure SyncLogRow where
  id : Nat
  shelter_id : Option Nat
  sync_type : String
  status : String
  started_at : String
  completed_at : Option String
  posts_synced : Nat
  comments_synced : Nat
  location_tracks_synced : Nat
  media_synced : Nat
  error_message : Option String
  target_url : Option String
deriving DecidableEq, Repr

/-- The local relational store.  `logEvents` is instrumentation: every
terminal SyncLog update (`completeSyncLog` / `failSyncLog`) appends
`(logId, newStatus)`, so "updated exactly once to a terminal state" is the
statement that a log id occurs exactly once in the trace.  `pullCursors` is
the per-scope pull watermark store (data model `PullCursor` of the spec; its
accessors are not under src/ and are modelled from the spec below). -/
structure DB where
  posts : List PostRow
  comments : List CommentRow
  tracks : List TrackRow
  media : List MediaRow
  syncLogs : List SyncLogRow
  logEvents : List (Nat × String)
  pullCursors : List (String × String)
  nextLogId : Nat
deriving DecidableEq, Repr

/-- `SELECT ... FROM posts WHERE is_synced = 0 AND deleted_at IS NULL`
(`fetchUnsyncedPosts`). -/
def fetchUnsyncedPosts (db : DB) : List UnsyncedPost :=
  (db.posts.filter (fun r => r.is_synced = 0 ∧ r.deleted_at = none)).map
    (fun r => ⟨r.id, r.author_name, r.shelter_id, r.content, r.latitude,
      r.longitude, r.posted_at, r.created_at, r.updated_at, r.is_free_chat,
      r.status⟩)

/-- `SELECT ... FROM comments WHERE is_synced = 0 AND deleted_at IS NULL`
(`fetchUnsyncedComments`). -/
def fetchUnsyncedComments (db : DB) : List UnsyncedComment :=
  (db.comments.filter (fun r => r.is_synced = 0 ∧ r.deleted_at = none)).map
    (fun r => ⟨r.id, r.post_id, r.author_name, r.content, r.status,
      r.created_at, r.updated_at⟩)

/-- `SELECT ... FROM post_location_tracks WHERE is_synced = 0 AND deleted_at
IS NULL` (`fetchUnsyncedLocationTracks`). -/
def fetchUnsyncedLocationTracks (db : DB) : List UnsyncedLocationTrack :=
  (db.tracks.filter (fun r => r.is_synced = 0 ∧ r.deleted_at = none)).map
    (fun r => ⟨r.id, r.post_id, r.recorded_at, r.latitude, r.longitude,
      r.created_at, r.updated_at⟩)

/-- `SELECT ... FROM media WHERE is_synced = 0 AND deleted_at IS NULL`
(`fetchUnsyncedMedia`). -/
def fetchUnsyncedMedia (db : DB) : List UnsyncedMedia :=
  (db.media.filter (fun r => r.is_synced = 0 ∧ r.deleted_at = none)).map
    (fun r => ⟨r.id, r.post_id, r.file_path, r.media_type, r.file_name,
      r.created_at, r.updated_at, r.deleted_at⟩)

/-- `SELECT ... FROM media WHERE post_id IN (...) AND deleted_at IS NULL`
(`fetchMediaByPostIds`); note there is no `is_synced` filter: media rides
with its posts.  The `postIds.length === 0` early return yields `[]`, which
coincides with the filter on an empty id list. -/
def fetchMediaByPostIds (db : DB) (postIds : List String) : List UnsyncedMedia :=
  (db.media.filter (fun r => postIds.contains r.post_id ∧ r.deleted_at = none)).map
    (fun r => ⟨r.id, r.post_id, r.file_path, r.media_type, r.file_name,
      r.created_at, r.updated_at, r.deleted_at⟩)

/-- `UPDATE posts SET is_synced = 1, updated_at = CURRENT_TIMESTAMP WHERE id
IN (...)` (`markPostsAsSynced`); `now` stands for CURRENT_TIMESTAMP. -/
def markPostsAsSynced (db : DB) (postIds : List String) (now : String) : DB :=
  { db with posts := db.posts.map (fun r =>
      if postIds.contains r.id then { r with is_synced := 1, updated_at := now } else r) }

/-- `UPDATE comments SET is_synced = 1, ... WHERE id IN (...)`
(`markCommentsAsSynced`). -/
def markCommentsAsSynced (db : DB) (commentIds : List String) (now : String) : DB :=
  { db with comments := db.comments.map (fun r =>
      if commentIds.contains r.id then { r with is_synced := 1, updated_at := now } else r) }

/-- `UPDATE post_location_tracks SET is_synced = 1, ... WHERE id IN (...)`
(`markLocationTracksAsSynced`). -/
def markLocationTracksAsSynced (db : DB) (trackIds : List String) (now : String) : DB :=
  { db with tracks := db.tracks.map (fun r =>
      if trackIds.contains r.id then { r with is_synced := 1, updated_at := now } else r) }

/-- `UPDATE media SET is_synced = 1, ... WHERE id IN (...)`
(`markMediaAsSynced`).  Reachable only from the `/api/sync/media` route, not
from the push route. -/
def markMediaAsSynced (db : DB) (mediaIds : List String) (now : String) : DB :=
  { db with media := db.media.map (fun r =>
      if mediaIds.contains r.id then { r with is_synced := 1, updated_at := now } else r) }

/-- `INSERT INTO sync_logs (shelter_id, sync_type, status, target_url) VALUES
(?, ?, 'in_progress', ?)` (`createSyncLog`); returns the new row id.
`started_at` defaults to the current timestamp in the schema. -/
def createSyncLog (db : DB) (syncType : String) (targetUrl : String)
    (shelterId : Option Nat) (now : String) : DB × Nat :=
  ({ db with
      syncLogs := db.syncLogs ++
        [⟨db.nextLogId, shelterId, syncType, "in_progress", now, none,
          0, 0, 0, 0, none, some targetUrl⟩],
      nextLogId := db.nextLogId + 1 },
   db.nextLogId)

/-- `UPDATE sync_logs SET status = 'completed', completed_at =
CURRENT_TIMESTAMP, ...counts... WHERE id = ?` (`completeSyncLog`).  Also
appends a `(logId, "completed")` event to the instrumentation trace. -/
def completeSyncLog (db : DB) (logId p c l m : Nat) (now : String) : DB :=
  { db with
      syncLogs := db.syncLogs.map (fun row =>
        if row.id = logId then
          { row with
            status := "completed"
            completed_at := some now
            posts_synced := p
            comments_synced := c
            location_tracks_synced := l
            media_synced := m }
        else row),
      logEvents := db.logEvents ++ [(logId, "completed")] }

/-- `UPDATE sync_logs SET status = 'failed', completed_at =
CURRENT_TIMESTAMP, error_message = ? WHERE id = ?` (`failSyncLog`).  Also
appends a `(logId, "failed")` event to the instrumentation trace. -/
def failSyncLog (db : DB) (logId : Nat) (errorMessage : String) (now : String) : DB :=
  { db with
      syncLogs := db.syncLogs.map (fun row =>
        if row.id = logId then
          { row with
            status := "failed"
            completed_at := some now
            error_message := some errorMessage }
        else row),
      logEvents := db.logEvents ++ [(logId, "failed")] }

/-- Error oracle for the fallible `INSERT` statements: `err id = some msg`
means the D1 insert for the record with that id rejects with `msg`. -/
def ErrOracle : Type := String → Option String

/-- The oracle under which every insert succeeds. -/
def noErr : ErrOracle := fun _ => none

/-- `insertPostIfNotExists`: existence check by id, then `INSERT ...
is_synced = 1` (the column list carries no `deleted_at`, so it is NULL).
Returns whether a row was inserted. -/
def insertPostIfNotExists (err : ErrOracle) (db : DB) (post : UnsyncedPost) :
    Except String (DB × Bool) :=
  if db.posts.any (fun r => r.id = post.id) then .ok (db, false)
  else
    match err post.id with
    | some m => .error m
    | none =>
        .ok ({ db with posts := db.posts ++
          [⟨post.id, post.author_name, post.shelter_id, post.content,
            post.latitude, post.longitude, post.posted_at, post.created_at,
            post.updated_at, post.is_free_chat, post.status, 1, none⟩] }, true)

/-- `insertCommentIfNotExists`: existence check by id, then `INSERT ...
is_synced = 1`. -/
def insertCommentIfNotExists (err : ErrOracle) (db : DB) (comment : UnsyncedComment) :
    Except String (DB × Bool) :=
  if db.comments.any (fun r => r.id = comment.id) then .ok (db, false)
  else
    match err comment.id with
    | some m => .error m
    | none =>
        .ok ({ db with comments := db.comments ++
          [⟨comment.id, comment.post_id, comment.author_name, comment.content,
            comment.status, comment.created_at, comment.updated_at, 1, none⟩] }, true)

/-- `insertLocationTrackIfNotExists`: existence check by id, then `INSERT ...
is_synced = 1`. -/
def insertLocationTrackIfNotExists (err : ErrOracle) (db : DB)
    (track : UnsyncedLocationTrack) : Except String (DB × Bool) :=
  if db.tracks.any (fun r => r.id = track.id) then .ok (db, false)
  else
    match err track.id with
    | some m => .error m
    | none =>
        .ok ({ db with tracks := db.tracks ++
          [⟨track.id, track.post_id, track.recorded_at, track.latitude,
            track.longitude, track.created_at, track.updated_at, 1, none⟩] }, true)

/-- `insertMediaIfNotExists`: existence check by media id, then a check that
the referenced post exists in the destination `posts` table (skip with a
warning when it does not), then `INSERT ... url = NULL, is_synced = 1`. -/
def insertMediaIfNotExists (err : ErrOracle) (db : DB) (media : UnsyncedMedia) :
    Except String (DB × Bool) :=
  if db.media.any (fun r => r.id = media.id) then .ok (db, false)
  else if ¬ db.posts.any (fun r => r.id = media.post_id) then .ok (db, false)
  else
    match err media.id with
    | some m => .error m
    | none =>
        .ok ({ db with media := db.media ++
          [⟨media.id, media.post_id, media.file_path, media.media_type,
            media.file_name, media.created_at, media.updated_at,
            media.deleted_at, none, 1⟩] }, true)

/-- Result type `SyncResult` of database.ts (field order as constructed by
`receiveAndInsertSyncData`). -/
structure SyncResult where
  success : Bool
  postsSynced : Nat
  commentsSynced : Nat
  locationTracksSynced : Nat
  mediaSynced : Nat
  errorMessage : Option String
deriving DecidableEq, Repr

/-- Incoming batch shape `SyncReceiveData`. -/
structure SyncReceiveData where
  posts : List UnsyncedPost
  comments : List UnsyncedComment
  locationTracks : List UnsyncedLocationTrack
  media : List UnsyncedMedia
  sourceUrl : Option String
deriving DecidableEq, Repr

/-- The `for (const post of data.posts)` loop of `receiveAndInsertSyncData`:
threads the store, counts inserted rows, stops at the first insert error
(earlier inserts persist — there is no transaction).  Returns the store, the
inserted count at the moment of return, and the error if one was thrown. -/
def insertPostsLoop (err : ErrOracle) : DB → List UnsyncedPost → DB × Nat × Option String
  | db, [] => (db, 0, none)
  | db, p :: rest =>
      match insertPostIfNotExists err db p with
      | .error m => (db, 0, some m)
      | .ok (db', inserted) =>
          let (db'', n, e) := insertPostsLoop err db' rest
          (db'', (if inserted then 1 else 0) + n, e)

/-- The media loop of `receiveAndInsertSyncData`. -/
def insertMediaLoop (err : ErrOracle) : DB → List UnsyncedMedia → DB × Nat × Option String
  | db, [] => (db, 0, none)
  | db, m :: rest =>
      match insertMediaIfNotExists err db m with
      | .error msg => (db, 0, some msg)
      | .ok (db', inserted) =>
          let (db'', n, e) := insertMediaLoop err db' rest
          (db'', (if inserted then 1 else 0) + n, e)

/-- The comment loop of `receiveAndInsertSyncData`. -/
def insertCommentsLoop (err : ErrOracle) : DB → List UnsyncedComment → DB × Nat × Option String
  | db, [] => (db, 0, none)
  | db, c :: rest =>
      match insertCommentIfNotExists err db c with
      | .error m => (db, 0, some m)
      | .ok (db', inserted) =>
          let (db'', n, e) := insertCommentsLoop err db' rest
          (db'', (if inserted then 1 else 0) + n, e)

/-- The location-track loop of `receiveAndInsertSyncData`. -/
def insertTracksLoop (err : ErrOracle) : DB → List UnsyncedLocationTrack → DB × Nat × Option String
  | db, [] => (db, 0, none)
  | db, t :: rest =>
      match insertLocationTrackIfNotExists err db t with
      | .error m => (db, 0, some m)
      | .ok (db', inserted) =>
          let (db'', n, e) := insertTracksLoop err db' rest
          (db'', (if inserted then 1 else 0) + n, e)

/-- `receiveAndInsertSyncData`: inserts posts, then media, then comments,
then location tracks (that source order matters: posts land before the media
whose destination-post check needs them).  The surrounding try/catch turns
the first thrown insert error into a `success: false` result carrying the
counts accumulated so far; inserts done before the error persist. -/
def receiveAndInsertSyncData (err : ErrOracle) (db : DB) (data : SyncReceiveData) :
    DB × SyncResult :=
  let (db1, pN, e1) := insertPostsLoop err db data.posts
  match e1 with
  | some m => (db1, ⟨false, pN, 0, 0, 0, some m⟩)
  | none =>
    let (db2, mN, e2) := insertMediaLoop err db1 data.media
    match e2 with
    | some m => (db2, ⟨false, pN, 0, 0, mN, some m⟩)
    | none =>
      let (db3, cN, e3) := insertCommentsLoop err db2 data.comments
      match e3 with
      | some m => (db3, ⟨false, pN, cN, 0, mN, some m⟩)
      | none =>
        let (db4, tN, e4) := insertTracksLoop err db3 data.locationTracks
        match e4 with
        | some m => (db4, ⟨false, pN, cN, tN, mN, some m⟩)
        | none => (db4, ⟨true, pN, cN, tN, mN, none⟩)

/-- Insert-ordered association-list update mirroring JS `Map.set`: replaces
the value in place when the key is present, appends otherwise. -/
def assocSet {α β : Type} [DecidableEq α] : List (α × β) → α → β → List (α × β)
  | [], k, v => [(k, v)]
  | (k', v') :: rest, k, v =>
      if k' = k then (k, v) :: rest else (k', v') :: assocSet rest k v

/-- JS `Map.get` on an association list (first binding wins; `assocSet`
keeps keys unique anyway). -/
def assocGet {α β : Type} [DecidableEq α] : List (α × β) → α → Option β
  | [], _ => none
  | kv :: rest, k => if kv.1 = k then some kv.2 else assocGet rest k

/-- The `postIdToShelterId` map of `groupDataByShelter`: batch posts first,
then — for post ids referenced by a child but absent from the batch — a
lookup of `SELECT id, shelter_id FROM posts WHERE id IN (...)` against the
destination store.  The JS `Set` of missing ids only dedups the query's id
list; folding the raw occurrence list produces the same map because
`assocSet` with the same key and value is idempotent. -/
def childPostIds (data : SyncReceiveData) : List String :=
  data.comments.map (fun c => c.post_id) ++
  data.locationTracks.map (fun t => t.post_id) ++
  data.media.map (fun m => m.post_id)

def buildPostShelterMap (db : DB) (data : SyncReceiveData) : List (String × Nat) :=
  let base := data.posts.foldl (fun m p => assocSet m p.id p.shelter_id) []
  let missing := (childPostIds data).filter (fun pid => (assocGet base pid).isNone)
  missing.foldl (fun m pid =>
    match db.posts.find? (fun r => r.id = pid) with
    | some r => assocSet m pid r.shelter_id
    | none => m) base

/-- The empty per-shelter group created on demand by `groupDataByShelter`. -/
def emptyGroup (sourceUrl : Option String) : SyncReceiveData :=
  ⟨[], [], [], [], sourceUrl⟩

/-- Apply `f` to shelter `sid`'s group, creating it (in insertion order) when
absent — the `if (!grouped.has(...)) grouped.set(...); grouped.get(...)`
pattern. -/
def addToGroup (sourceUrl : Option String) (gs : List (Nat × SyncReceiveData))
    (sid : Nat) (f : SyncReceiveData → SyncReceiveData) : List (Nat × SyncReceiveData) :=
  if (assocGet gs sid).isSome then
    gs.map (fun g => if g.1 = sid then (g.1, f g.2) else g)
  else gs ++ [(sid, f (emptyGroup sourceUrl))]

/-- The posts loop of `groupDataByShelter`: every post goes to the group of
its own `shelter_id`. -/
def groupPostsFold (u : Option String) (gs : List (Nat × SyncReceiveData))
    (l : List UnsyncedPost) : List (Nat × SyncReceiveData) :=
  l.foldl (fun gs p =>
    addToGroup u gs p.shelter_id (fun g => { g with posts := g.posts ++ [p] })) gs

/-- The media loop of `groupDataByShelter`: shelter resolved through the
post map, unresolvable rows dropped with a warning. -/
def groupMediaFold (u : Option String) (pmap : List (String × Nat))
    (gs : List (Nat × SyncReceiveData)) (l : List UnsyncedMedia) :
    List (Nat × SyncReceiveData) :=
  l.foldl (fun gs m =>
    match assocGet pmap m.post_id with
    | some sid => addToGroup u gs sid (fun g => { g with media := g.media ++ [m] })
    | none => gs) gs

/-- The comments loop of `groupDataByShelter`. -/
def groupCommentsFold (u : Option String) (pmap : List (String × Nat))
    (gs : List (Nat × SyncReceiveData)) (l : List UnsyncedComment) :
    List (Nat × SyncReceiveData) :=
  l.foldl (fun gs c =>
    match assocGet pmap c.post_id with
    | some sid => addToGroup u gs sid (fun g => { g with comments := g.comments ++ [c] })
    | none => gs) gs

/-- The location-tracks loop of `groupDataByShelter`. -/
def groupTracksFold (u : Option String) (pmap : List (String × Nat))
    (gs : List (Nat × SyncReceiveData)) (l : List UnsyncedLocationTrack) :
    List (Nat × SyncReceiveData) :=
  l.foldl (fun gs t =>
    match assocGet pmap t.post_id with
    | some sid => addToGroup u gs sid
        (fun g => { g with locationTracks := g.locationTracks ++ [t] })
    | none => gs) gs

/-- `groupDataByShelter`: partitions the batch by owning shelter id.  Posts
carry their shelter directly; media, comments and tracks (processed in that
source order) resolve theirs through `buildPostShelterMap` and are dropped
with a console warning when unresolvable. -/
def groupDataByShelter (db : DB) (data : SyncReceiveData) : List (Nat × SyncReceiveData) :=
  let pmap := buildPostShelterMap db data
  groupTracksFold data.sourceUrl pmap
    (groupCommentsFold data.sourceUrl pmap
      (groupMediaFold data.sourceUrl pmap
        (groupPostsFold data.sourceUrl [] data.posts)
        data.media)
      data.comments)
    data.locationTracks

/-- One element of `shelterResults` in the receive route's response. -/
structure ShelterResult where
  shelterId : Nat
  success : Bool
  postsSynced : Nat
  commentsSynced : Nat
  locationTracksSynced : Nat
  mediaSynced : Nat
  errorMessage : Option String
deriving DecidableEq, Repr

/-- Response of `POST /api/sync/receive`. -/
structure ReceiveResponse where
  success : Bool
  postsSynced : Nat
  commentsSynced : Nat
  locationTracksSynced : Nat
  mediaSynced : Nat
  shelterResults : List ShelterResult
deriving DecidableEq, Repr

/-- One iteration of the receive route's per-shelter loop: create this
shelter's SyncLog, insert the group's records, then fail or complete that log
on the group's own outcome and extend the running totals. -/
def receiveShelterStep (err : ErrOracle) (sourceUrl : Option String) (now : String)
    (db : DB) (sid : Nat) (gd : SyncReceiveData) : DB × ShelterResult :=
  let (db1, logId) := createSyncLog db "received" (sourceUrl.getD "unknown") (some sid) now
  let (db2, res) := receiveAndInsertSyncData err db1 gd
  if res.success then
    (completeSyncLog db2 logId res.postsSynced res.commentsSynced
        res.locationTracksSynced res.mediaSynced now,
     ⟨sid, true, res.postsSynced, res.commentsSynced, res.locationTracksSynced,
      res.mediaSynced, none⟩)
  else
    (failSyncLog db2 logId (res.errorMessage.getD "データ挿入エラー") now,
     ⟨sid, false, res.postsSynced, res.commentsSynced, res.locationTracksSynced,
      res.mediaSynced, res.errorMessage⟩)

/-- The `for (const [shelterId, shelterData] of groupedData.entries())` loop,
accumulating per-shelter results in order. -/
def receiveLoop (err : ErrOracle) (sourceUrl : Option String) (now : String) :
    DB → List (Nat × SyncReceiveData) → DB × List ShelterResult
  | db, [] => (db, [])
  | db, (sid, gd) :: rest =>
      let (db1, sres) := receiveShelterStep err sourceUrl now db sid gd
      let (db2, others) := receiveLoop err sourceUrl now db1 rest
      (db2, sres :: others)

/-- `POST /api/sync/receive`: empty batches return success with zero counts
without touching the store; otherwise the batch is grouped by shelter and
each group is processed independently.  `success` is the running AND of group
successes; the totals add only successful groups' counts (as in the source,
where failed groups' partial counts reach `shelterResults` but not the
totals). -/
def receiveRoute (err : ErrOracle) (db : DB) (data : SyncReceiveData) (now : String) :
    DB × ReceiveResponse :=
  if data.posts = [] ∧ data.comments = [] ∧ data.locationTracks = [] ∧ data.media = [] then
    (db, ⟨true, 0, 0, 0, 0, []⟩)
  else
    let groups := groupDataByShelter db data
    let (db', results) := receiveLoop err data.sourceUrl now db groups
    let ok := results.all (fun r => r.success)
    let succ := results.filter (fun r => r.success)
    (db',
     ⟨ok,
      (succ.map (fun r => r.postsSynced)).sum,
      (succ.map (fun r => r.commentsSynced)).sum,
      (succ.map (fun r => r.locationTracksSynced)).sum,
      (succ.map (fun r => r.mediaSynced)).sum,
      results⟩)

/-- Outcome of the outbound `fetch` to the remote receive (or pull) endpoint,
covering exactly the branches the routes distinguish: the fetch throws, the
response is non-ok, `response.json()` throws, or the body parses. -/
inductive FetchOutcome where
  | netError (msg : String)
  | httpError (status : Nat) (body : String)
  | badJson (msg : String)
  | okJson
deriving DecidableEq, Repr

/-- Response JSON of `POST /api/sync/execute`.  `error` is the `error` field
of the failure responses; `fetchIssued` is instrumentation recording whether
the handler performed the outbound fetch to `targetUrl + "/api/sync/receive"`
(used to count network calls under concurrent triggering). -/
structure PushResponse where
  success : Bool
  postsSynced : Nat
  commentsSynced : Nat
  locationTracksSynced : Nat
  mediaSynced : Nat
  error : Option String
  fetchIssued : Bool
deriving DecidableEq, Repr

/-- The SyncLog failure text each failing fetch outcome produces in the push
route (string templates of the three failure branches). -/
def pushFailText : FetchOutcome → Option String
  | .netError m => some ("fetch失敗: " ++ m)
  | .httpError s b => some ("本番API応答エラー: " ++ toString s ++ " " ++ b)
  | .badJson m => some ("レスポンスJSON解析失敗: " ++ m)
  | .okJson => none

/-- `POST /api/sync/execute` (push).  Creates the SyncLog, collects all
unsynced posts/comments/tracks plus the media of those posts, completes with
zeros when the three entity lists are empty, otherwise sends the batch.  On a
failed outcome the log is failed with the branch's text and nothing is
marked.  On success the handler marks posts, comments and location tracks as
synced — `markMediaAsSynced` is not called here — and then completes the log
with the four collection counts.  `markFail = some m` models the
`Promise.all` of the three mark updates rejecting with `m`: the rethrow
lands in the outer catch, which returns the error JSON without updating the
SyncLog (its `logId` is out of scope there), so the log keeps its
`in_progress` status; which of the three concurrently-started updates had
already applied before the rejection is not observable in the log, and the
model takes the admissible schedule in which none had. -/
def pushRoute (db : DB) (targetUrl : String) (shelterId : Option Nat)
    (outcome : FetchOutcome) (markFail : Option String) (now : String) :
    DB × PushResponse :=
  let (db1, logId) := createSyncLog db "manual" targetUrl shelterId now
  let posts := fetchUnsyncedPosts db1
  let comments := fetchUnsyncedComments db1
  let tracks := fetchUnsyncedLocationTracks db1
  let media := fetchMediaByPostIds db1 (posts.map (fun p => p.id))
  if posts = [] ∧ comments = [] ∧ tracks = [] then
    (completeSyncLog db1 logId 0 0 0 0 now, ⟨true, 0, 0, 0, 0, none, false⟩)
  else
    match outcome with
    | .netError m =>
        (failSyncLog db1 logId ("fetch失敗: " ++ m) now,
         ⟨false, 0, 0, 0, 0, some ("本番APIへの接続エラー: " ++ m), true⟩)
    | .httpError s b =>
        (failSyncLog db1 logId ("本番API応答エラー: " ++ toString s ++ " " ++ b) now,
         ⟨false, 0, 0, 0, 0, some ("同期先APIエラー: " ++ toString s), true⟩)
    | .badJson m =>
        (failSyncLog db1 logId ("レスポンスJSON解析失敗: " ++ m) now,
         ⟨false, 0, 0, 0, 0, some ("レスポンス解析エラー: " ++ m), true⟩)
    | .okJson =>
        match markFail with
        | some m => (db1, ⟨false, 0, 0, 0, 0, some m, true⟩)
        | none =>
            let db2 := markPostsAsSynced db1 (posts.map (fun p => p.id)) now
            let db3 := markCommentsAsSynced db2 (comments.map (fun c => c.id)) now
            let db4 := markLocationTracksAsSynced db3 (tracks.map (fun t => t.id)) now
            let db5 := completeSyncLog db4 logId posts.length comments.length
              tracks.length media.length now
            (db5, ⟨true, posts.length, comments.length, tracks.length,
              media.length, none, true⟩)

/-- Modelled from the spec: `getLastPulledAt` (repository source not under
src/; only its caller in the pull route is).  Reads the stored cursor — the
"(scope key, last-pulled timestamp) pair, one per synchronization scope";
absence means "pull everything". -/
def getLastPulledAt (db : DB) (scopeKey : String) : Option String :=
  assocGet db.pullCursors scopeKey

/-- Modelled from the spec: `setLastPulledAt` (repository source not under
src/).  Overwrites the cursor for the scope key with the given server
time — "mutated only after a pull's results have been durably applied". -/
def setLastPulledAt (db : DB) (scopeKey : String) (serverTime : String) : DB :=
  { db with pullCursors := assocSet db.pullCursors scopeKey serverTime }

/-- Payload of `GET /api/sync/pull` after the route's normalization
(`SyncPullData`). -/
structure SyncPullData where
  serverTime : String
  posts : List UnsyncedPost
  comments : List UnsyncedComment
  locationTracks : List UnsyncedLocationTrack
  media : List UnsyncedMedia
deriving DecidableEq, Repr

/-- Per-entity applied counts returned by `applyPulledData`. -/
structure ApplyResult where
  postsApplied : Nat
  commentsApplied : Nat
  locationTracksApplied : Nat
  mediaApplied : Nat
deriving DecidableEq, Repr

/-- Modelled from the spec: `applyPulledData` (repository source not under
src/).  "Applies each entity type using the same insert-if-absent idempotent
merge as SyncReceiver"; a thrown insert error propagates to the route's
catch ("if apply fails partway, the cursor is not advanced"), with the
inserts applied before the throw persisting (no transaction), as in the
receive path; the returned `Option String` is the propagated error. -/
def applyPulledData (err : ErrOracle) (db : DB) (d : SyncPullData) :
    DB × ApplyResult × Option String :=
  let (db1, pN, e1) := insertPostsLoop err db d.posts
  match e1 with
  | some m => (db1, ⟨pN, 0, 0, 0⟩, some m)
  | none =>
    let (db2, cN, e2) := insertCommentsLoop err db1 d.comments
    match e2 with
    | some m => (db2, ⟨pN, cN, 0, 0⟩, some m)
    | none =>
      let (db3, tN, e3) := insertTracksLoop err db2 d.locationTracks
      match e3 with
      | some m => (db3, ⟨pN, cN, tN, 0⟩, some m)
      | none =>
        let (db4, mN, e4) := insertMediaLoop err db3 d.media
        match e4 with
        | some m => (db4, ⟨pN, cN, tN, mN⟩, some m)
        | none => (db4, ⟨pN, cN, tN, mN⟩, none)

/-- The destination R2 object store, as the set of keys present. -/
structure BucketState where
  keys : List String
deriving DecidableEq, Repr

/-- `bucket.head(path)` as a Boolean existence probe. -/
def bucketHas (b : BucketState) (path : String) : Bool :=
  b.keys.contains path

/-- `bucket.put(path, body, ...)`. -/
def bucketPut (b : BucketState) (path : String) : BucketState :=
  ⟨b.keys ++ [path]⟩

/-- Transfer oracle for `downloadAndUploadMedia`: whether the download from
the source's `/api/sync/pull/media` endpoint and the upload both succeed for
a given file path. -/
def XferOracle : Type := String → Bool

/-- The oracle under which every transfer succeeds. -/
def allXferOk : XferOracle := fun _ => true

/-- Counters and instrumentation accumulated by `syncMediaFiles`:
`transfers` records the file paths for which `downloadAndUploadMedia` was
invoked (i.e. a download was attempted). -/
structure MediaSyncOutcome where
  synced : Nat
  failed : Nat
  transfers : List String
deriving DecidableEq, Repr

/-- One `Promise.allSettled` batch of at most `CONCURRENCY = 3` transfers:
each transfer is independent; fulfilled ones bump `synced` and put the
object, rejected ones bump `failed`.  The puts touch pairwise independent
operations, so folding them sequentially yields the batch's final bucket. -/
def runXferBatch (xfer : XferOracle) (b : BucketState) :
    List UnsyncedMedia → BucketState × MediaSyncOutcome
  | [] => (b, ⟨0, 0, []⟩)
  | m :: rest =>
      let (b1, o1) :=
        if xfer m.file_path then (bucketPut b m.file_path, (⟨1, 0, [m.file_path]⟩ : MediaSyncOutcome))
        else (b, (⟨0, 1, [m.file_path]⟩ : MediaSyncOutcome))
      let (b2, o2) := runXferBatch xfer b1 rest
      (b2, ⟨o1.synced + o2.synced, o1.failed + o2.failed, o1.transfers ++ o2.transfers⟩)

/-- The `for (let i = 0; i < mediaToPull.length; i += CONCURRENCY)` chunking
loop of `syncMediaFiles`: slices of 3, each run as one settled batch. -/
def runXferChunks (xfer : XferOracle) (b : BucketState) :
    List UnsyncedMedia → BucketState × MediaSyncOutcome
  | [] => (b, ⟨0, 0, []⟩)
  | [m] => runXferBatch xfer b [m]
  | [m1, m2] => runXferBatch xfer b [m1, m2]
  | m1 :: m2 :: m3 :: rest =>
      let (b1, o1) := runXferBatch xfer b [m1, m2, m3]
      let (b2, o2) := runXferChunks xfer b1 rest
      (b2, ⟨o1.synced + o2.synced, o1.failed + o2.failed, o1.transfers ++ o2.transfers⟩)

/-- `syncMediaFiles`: filters out the objects whose key the destination
bucket already holds (a `head` probe per object, before any transfer), early
returns `{ synced: 0, failed: 0 }` when nothing is left, and otherwise runs
the remaining transfers in bounded batches of 3. -/
def syncMediaFiles (xfer : XferOracle) (b : BucketState) (mediaList : List UnsyncedMedia) :
    BucketState × MediaSyncOutcome :=
  let mediaToPull := mediaList.filter (fun m => ¬ bucketHas b m.file_path)
  if mediaToPull = [] then (b, ⟨0, 0, []⟩)
  else runXferChunks xfer b mediaToPull

/-- Response JSON of `POST /api/sync/pull/execute`. -/
structure PullResponse where
  success : Bool
  postsPulled : Nat
  commentsPulled : Nat
  locationTracksPulled : Nat
  mediaPulled : Nat
  mediaSynced : Nat
  mediaFailed : Nat
  lastPulledAt : Option String
  error : Option String
deriving DecidableEq, Repr

/-- Remote outcome of the pull's `fetch(targetUrl + "/api/sync/pull?...")`:
same branch structure as the push fetch, with a parsed payload on success. -/
inductive PullOutcome where
  | netError (msg : String)
  | httpError (status : Nat) (body : String)
  | badJson (msg : String)
  | okJson (payload : SyncPullData)
deriving DecidableEq, Repr

/-- `POST /api/sync/pull/execute`.  Creates the pull SyncLog, reads the
cursor for `scopeKey = "shelter:" ++ shelterId` (the `since` parameter of the
remote request), and dispatches on the remote outcome.  Transport error and
non-ok status fail the log explicitly; a JSON-parse throw and an apply throw
land in the outer catch, which fails the log (`logId` is in scope there,
unlike in the push route).  Only after `applyPulledData` succeeds (and the
media files are replicated) is the cursor overwritten with the remote's
`serverTime` and the log completed. -/
def pullRoute (err : ErrOracle) (xfer : XferOracle) (db : DB) (bucket : BucketState)
    (targetUrl : String) (shelterId : Nat) (outcome : PullOutcome) (now : String) :
    DB × BucketState × PullResponse :=
  let (db1, logId) := createSyncLog db "pull" targetUrl (some shelterId) now
  match outcome with
  | .netError m =>
      (failSyncLog db1 logId ("fetch失敗: " ++ m) now, bucket,
       ⟨false, 0, 0, 0, 0, 0, 0, none, some ("本番APIへの接続エラー: " ++ m)⟩)
  | .httpError s b =>
      (failSyncLog db1 logId ("本番API応答エラー: " ++ toString s ++ " " ++ b) now, bucket,
       ⟨false, 0, 0, 0, 0, 0, 0, none, some ("同期先APIエラー: " ++ toString s)⟩)
  | .badJson m =>
      (failSyncLog db1 logId m now, bucket,
       ⟨false, 0, 0, 0, 0, 0, 0, none, some m⟩)
  | .okJson payload =>
      match applyPulledData err db1 payload with
      | (db2, _, some m) =>
          (failSyncLog db2 logId m now, bucket,
           ⟨false, 0, 0, 0, 0, 0, 0, none, some m⟩)
      | (db2, applied, none) =>
          let (bucket', mo) :=
            if payload.media.length > 0 then syncMediaFiles xfer bucket payload.media
            else (bucket, ⟨0, 0, []⟩)
          let db3 := setLastPulledAt db2 ("shelter:" ++ toString shelterId) payload.serverTime
          let db4 := completeSyncLog db3 logId applied.postsApplied
            applied.commentsApplied applied.locationTracksApplied mo.synced now
          (db4, bucket',
           ⟨true, applied.postsApplied, applied.commentsApplied,
            applied.locationTracksApplied, applied.mediaApplied, mo.synced,
            mo.failed, some payload.serverTime, none⟩)

/-- The SyncService flags of the frontend client (`sync-service.ts`):
`syncInProgress` guards only the offline-queue drain
(`syncPendingOperations`), `pullInProgress` guards only
`syncPullFromProduction`. -/
structure SvcState where
  syncInProgress : Bool
  pullInProgress : Bool
deriving DecidableEq, Repr

/-- `SyncService.syncDbToProduction`'s decision to issue
`POST /api/sync/execute`: it checks only that a production API URL is
configured — neither `syncInProgress` nor `pullInProgress` nor any
push-specific in-flight flag is consulted — so the request is issued
regardless of any sync already running. -/
def syncDbToProductionIssues (s : SvcState) (productionApiUrl : Option String) : Bool :=
  match productionApiUrl with
  | none => false
  | some _ => true

/-- Whether an execution of the push route performs the outbound fetch:
follows the route literally — a fetch happens exactly when the three
unsynced entity lists are not all empty (the collection phase consults no
in-flight state whatsoever). -/
def pushFetchCount (db : DB) (targetUrl : String) (shelterId : Option Nat)
    (outcome : FetchOutcome) (markFail : Option String) (now : String) : Nat :=
  if (pushRoute db targetUrl shelterId outcome markFail now).2.fetchIssued then 1 else 0

/-- Two pushes triggered concurrently: both handlers suspend at their
outbound fetch, so both collection phases read the same store before either
mark phase runs — an admissible interleaving of the two awaits.  Since the
entry consults no guard, the number of network calls to the remote receive
endpoint is the sum of the two handlers' independent decisions. -/
def concurrentPushFetchCount (db : DB) (targetUrl : String) (shelterId : Option Nat)
    (outcome : FetchOutcome) (markFail : Option String) (now : String) : Nat :=
  pushFetchCount db targetUrl shelterId outcome markFail now +
  pushFetchCount db targetUrl shelterId outcome markFail now

/-! ### Helper predicates and basic lemmas -/

/-- `db'` extends `db`: every entity table of `db'` is the corresponding
table of `db` plus appended rows, each appended row carrying
`is_synced = 1`. -/
def ExtendsSynced (db db' : DB) : Prop :=
  (∃ t, db'.posts = db.posts ++ t ∧ ∀ r ∈ t, r.is_synced = 1) ∧
  (∃ t, db'.comments = db.comments ++ t ∧ ∀ r ∈ t, r.is_synced = 1) ∧
  (∃ t, db'.tracks = db.tracks ++ t ∧ ∀ r ∈ t, r.is_synced = 1) ∧
  (∃ t, db'.media = db.media ++ t ∧ ∀ r ∈ t, r.is_synced = 1)

theorem extendsSynced_refl (db : DB) : ExtendsSynced db db :=
  ⟨⟨[], by simp⟩, ⟨[], by simp⟩, ⟨[], by simp⟩, ⟨[], by simp⟩⟩

theorem extendsSynced_trans {db1 db2 db3 : DB}
    (h12 : ExtendsSynced db1 db2) (h23 : ExtendsSynced db2 db3) :
    ExtendsSynced db1 db3 := by
  obtain ⟨⟨p1, hp1, hp1s⟩, ⟨c1, hc1, hc1s⟩, ⟨t1, ht1, ht1s⟩, ⟨m1, hm1, hm1s⟩⟩ := h12
  obtain ⟨⟨p2, hp2, hp2s⟩, ⟨c2, hc2, hc2s⟩, ⟨t2, ht2, ht2s⟩, ⟨m2, hm2, hm2s⟩⟩ := h23
  refine ⟨⟨p1 ++ p2, ?_, ?_⟩, ⟨c1 ++ c2, ?_, ?_⟩, ⟨t1 ++ t2, ?_, ?_⟩, ⟨m1 ++ m2, ?_, ?_⟩⟩ <;>
    simp_all <;> intro r hr <;> rcases hr with h | h <;> simp_all

/-- Insertion by `insertPostIfNotExists` either skips (store unchanged) or
appends one synced copy of the batch post; no other field changes. -/
theorem insertPostIfNotExists_spec (err : ErrOracle) (db : DB) (p : UnsyncedPost)
    (db' : DB) (ins : Bool)
    (h : insertPostIfNotExists err db p = .ok (db', ins)) :
    (∃ t, db'.posts = db.posts ++ t ∧ ∀ r ∈ t, r.is_synced = 1 ∧ r.id = p.id) ∧
    db'.comments = db.comments ∧ db'.tracks = db.tracks ∧ db'.media = db.media ∧
    db'.syncLogs = db.syncLogs ∧ db'.logEvents = db.logEvents ∧
    db'.pullCursors = db.pullCursors ∧ db'.nextLogId = db.nextLogId ∧
    (∃ r ∈ db'.posts, r.id = p.id) := by
  unfold insertPostIfNotExists at h
  split at h
  · rename_i hex
    rw [Except.ok.injEq, Prod.mk.injEq] at h
    obtain ⟨rfl, rfl⟩ := h
    refine ⟨⟨[], by simp⟩, rfl, rfl, rfl, rfl, rfl, rfl, rfl, ?_⟩
    simpa using hex
  · split at h
    · exact absurd h (by simp)
    · rw [Except.ok.injEq, Prod.mk.injEq] at h
      obtain ⟨rfl, rfl⟩ := h
      exact ⟨⟨_, rfl, by simp⟩, rfl, rfl, rfl, rfl, rfl, rfl, rfl,
        ⟨⟨p.id, p.author_name, p.shelter_id, p.content, p.latitude,
          p.longitude, p.posted_at, p.created_at, p.updated_at,
          p.is_free_chat, p.status, 1, none⟩, by simp, rfl⟩⟩

/-- Insertion by `insertCommentIfNotExists` either skips or appends one
synced copy; no other field changes. -/
theorem insertCommentIfNotExists_spec (err : ErrOracle) (db : DB) (c : UnsyncedComment)
    (db' : DB) (ins : Bool)
    (h : insertCommentIfNotExists err db c = .ok (db', ins)) :
    (∃ t, db'.comments = db.comments ++ t ∧ ∀ r ∈ t, r.is_synced = 1 ∧ r.id = c.id) ∧
    db'.posts = db.posts ∧ db'.tracks = db.tracks ∧ db'.media = db.media ∧
    db'.syncLogs = db.syncLogs ∧ db'.logEvents = db.logEvents ∧
    db'.pullCursors = db.pullCursors ∧ db'.nextLogId = db.nextLogId ∧
    (∃ r ∈ db'.comments, r.id = c.id) := by
  unfold insertCommentIfNotExists at h
  split at h
  · rename_i hex
    rw [Except.ok.injEq, Prod.mk.injEq] at h
    obtain ⟨rfl, rfl⟩ := h
    refine ⟨⟨[], by simp⟩, rfl, rfl, rfl, rfl, rfl, rfl, rfl, ?_⟩
    simpa using hex
  · split at h
    · exact absurd h (by simp)
    · rw [Except.ok.injEq, Prod.mk.injEq] at h
      obtain ⟨rfl, rfl⟩ := h
      exact ⟨⟨_, rfl, by simp⟩, rfl, rfl, rfl, rfl, rfl, rfl, rfl,
        ⟨⟨c.id, c.post_id, c.author_name, c.content, c.status,
          c.created_at, c.updated_at, 1, none⟩, by simp, rfl⟩⟩

/-- Insertion by `insertLocationTrackIfNotExists` either skips or appends one
synced copy; no other field changes. -/
theorem insertLocationTrackIfNotExists_spec (err : ErrOracle) (db : DB)
    (t : UnsyncedLocationTrack) (db' : DB) (ins : Bool)
    (h : insertLocationTrackIfNotExists err db t = .ok (db', ins)) :
    (∃ u, db'.tracks = db.tracks ++ u ∧ ∀ r ∈ u, r.is_synced = 1 ∧ r.id = t.id) ∧
    db'.posts = db.posts ∧ db'.comments = db.comments ∧ db'.media = db.media ∧
    db'.syncLogs = db.syncLogs ∧ db'.logEvents = db.logEvents ∧
    db'.pullCursors = db.pullCursors ∧ db'.nextLogId = db.nextLogId ∧
    (∃ r ∈ db'.tracks, r.id = t.id) := by
  unfold insertLocationTrackIfNotExists at h
  split at h
  · rename_i hex
    rw [Except.ok.injEq, Prod.mk.injEq] at h
    obtain ⟨rfl, rfl⟩ := h
    refine ⟨⟨[], by simp⟩, rfl, rfl, rfl, rfl, rfl, rfl, rfl, ?_⟩
    simpa using hex
  · split at h
    · exact absurd h (by simp)
    · rw [Except.ok.injEq, Prod.mk.injEq] at h
      obtain ⟨rfl, rfl⟩ := h
      exact ⟨⟨_, rfl, by simp⟩, rfl, rfl, rfl, rfl, rfl, rfl, rfl,
        ⟨⟨t.id, t.post_id, t.recorded_at, t.latitude, t.longitude,
          t.created_at, t.updated_at, 1, none⟩, by simp, rfl⟩⟩

/-- Insertion by `insertMediaIfNotExists` either skips or appends one synced
copy; no other field changes. -/
theorem insertMediaIfNotExists_spec (err : ErrOracle) (db : DB) (m : UnsyncedMedia)
    (db' : DB) (ins : Bool)
    (h : insertMediaIfNotExists err db m = .ok (db', ins)) :
    (∃ t, db'.media = db.media ++ t ∧ ∀ r ∈ t, r.is_synced = 1 ∧ r.id = m.id) ∧
    db'.posts = db.posts ∧ db'.comments = db.comments ∧ db'.tracks = db.tracks ∧
    db'.syncLogs = db.syncLogs ∧ db'.logEvents = db.logEvents ∧
    db'.pullCursors = db.pullCursors ∧ db'.nextLogId = db.nextLogId := by
  unfold insertMediaIfNotExists at h
  split at h
  · rw [Except.ok.injEq, Prod.mk.injEq] at h
    obtain ⟨rfl, rfl⟩ := h
    exact ⟨⟨[], by simp⟩, rfl, rfl, rfl, rfl, rfl, rfl, rfl⟩
  · split at h
    · rw [Except.ok.injEq, Prod.mk.injEq] at h
      obtain ⟨rfl, rfl⟩ := h
      exact ⟨⟨[], by simp⟩, rfl, rfl, rfl, rfl, rfl, rfl, rfl⟩
    · split at h
      · exact absurd h (by simp)
      · rw [Except.ok.injEq, Prod.mk.injEq] at h
        obtain ⟨rfl, rfl⟩ := h
        exact ⟨⟨_, rfl, by simp⟩, rfl, rfl, rfl, rfl, rfl, rfl, rfl⟩

/-- A post whose id is already stored is skipped: no state change, no count,
no error — regardless of the error oracle. -/
theorem insertPostIfNotExists_skip (err : ErrOracle) (db : DB) (p : UnsyncedPost)
    (h : ∃ r ∈ db.posts, r.id = p.id) :
    insertPostIfNotExists err db p = .ok (db, false) := by
  unfold insertPostIfNotExists
  rw [if_pos]
  simpa using h

/-- A comment whose id is already stored is skipped. -/
theorem insertCommentIfNotExists_skip (err : ErrOracle) (db : DB) (c : UnsyncedComment)
    (h : ∃ r ∈ db.comments, r.id = c.id) :
    insertCommentIfNotExists err db c = .ok (db, false) := by
  unfold insertCommentIfNotExists
  rw [if_pos]
  simpa using h

/-- A location track whose id is already stored is skipped. -/
theorem insertLocationTrackIfNotExists_skip (err : ErrOracle) (db : DB)
    (t : UnsyncedLocationTrack) (h : ∃ r ∈ db.tracks, r.id = t.id) :
    insertLocationTrackIfNotExists err db t = .ok (db, false) := by
  unfold insertLocationTrackIfNotExists
  rw [if_pos]
  simpa using h

/-- A media row whose id is already stored is skipped. -/
theorem insertMediaIfNotExists_skip (err : ErrOracle) (db : DB) (m : UnsyncedMedia)
    (h : ∃ r ∈ db.media, r.id = m.id) :
    insertMediaIfNotExists err db m = .ok (db, false) := by
  unfold insertMediaIfNotExists
  rw [if_pos]
  simpa using h

/-- A media row whose referenced post is absent from the destination `posts`
table is skipped with a warning: no insert, no count, no error. -/
theorem insertMediaIfNotExists_noPost (err : ErrOracle) (db : DB) (m : UnsyncedMedia)
    (h : ¬ ∃ r ∈ db.posts, r.id = m.post_id) :
    insertMediaIfNotExists err db m = .ok (db, false) := by
  unfold insertMediaIfNotExists
  split
  · rfl
  · rw [if_pos]
    simpa using h

/-- A media row is actually inserted only when its referenced post exists at
the destination. -/
theorem insertMediaIfNotExists_post_exists (err : ErrOracle) (db : DB)
    (m : UnsyncedMedia) (db' : DB)
    (h : insertMediaIfNotExists err db m = .ok (db', true)) :
    ∃ r ∈ db.posts, r.id = m.post_id := by
  unfold insertMediaIfNotExists at h
  split at h
  · exact absurd h (by simp)
  · split at h
    · exact absurd h (by simp)
    · rename_i hpost
      simpa using not_not.mp (by simpa using hpost)

/-- With the error-free oracle every post insert returns `ok`. -/
theorem insertPostIfNotExists_total (db : DB) (p : UnsyncedPost) :
    ∃ db' ins, insertPostIfNotExists noErr db p = .ok (db', ins) := by
  unfold insertPostIfNotExists
  split
  · exact ⟨_, _, rfl⟩
  · exact ⟨_, _, rfl⟩

/-- With the error-free oracle every comment insert returns `ok`. -/
theorem insertCommentIfNotExists_total (db : DB) (c : UnsyncedComment) :
    ∃ db' ins, insertCommentIfNotExists noErr db c = .ok (db', ins) := by
  unfold insertCommentIfNotExists
  split
  · exact ⟨_, _, rfl⟩
  · exact ⟨_, _, rfl⟩

/-- With the error-free oracle every track insert returns `ok`. -/
theorem insertLocationTrackIfNotExists_total (db : DB) (t : UnsyncedLocationTrack) :
    ∃ db' ins, insertLocationTrackIfNotExists noErr db t = .ok (db', ins) := by
  unfold insertLocationTrackIfNotExists
  split
  · exact ⟨_, _, rfl⟩
  · exact ⟨_, _, rfl⟩

/-- With the error-free oracle every media insert returns `ok`. -/
theorem insertMediaIfNotExists_total (db : DB) (m : UnsyncedMedia) :
    ∃ db' ins, insertMediaIfNotExists noErr db m = .ok (db', ins) := by
  unfold insertMediaIfNotExists
  split
  · exact ⟨_, _, rfl⟩
  · split
    · exact ⟨_, _, rfl⟩
    · exact ⟨_, _, rfl⟩

/-- The posts loop only appends synced copies of batch posts to the `posts`
table and leaves every other field alone. -/
theorem insertPostsLoop_spec (err : ErrOracle) (l : List UnsyncedPost) :
    ∀ db db' n e, insertPostsLoop err db l = (db', n, e) →
    (∃ t, db'.posts = db.posts ++ t ∧ ∀ r ∈ t, r.is_synced = 1 ∧ ∃ p ∈ l, r.id = p.id) ∧
    db'.comments = db.comments ∧ db'.tracks = db.tracks ∧ db'.media = db.media ∧
    db'.syncLogs = db.syncLogs ∧ db'.logEvents = db.logEvents ∧
    db'.pullCursors = db.pullCursors ∧ db'.nextLogId = db.nextLogId := by
  induction l with
  | nil =>
    intro db db' n e h
    simp only [insertPostsLoop, Prod.mk.injEq] at h
    obtain ⟨rfl, -, -⟩ := h
    exact ⟨⟨[], by simp⟩, rfl, rfl, rfl, rfl, rfl, rfl, rfl⟩
  | cons p rest ih =>
    intro db db' n e h
    simp only [insertPostsLoop] at h
    cases hins : insertPostIfNotExists err db p with
    | error m =>
      rw [hins] at h
      simp only [Prod.mk.injEq] at h
      obtain ⟨rfl, -, -⟩ := h
      exact ⟨⟨[], by simp⟩, rfl, rfl, rfl, rfl, rfl, rfl, rfl⟩
    | ok pr =>
      obtain ⟨db1, ins⟩ := pr
      rw [hins] at h
      dsimp only at h
      obtain ⟨⟨t1, ht1, ht1s⟩, hc1, ht1', hm1, hl1, he1, hp1, hn1, -⟩ :=
        insertPostIfNotExists_spec err db p db1 ins hins
      rcases hrest : insertPostsLoop err db1 rest with ⟨db2, n2, e2⟩
      rw [hrest] at h
      simp only [Prod.mk.injEq] at h
      obtain ⟨rfl, -, -⟩ := h
      obtain ⟨⟨t2, ht2, ht2s⟩, hc2, ht2', hm2, hl2, he2, hp2, hn2⟩ :=
        ih db1 db2 n2 e2 hrest
      refine ⟨⟨t1 ++ t2, ?_, ?_⟩, by rw [hc2, hc1], by rw [ht2', ht1'],
        by rw [hm2, hm1], by rw [hl2, hl1], by rw [he2, he1],
        by rw [hp2, hp1], by rw [hn2, hn1]⟩
      · rw [ht2, ht1, List.append_assoc]
      · intro r hr
        rcases List.mem_append.mp hr with hr | hr
        · obtain ⟨hs, hid⟩ := ht1s r hr
          exact ⟨hs, p, by simp, hid⟩
        · obtain ⟨hs, q, hq, hid⟩ := ht2s r hr
          exact ⟨hs, q, by simp [hq], hid⟩

/-- If every post of the list is already present by id, the posts loop is a
no-op: unchanged store, zero count, no error. -/
theorem insertPostsLoop_skipAll (err : ErrOracle) (l : List UnsyncedPost) :
    ∀ db, (∀ p ∈ l, ∃ r ∈ db.posts, r.id = p.id) →
    insertPostsLoop err db l = (db, 0, none) := by
  induction l with
  | nil => intro db _; simp [insertPostsLoop]
  | cons p rest ih =>
    intro db hall
    have hskip := insertPostIfNotExists_skip err db p (hall p (by simp))
    simp only [insertPostsLoop, hskip]
    rw [ih db (fun q hq => hall q (by simp [hq]))]
    simp

/-- With the error-free oracle the posts loop reports no error and leaves
every batch post present by id. -/
theorem insertPostsLoop_noErr (l : List UnsyncedPost) :
    ∀ db db' n e, insertPostsLoop noErr db l = (db', n, e) →
    e = none ∧ ∀ p ∈ l, ∃ r ∈ db'.posts, r.id = p.id := by
  induction l with
  | nil =>
    intro db db' n e h
    simp only [insertPostsLoop, Prod.mk.injEq] at h
    obtain ⟨-, -, rfl⟩ := h
    exact ⟨rfl, by simp⟩
  | cons p rest ih =>
    intro db db' n e h
    simp only [insertPostsLoop] at h
    obtain ⟨db1, ins, hins⟩ := insertPostIfNotExists_total db p
    rw [hins] at h
    dsimp only at h
    rcases hrest : insertPostsLoop noErr db1 rest with ⟨db2, n2, e2⟩
    rw [hrest] at h
    simp only [Prod.mk.injEq] at h
    obtain ⟨rfl, -, rfl⟩ := h
    obtain ⟨he, hpres⟩ := ih db1 db2 n2 e2 hrest
    refine ⟨he, ?_⟩
    intro q hq
    rcases List.mem_cons.mp hq with rfl | hq
    · obtain ⟨-, -, -, -, -, -, -, -, r, hr, hrid⟩ :=
        insertPostIfNotExists_spec noErr db q db1 ins hins
      obtain ⟨t2, ht2, -⟩ := (insertPostsLoop_spec noErr rest db1 db2 n2 e2 hrest).1
      exact ⟨r, by simp [ht2, List.mem_append.mpr (Or.inl hr)], hrid⟩
    · exact hpres q hq

/-- The comments loop only appends synced copies of batch comments. -/
theorem insertCommentsLoop_spec (err : ErrOracle) (l : List UnsyncedComment) :
    ∀ db db' n e, insertCommentsLoop err db l = (db', n, e) →
    (∃ t, db'.comments = db.comments ++ t ∧ ∀ r ∈ t, r.is_synced = 1 ∧ ∃ c ∈ l, r.id = c.id) ∧
    db'.posts = db.posts ∧ db'.tracks = db.tracks ∧ db'.media = db.media ∧
    db'.syncLogs = db.syncLogs ∧ db'.logEvents = db.logEvents ∧
    db'.pullCursors = db.pullCursors ∧ db'.nextLogId = db.nextLogId := by
  induction l with
  | nil =>
    intro db db' n e h
    simp only [insertCommentsLoop, Prod.mk.injEq] at h
    obtain ⟨rfl, -, -⟩ := h
    exact ⟨⟨[], by simp⟩, rfl, rfl, rfl, rfl, rfl, rfl, rfl⟩
  | cons c rest ih =>
    intro db db' n e h
    simp only [insertCommentsLoop] at h
    cases hins : insertCommentIfNotExists err db c with
    | error m =>
      rw [hins] at h
      simp only [Prod.mk.injEq] at h
      obtain ⟨rfl, -, -⟩ := h
      exact ⟨⟨[], by simp⟩, rfl, rfl, rfl, rfl, rfl, rfl, rfl⟩
    | ok pr =>
      obtain ⟨db1, ins⟩ := pr
      rw [hins] at h
      dsimp only at h
      obtain ⟨⟨t1, ht1, ht1s⟩, hc1, ht1', hm1, hl1, he1, hp1, hn1, -⟩ :=
        insertCommentIfNotExists_spec err db c db1 ins hins
      rcases hrest : insertCommentsLoop err db1 rest with ⟨db2, n2, e2⟩
      rw [hrest] at h
      simp only [Prod.mk.injEq] at h
      obtain ⟨rfl, -, -⟩ := h
      obtain ⟨⟨t2, ht2, ht2s⟩, hc2, ht2', hm2, hl2, he2, hp2, hn2⟩ :=
        ih db1 db2 n2 e2 hrest
      refine ⟨⟨t1 ++ t2, ?_, ?_⟩, by rw [hc2, hc1], by rw [ht2', ht1'],
        by rw [hm2, hm1], by rw [hl2, hl1], by rw [he2, he1],
        by rw [hp2, hp1], by rw [hn2, hn1]⟩
      · rw [ht2, ht1, List.append_assoc]
      · intro r hr
        rcases List.mem_append.mp hr with hr | hr
        · obtain ⟨hs, hid⟩ := ht1s r hr
          exact ⟨hs, c, by simp, hid⟩
        · obtain ⟨hs, q, hq, hid⟩ := ht2s r hr
          exact ⟨hs, q, by simp [hq], hid⟩

/-- If every comment of the list is already present by id, the comments loop
is a no-op. -/
theorem insertCommentsLoop_skipAll (err : ErrOracle) (l : List UnsyncedComment) :
    ∀ db, (∀ c ∈ l, ∃ r ∈ db.comments, r.id = c.id) →
    insertCommentsLoop err db l = (db, 0, none) := by
  induction l with
  | nil => intro db _; simp [insertCommentsLoop]
  | cons c rest ih =>
    intro db hall
    have hskip := insertCommentIfNotExists_skip err db c (hall c (by simp))
    simp only [insertCommentsLoop, hskip]
    rw [ih db (fun q hq => hall q (by simp [hq]))]
    simp

/-- With the error-free oracle the comments loop reports no error and leaves
every batch comment present by id. -/
theorem insertCommentsLoop_noErr (l : List UnsyncedComment) :
    ∀ db db' n e, insertCommentsLoop noErr db l = (db', n, e) →
    e = none ∧ ∀ c ∈ l, ∃ r ∈ db'.comments, r.id = c.id := by
  induction l with
  | nil =>
    intro db db' n e h
    simp only [insertCommentsLoop, Prod.mk.injEq] at h
    obtain ⟨-, -, rfl⟩ := h
    exact ⟨rfl, by simp⟩
  | cons c rest ih =>
    intro db db' n e h
    simp only [insertCommentsLoop] at h
    obtain ⟨db1, ins, hins⟩ := insertCommentIfNotExists_total db c
    rw [hins] at h
    dsimp only at h
    rcases hrest : insertCommentsLoop noErr db1 rest with ⟨db2, n2, e2⟩
    rw [hrest] at h
    simp only [Prod.mk.injEq] at h
    obtain ⟨rfl, -, rfl⟩ := h
    obtain ⟨he, hpres⟩ := ih db1 db2 n2 e2 hrest
    refine ⟨he, ?_⟩
    intro q hq
    rcases List.mem_cons.mp hq with rfl | hq
    · obtain ⟨-, -, -, -, -, -, -, -, r, hr, hrid⟩ :=
        insertCommentIfNotExists_spec noErr db q db1 ins hins
      obtain ⟨t2, ht2, -⟩ := (insertCommentsLoop_spec noErr rest db1 db2 n2 e2 hrest).1
      exact ⟨r, by simp [ht2, List.mem_append.mpr (Or.inl hr)], hrid⟩
    · exact hpres q hq

/-- The tracks loop only appends synced copies of batch tracks. -/
theorem insertTracksLoop_spec (err : ErrOracle) (l : List UnsyncedLocationTrack) :
    ∀ db db' n e, insertTracksLoop err db l = (db', n, e) →
    (∃ t, db'.tracks = db.tracks ++ t ∧ ∀ r ∈ t, r.is_synced = 1 ∧ ∃ x ∈ l, r.id = x.id) ∧
    db'.posts = db.posts ∧ db'.comments = db.comments ∧ db'.media = db.media ∧
    db'.syncLogs = db.syncLogs ∧ db'.logEvents = db.logEvents ∧
    db'.pullCursors = db.pullCursors ∧ db'.nextLogId = db.nextLogId := by
  induction l with
  | nil =>
    intro db db' n e h
    simp only [insertTracksLoop, Prod.mk.injEq] at h
    obtain ⟨rfl, -, -⟩ := h
    exact ⟨⟨[], by simp⟩, rfl, rfl, rfl, rfl, rfl, rfl, rfl⟩
  | cons x rest ih =>
    intro db db' n e h
    simp only [insertTracksLoop] at h
    cases hins : insertLocationTrackIfNotExists err db x with
    | error m =>
      rw [hins] at h
      simp only [Prod.mk.injEq] at h
      obtain ⟨rfl, -, -⟩ := h
      exact ⟨⟨[], by simp⟩, rfl, rfl, rfl, rfl, rfl, rfl, rfl⟩
    | ok pr =>
      obtain ⟨db1, ins⟩ := pr
      rw [hins] at h
      dsimp only at h
      obtain ⟨⟨t1, ht1, ht1s⟩, hc1, ht1', hm1, hl1, he1, hp1, hn1, -⟩ :=
        insertLocationTrackIfNotExists_spec err db x db1 ins hins
      rcases hrest : insertTracksLoop err db1 rest with ⟨db2, n2, e2⟩
      rw [hrest] at h
      simp only [Prod.mk.injEq] at h
      obtain ⟨rfl, -, -⟩ := h
      obtain ⟨⟨t2, ht2, ht2s⟩, hc2, ht2', hm2, hl2, he2, hp2, hn2⟩ :=
        ih db1 db2 n2 e2 hrest
      refine ⟨⟨t1 ++ t2, ?_, ?_⟩, by rw [hc2, hc1], by rw [ht2', ht1'],
        by rw [hm2, hm1], by rw [hl2, hl1], by rw [he2, he1],
        by rw [hp2, hp1], by rw [hn2, hn1]⟩
      · rw [ht2, ht1, List.append_assoc]
      · intro r hr
        rcases List.mem_append.mp hr with hr | hr
        · obtain ⟨hs, hid⟩ := ht1s r hr
          exact ⟨hs, x, by simp, hid⟩
        · obtain ⟨hs, q, hq, hid⟩ := ht2s r hr
          exact ⟨hs, q, by simp [hq], hid⟩

/-- If every track of the list is already present by id, the tracks loop is
a no-op. -/
theorem insertTracksLoop_skipAll (err : ErrOracle) (l : List UnsyncedLocationTrack) :
    ∀ db, (∀ x ∈ l, ∃ r ∈ db.tracks, r.id = x.id) →
    insertTracksLoop err db l = (db, 0, none) := by
  induction l with
  | nil => intro db _; simp [insertTracksLoop]
  | cons x rest ih =>
    intro db hall
    have hskip := insertLocationTrackIfNotExists_skip err db x (hall x (by simp))
    simp only [insertTracksLoop, hskip]
    rw [ih db (fun q hq => hall q (by simp [hq]))]
    simp

/-- With the error-free oracle the tracks loop reports no error and leaves
every batch track present by id. -/
theorem insertTracksLoop_noErr (l : List UnsyncedLocationTrack) :
    ∀ db db' n e, insertTracksLoop noErr db l = (db', n, e) →
    e = none ∧ ∀ x ∈ l, ∃ r ∈ db'.tracks, r.id = x.id := by
  induction l with
  | nil =>
    intro db db' n e h
    simp only [insertTracksLoop, Prod.mk.injEq] at h
    obtain ⟨-, -, rfl⟩ := h
    exact ⟨rfl, by simp⟩
  | cons x rest ih =>
    intro db db' n e h
    simp only [insertTracksLoop] at h
    obtain ⟨db1, ins, hins⟩ := insertLocationTrackIfNotExists_total db x
    rw [hins] at h
    dsimp only at h
    rcases hrest : insertTracksLoop noErr db1 rest with ⟨db2, n2, e2⟩
    rw [hrest] at h
    simp only [Prod.mk.injEq] at h
    obtain ⟨rfl, -, rfl⟩ := h
    obtain ⟨he, hpres⟩ := ih db1 db2 n2 e2 hrest
    refine ⟨he, ?_⟩
    intro q hq
    rcases List.mem_cons.mp hq with rfl | hq
    · obtain ⟨-, -, -, -, -, -, -, -, r, hr, hrid⟩ :=
        insertLocationTrackIfNotExists_spec noErr db q db1 ins hins
      obtain ⟨t2, ht2, -⟩ := (insertTracksLoop_spec noErr rest db1 db2 n2 e2 hrest).1
      exact ⟨r, by simp [ht2, List.mem_append.mpr (Or.inl hr)], hrid⟩
    · exact hpres q hq

/-- The media loop only appends synced copies of batch media rows. -/
theorem insertMediaLoop_spec (err : ErrOracle) (l : List UnsyncedMedia) :
    ∀ db db' n e, insertMediaLoop err db l = (db', n, e) →
    (∃ t, db'.media = db.media ++ t ∧ ∀ r ∈ t, r.is_synced = 1 ∧ ∃ m ∈ l, r.id = m.id) ∧
    db'.posts = db.posts ∧ db'.comments = db.comments ∧ db'.tracks = db.tracks ∧
    db'.syncLogs = db.syncLogs ∧ db'.logEvents = db.logEvents ∧
    db'.pullCursors = db.pullCursors ∧ db'.nextLogId = db.nextLogId := by
  induction l with
  | nil =>
    intro db db' n e h
    simp only [insertMediaLoop, Prod.mk.injEq] at h
    obtain ⟨rfl, -, -⟩ := h
    exact ⟨⟨[], by simp⟩, rfl, rfl, rfl, rfl, rfl, rfl, rfl⟩
  | cons m rest ih =>
    intro db db' n e h
    simp only [insertMediaLoop] at h
    cases hins : insertMediaIfNotExists err db m with
    | error msg =>
      rw [hins] at h
      simp only [Prod.mk.injEq] at h
      obtain ⟨rfl, -, -⟩ := h
      exact ⟨⟨[], by simp⟩, rfl, rfl, rfl, rfl, rfl, rfl, rfl⟩
    | ok pr =>
      obtain ⟨db1, ins⟩ := pr
      rw [hins] at h
      dsimp only at h
      obtain ⟨⟨t1, ht1, ht1s⟩, hc1, ht1', hm1, hl1, he1, hp1, hn1⟩ :=
        insertMediaIfNotExists_spec err db m db1 ins hins
      rcases hrest : insertMediaLoop err db1 rest with ⟨db2, n2, e2⟩
      rw [hrest] at h
      simp only [Prod.mk.injEq] at h
      obtain ⟨rfl, -, -⟩ := h
      obtain ⟨⟨t2, ht2, ht2s⟩, hc2, ht2', hm2, hl2, he2, hp2, hn2⟩ :=
        ih db1 db2 n2 e2 hrest
      refine ⟨⟨t1 ++ t2, ?_, ?_⟩, by rw [hc2, hc1], by rw [ht2', ht1'],
        by rw [hm2, hm1], by rw [hl2, hl1], by rw [he2, he1],
        by rw [hp2, hp1], by rw [hn2, hn1]⟩
      · rw [ht2, ht1, List.append_assoc]
      · intro r hr
        rcases List.mem_append.mp hr with hr | hr
        · obtain ⟨hs, hid⟩ := ht1s r hr
          exact ⟨hs, m, by simp, hid⟩
        · obtain ⟨hs, q, hq, hid⟩ := ht2s r hr
          exact ⟨hs, q, by simp [hq], hid⟩

/-- If every media row of the list is already present by id, the media loop
is a no-op. -/
theorem insertMediaLoop_skipAll (err : ErrOracle) (l : List UnsyncedMedia) :
    ∀ db, (∀ m ∈ l, ∃ r ∈ db.media, r.id = m.id) →
    insertMediaLoop err db l = (db, 0, none) := by
  induction l with
  | nil => intro db _; simp [insertMediaLoop]
  | cons m rest ih =>
    intro db hall
    have hskip := insertMediaIfNotExists_skip err db m (hall m (by simp))
    simp only [insertMediaLoop, hskip]
    rw [ih db (fun q hq => hall q (by simp [hq]))]
    simp

/-- With the error-free oracle the media loop reports no error, and every
batch media row whose referenced post is present at loop start is present by
id afterwards (the loop itself never touches the `posts` table). -/
theorem insertMediaLoop_noErr (l : List UnsyncedMedia) :
    ∀ db db' n e, insertMediaLoop noErr db l = (db', n, e) →
    e = none ∧ ∀ m ∈ l, (∃ r ∈ db.posts, r.id = m.post_id) →
      ∃ r ∈ db'.media, r.id = m.id := by
  induction l with
  | nil =>
    intro db db' n e h
    simp only [insertMediaLoop, Prod.mk.injEq] at h
    obtain ⟨-, -, rfl⟩ := h
    exact ⟨rfl, by simp⟩
  | cons m rest ih =>
    intro db db' n e h
    simp only [insertMediaLoop] at h
    obtain ⟨db1, ins, hins⟩ := insertMediaIfNotExists_total db m
    rw [hins] at h
    dsimp only at h
    rcases hrest : insertMediaLoop noErr db1 rest with ⟨db2, n2, e2⟩
    rw [hrest] at h
    simp only [Prod.mk.injEq] at h
    obtain ⟨rfl, -, rfl⟩ := h
    obtain ⟨he, hpres⟩ := ih db1 db2 n2 e2 hrest
    obtain ⟨⟨t1, ht1, -⟩, hposts1, -, -, -, -, -, -⟩ :=
      insertMediaIfNotExists_spec noErr db m db1 ins hins
    refine ⟨he, ?_⟩
    intro q hq hqpost
    rcases List.mem_cons.mp hq with rfl | hq
    · -- the head insert: either q.id already existed or it was inserted now
      have hmem : ∃ r ∈ db1.media, r.id = q.id := by
        unfold insertMediaIfNotExists at hins
        split at hins
        · rename_i hex
          rw [Except.ok.injEq, Prod.mk.injEq] at hins
          obtain ⟨rfl, -⟩ := hins
          simpa using hex
        · split at hins
          · rename_i hnopost
            exact absurd (by simpa using hqpost) (by simpa using hnopost)
          · split at hins
            · exact absurd hins (by simp)
            · rw [Except.ok.injEq, Prod.mk.injEq] at hins
              obtain ⟨rfl, -⟩ := hins
              exact ⟨⟨q.id, q.post_id, q.file_path, q.media_type, q.file_name,
                q.created_at, q.updated_at, q.deleted_at, none, 1⟩, by simp, rfl⟩
      obtain ⟨r, hr, hrid⟩ := hmem
      obtain ⟨t2, ht2, -⟩ := (insertMediaLoop_spec noErr rest db1 db2 n2 e2 hrest).1
      exact ⟨r, by simp [ht2, List.mem_append.mpr (Or.inl hr)], hrid⟩
    · exact hpres q hq (by rw [hposts1]; exact hqpost)

/-- The non-entity fields of the store: SyncLog table, event trace, pull
cursors and the id counter. -/
def NonEntityUnchanged (db db' : DB) : Prop :=
  db'.syncLogs = db.syncLogs ∧ db'.logEvents = db.logEvents ∧
  db'.pullCursors = db.pullCursors ∧ db'.nextLogId = db.nextLogId

theorem nonEntityUnchanged_refl (db : DB) : NonEntityUnchanged db db :=
  ⟨rfl, rfl, rfl, rfl⟩

theorem nonEntityUnchanged_trans {db1 db2 db3 : DB}
    (h12 : NonEntityUnchanged db1 db2) (h23 : NonEntityUnchanged db2 db3) :
    NonEntityUnchanged db1 db3 := by
  obtain ⟨a, b, c, d⟩ := h12
  obtain ⟨a', b', c', d'⟩ := h23
  exact ⟨a' ▸ a, b' ▸ b, c' ▸ c, d' ▸ d⟩

theorem insertPostsLoop_extends (err : ErrOracle) (l : List UnsyncedPost)
    (db db' : DB) (n : Nat) (e : Option String)
    (h : insertPostsLoop err db l = (db', n, e)) :
    ExtendsSynced db db' ∧ NonEntityUnchanged db db' := by
  obtain ⟨⟨t, ht, hts⟩, hc, htr, hm, hl, he, hp, hn⟩ := insertPostsLoop_spec err l db db' n e h
  exact ⟨⟨⟨t, ht, fun r hr => (hts r hr).1⟩, ⟨[], by simp [hc]⟩,
    ⟨[], by simp [htr]⟩, ⟨[], by simp [hm]⟩⟩, hl, he, hp, hn⟩

theorem insertCommentsLoop_extends (err : ErrOracle) (l : List UnsyncedComment)
    (db db' : DB) (n : Nat) (e : Option String)
    (h : insertCommentsLoop err db l = (db', n, e)) :
    ExtendsSynced db db' ∧ NonEntityUnchanged db db' := by
  obtain ⟨⟨t, ht, hts⟩, hps, htr, hm, hl, he, hp, hn⟩ := insertCommentsLoop_spec err l db db' n e h
  exact ⟨⟨⟨[], by simp [hps]⟩, ⟨t, ht, fun r hr => (hts r hr).1⟩,
    ⟨[], by simp [htr]⟩, ⟨[], by simp [hm]⟩⟩, hl, he, hp, hn⟩

theorem insertTracksLoop_extends (err : ErrOracle) (l : List UnsyncedLocationTrack)
    (db db' : DB) (n : Nat) (e : Option String)
    (h : insertTracksLoop err db l = (db', n, e)) :
    ExtendsSynced db db' ∧ NonEntityUnchanged db db' := by
  obtain ⟨⟨t, ht, hts⟩, hps, hc, hm, hl, he, hp, hn⟩ := insertTracksLoop_spec err l db db' n e h
  exact ⟨⟨⟨[], by simp [hps]⟩, ⟨[], by simp [hc]⟩,
    ⟨t, ht, fun r hr => (hts r hr).1⟩, ⟨[], by simp [hm]⟩⟩, hl, he, hp, hn⟩

theorem insertMediaLoop_extends (err : ErrOracle) (l : List UnsyncedMedia)
    (db db' : DB) (n : Nat) (e : Option String)
    (h : insertMediaLoop err db l = (db', n, e)) :
    ExtendsSynced db db' ∧ NonEntityUnchanged db db' := by
  obtain ⟨⟨t, ht, hts⟩, hps, hc, htr, hl, he, hp, hn⟩ := insertMediaLoop_spec err l db db' n e h
  exact ⟨⟨⟨[], by simp [hps]⟩, ⟨[], by simp [hc]⟩,
    ⟨[], by simp [htr]⟩, ⟨t, ht, fun r hr => (hts r hr).1⟩⟩, hl, he, hp, hn⟩

/-- `receiveAndInsertSyncData` only appends synced rows to the entity tables
and never touches logs, events, cursors or the id counter — in success and
failure alike (no transaction, no rollback). -/
theorem receiveAndInsertSyncData_spec (err : ErrOracle) (db : DB)
    (data : SyncReceiveData) (db' : DB) (res : SyncResult)
    (h : receiveAndInsertSyncData err db data = (db', res)) :
    ExtendsSynced db db' ∧ NonEntityUnchanged db db' := by
  unfold receiveAndInsertSyncData at h
  rcases h1 : insertPostsLoop err db data.posts with ⟨db1, pN, e1⟩
  rw [h1] at h
  dsimp only at h
  obtain ⟨hx1, hu1⟩ := insertPostsLoop_extends err data.posts db db1 pN e1 h1
  cases e1 with
  | some m =>
    simp only [Prod.mk.injEq] at h
    obtain ⟨rfl, -⟩ := h
    exact ⟨hx1, hu1⟩
  | none =>
    simp only at h
    rcases h2 : insertMediaLoop err db1 data.media with ⟨db2, mN, e2⟩
    rw [h2] at h
    dsimp only at h
    obtain ⟨hx2, hu2⟩ := insertMediaLoop_extends err data.media db1 db2 mN e2 h2
    cases e2 with
    | some m =>
      simp only [Prod.mk.injEq] at h
      obtain ⟨rfl, -⟩ := h
      exact ⟨extendsSynced_trans hx1 hx2, nonEntityUnchanged_trans hu1 hu2⟩
    | none =>
      simp only at h
      rcases h3 : insertCommentsLoop err db2 data.comments with ⟨db3, cN, e3⟩
      rw [h3] at h
      dsimp only at h
      obtain ⟨hx3, hu3⟩ := insertCommentsLoop_extends err data.comments db2 db3 cN e3 h3
      cases e3 with
      | some m =>
        simp only [Prod.mk.injEq] at h
        obtain ⟨rfl, -⟩ := h
        exact ⟨extendsSynced_trans (extendsSynced_trans hx1 hx2) hx3,
          nonEntityUnchanged_trans (nonEntityUnchanged_trans hu1 hu2) hu3⟩
      | none =>
        simp only at h
        rcases h4 : insertTracksLoop err db3 data.locationTracks with ⟨db4, tN, e4⟩
        rw [h4] at h
        dsimp only at h
        obtain ⟨hx4, hu4⟩ := insertTracksLoop_extends err data.locationTracks db3 db4 tN e4 h4
        cases e4 with
        | some m =>
          simp only [Prod.mk.injEq] at h
          obtain ⟨rfl, -⟩ := h
          exact ⟨extendsSynced_trans (extendsSynced_trans (extendsSynced_trans hx1 hx2) hx3) hx4,
            nonEntityUnchanged_trans (nonEntityUnchanged_trans (nonEntityUnchanged_trans hu1 hu2) hu3) hu4⟩
        | none =>
          simp only [Prod.mk.injEq] at h
          obtain ⟨rfl, -⟩ := h
          exact ⟨extendsSynced_trans (extendsSynced_trans (extendsSynced_trans hx1 hx2) hx3) hx4,
            nonEntityUnchanged_trans (nonEntityUnchanged_trans (nonEntityUnchanged_trans hu1 hu2) hu3) hu4⟩

/-- When every record of the group is already present by id, the group's
insertion pass is a perfect no-op: unchanged store, all-zero counts,
success. -/
theorem receiveAndInsertSyncData_skipAll (err : ErrOracle) (db : DB)
    (data : SyncReceiveData)
    (hp : ∀ p ∈ data.posts, ∃ r ∈ db.posts, r.id = p.id)
    (hm : ∀ m ∈ data.media, ∃ r ∈ db.media, r.id = m.id)
    (hc : ∀ c ∈ data.comments, ∃ r ∈ db.comments, r.id = c.id)
    (ht : ∀ t ∈ data.locationTracks, ∃ r ∈ db.tracks, r.id = t.id) :
    receiveAndInsertSyncData err db data = (db, ⟨true, 0, 0, 0, 0, none⟩) := by
  unfold receiveAndInsertSyncData
  rw [insertPostsLoop_skipAll err data.posts db hp]
  dsimp only
  rw [insertMediaLoop_skipAll err data.media db hm]
  dsimp only
  rw [insertCommentsLoop_skipAll err data.comments db hc]
  dsimp only
  rw [insertTracksLoop_skipAll err data.locationTracks db ht]

/-- With the error-free oracle the group's insertion pass succeeds and leaves
every post, comment and track of the group present; a media row of the group
is present afterwards provided its referenced post was stored beforehand or
rides in the same group. -/
theorem receiveAndInsertSyncData_noErr (db : DB) (data : SyncReceiveData)
    (db' : DB) (res : SyncResult)
    (h : receiveAndInsertSyncData noErr db data = (db', res)) :
    res.success = true ∧
    (∀ p ∈ data.posts, ∃ r ∈ db'.posts, r.id = p.id) ∧
    (∀ c ∈ data.comments, ∃ r ∈ db'.comments, r.id = c.id) ∧
    (∀ t ∈ data.locationTracks, ∃ r ∈ db'.tracks, r.id = t.id) ∧
    (∀ m ∈ data.media,
      ((∃ r ∈ db.posts, r.id = m.post_id) ∨ (∃ p ∈ data.posts, p.id = m.post_id)) →
      ∃ r ∈ db'.media, r.id = m.id) := by
  unfold receiveAndInsertSyncData at h
  rcases h1 : insertPostsLoop noErr db data.posts with ⟨db1, pN, e1⟩
  rw [h1] at h
  dsimp only at h
  obtain ⟨he1, hpres1⟩ := insertPostsLoop_noErr data.posts db db1 pN e1 h1
  subst he1
  simp only at h
  rcases h2 : insertMediaLoop noErr db1 data.media with ⟨db2, mN, e2⟩
  rw [h2] at h
  dsimp only at h
  obtain ⟨he2, hpres2⟩ := insertMediaLoop_noErr data.media db1 db2 mN e2 h2
  subst he2
  simp only at h
  rcases h3 : insertCommentsLoop noErr db2 data.comments with ⟨db3, cN, e3⟩
  rw [h3] at h
  dsimp only at h
  obtain ⟨he3, hpres3⟩ := insertCommentsLoop_noErr data.comments db2 db3 cN e3 h3
  subst he3
  simp only at h
  rcases h4 : insertTracksLoop noErr db3 data.locationTracks with ⟨db4, tN, e4⟩
  rw [h4] at h
  dsimp only at h
  obtain ⟨he4, hpres4⟩ := insertTracksLoop_noErr data.locationTracks db3 db4 tN e4 h4
  subst he4
  simp only [Prod.mk.injEq] at h
  obtain ⟨rfl, rfl⟩ := h
  obtain ⟨⟨⟨tp1, htp1, -⟩, -, -, -⟩, -⟩ :=
    insertPostsLoop_extends noErr data.posts db db1 pN none h1
  obtain ⟨⟨⟨tp2, htp2, -⟩, -, -, ⟨tm2, htm2, -⟩⟩, -⟩ :=
    insertMediaLoop_extends noErr data.media db1 db2 mN none h2
  obtain ⟨⟨⟨tp3, htp3, -⟩, ⟨tc3, htc3, -⟩, -, ⟨tm3, htm3, -⟩⟩, -⟩ :=
    insertCommentsLoop_extends noErr data.comments db2 db3 cN none h3
  obtain ⟨⟨⟨tp4, htp4, -⟩, ⟨tc4, htc4, -⟩, -, ⟨tm4, htm4, -⟩⟩, -⟩ :=
    insertTracksLoop_extends noErr data.locationTracks db3 db4 tN none h4
  refine ⟨rfl, ?_, ?_, ?_, ?_⟩
  · intro p hp
    obtain ⟨r, hr, hrid⟩ := hpres1 p hp
    refine ⟨r, ?_, hrid⟩
    rw [htp4, htp3, htp2]
    exact List.mem_append.mpr (Or.inl (List.mem_append.mpr (Or.inl
      (List.mem_append.mpr (Or.inl hr)))))
  · intro c hc
    obtain ⟨r, hr, hrid⟩ := hpres3 c hc
    refine ⟨r, ?_, hrid⟩
    rw [htc4]
    exact List.mem_append.mpr (Or.inl hr)
  · intro t ht
    exact hpres4 t ht
  · intro m hm hpost
    have hpost1 : ∃ r ∈ db1.posts, r.id = m.post_id := by
      rcases hpost with ⟨r, hr, hrid⟩ | ⟨p, hp, hpid⟩
      · exact ⟨r, by rw [htp1]; exact List.mem_append.mpr (Or.inl hr), hrid⟩
      · obtain ⟨r, hr, hrid⟩ := hpres1 p hp
        exact ⟨r, hr, by rw [hrid, hpid]⟩
    obtain ⟨r, hr, hrid⟩ := hpres2 m hm hpost1
    refine ⟨r, ?_, hrid⟩
    rw [htm4, htm3]
    exact List.mem_append.mpr (Or.inl (List.mem_append.mpr (Or.inl hr)))

/-! ### Association-list and grouping lemmas -/

theorem assocGet_assocSet {α β : Type} [DecidableEq α] (l : List (α × β)) (k k' : α) (v : β) :
    assocGet (assocSet l k v) k' = if k' = k then some v else assocGet l k' := by
  induction l with
  | nil =>
    simp only [assocSet, assocGet]
    by_cases h : k' = k
    · subst h; simp
    · rw [if_neg (fun hh => h hh.symm), if_neg h]
  | cons kv rest ih =>
    obtain ⟨k0, v0⟩ := kv
    by_cases h0 : k0 = k
    · subst h0
      simp only [assocSet, if_pos rfl, assocGet]
      by_cases h : k' = k0
      · subst h; simp
      · have h' : ¬k0 = k' := fun hh => h hh.symm
        rw [if_neg h', if_neg h, if_neg h']
    · simp only [assocSet, if_neg h0, assocGet]
      by_cases h' : k0 = k'
      · subst h'
        have hk : ¬k0 = k := h0
        rw [if_pos rfl, if_neg (fun hh : k0 = k => hk hh), if_pos rfl]
      · by_cases h'' : k' = k
        · subst h''
          simp [h', h0, ih]
        · simp [h', h'', ih]

theorem assocGet_isSome_of_set {α β : Type} [DecidableEq α] (l : List (α × β)) (k : α) (v : β) :
    (assocGet (assocSet l k v) k).isSome := by
  simp [assocGet_assocSet]

/-- Every binding of the base map `postIdToShelterId` (before the
destination lookup) comes from a batch post with that id and shelter, or was
already in the accumulator. -/
theorem base_map_origin (l : List UnsyncedPost) :
    ∀ acc k v, assocGet (l.foldl (fun m p => assocSet m p.id p.shelter_id) acc) k = some v →
    (∃ p ∈ l, p.id = k ∧ p.shelter_id = v) ∨ assocGet acc k = some v := by
  induction l with
  | nil => intro acc k v h; exact Or.inr h
  | cons p rest ih =>
    intro acc k v h
    simp only [List.foldl_cons] at h
    rcases ih (assocSet acc p.id p.shelter_id) k v h with ⟨q, hq, h1, h2⟩ | hacc
    · exact Or.inl ⟨q, by simp [hq], h1, h2⟩
    · rw [assocGet_assocSet] at hacc
      split at hacc
      · rename_i hk
        cases hacc
        exact Or.inl ⟨p, by simp, hk.symm, rfl⟩
      · exact Or.inr hacc

/-- Every binding added by the destination-lookup fold over the missing ids
comes from a destination post, or was already in the accumulator. -/
theorem ext_map_origin (db : DB) (missing : List String) :
    ∀ acc k (v : Nat),
    assocGet (missing.foldl (fun m pid =>
      match db.posts.find? (fun r => r.id = pid) with
      | some r => assocSet m pid r.shelter_id
      | none => m) acc) k = some v →
    assocGet acc k = some v ∨ ∃ r ∈ db.posts, r.id = k := by
  induction missing with
  | nil => intro acc k v h; exact Or.inl h
  | cons pid rest ih =>
    intro acc k v h
    simp only [List.foldl_cons] at h
    cases hfind : db.posts.find? (fun r => r.id = pid) with
    | none =>
      rw [hfind] at h
      exact ih acc k v h
    | some r =>
      rw [hfind] at h
      rcases ih (assocSet acc pid r.shelter_id) k v h with hacc | hdb
      · rw [assocGet_assocSet] at hacc
        split at hacc
        · rename_i hk
          subst hk
          exact Or.inr ⟨r, List.mem_of_find?_eq_some hfind,
            by simpa using List.find?_some hfind⟩
        · exact Or.inl hacc
      · exact Or.inr hdb

/-- If some batch post has id `k`, the base map binds `k`. -/
theorem base_map_has (l : List UnsyncedPost) :
    ∀ acc k, ((assocGet acc k).isSome ∨ ∃ p ∈ l, p.id = k) →
    (assocGet (l.foldl (fun m p => assocSet m p.id p.shelter_id) acc) k).isSome := by
  induction l with
  | nil =>
    intro acc k h
    rcases h with h | ⟨p, hp, -⟩
    · exact h
    · exact absurd hp (by simp)
  | cons p rest ih =>
    intro acc k h
    simp only [List.foldl_cons]
    apply ih
    rcases h with h | ⟨q, hq, hid⟩
    · left
      rw [assocGet_assocSet]
      split
      · simp
      · exact h
    · rcases List.mem_cons.mp hq with rfl | hq
      · left
        rw [← hid]
        exact assocGet_isSome_of_set acc q.id q.shelter_id
      · exact Or.inr ⟨q, hq, hid⟩

/-- Every binding of `buildPostShelterMap` comes from a batch post with that
id and shelter, or from a destination post with that id. -/
theorem buildPostShelterMap_origin (db : DB) (data : SyncReceiveData) (k : String) (v : Nat)
    (h : assocGet (buildPostShelterMap db data) k = some v) :
    (∃ p ∈ data.posts, p.id = k ∧ p.shelter_id = v) ∨ (∃ r ∈ db.posts, r.id = k) := by
  unfold buildPostShelterMap at h
  dsimp only at h
  rcases ext_map_origin db _ _ k v h with hbase | hdb
  · rcases base_map_origin data.posts [] k v hbase with hl | hacc
    · exact Or.inl hl
    · simp [assocGet] at hacc
  · exact Or.inr hdb

/-- Shelter keys of the grouping map are pairwise distinct (JS `Map`
semantics). -/
def KeysUnique (gs : List (Nat × SyncReceiveData)) : Prop :=
  (gs.map Prod.fst).Nodup

theorem assocGet_isSome_iff_mem_keys {α β : Type} [DecidableEq α]
    (l : List (α × β)) (k : α) :
    (assocGet l k).isSome ↔ k ∈ l.map Prod.fst := by
  induction l with
  | nil => simp [assocGet]
  | cons kv rest ih =>
    by_cases h : kv.1 = k
    · simp [assocGet, h]
    · simp [assocGet, h, ih]
      exact fun hk => absurd hk.symm h

theorem assocGet_mem {α β : Type} [DecidableEq α] (l : List (α × β)) (k : α) (v : β)
    (h : assocGet l k = some v) : (k, v) ∈ l := by
  induction l with
  | nil => simp [assocGet] at h
  | cons kv rest ih =>
    obtain ⟨a, b⟩ := kv
    simp only [assocGet] at h
    split at h
    · rename_i hk
      cases h
      subst hk
      exact List.mem_cons_self _ _
    · exact List.mem_cons_of_mem _ (ih h)

theorem keysUnique_eq {gs : List (Nat × SyncReceiveData)} (h : KeysUnique gs)
    {sid : Nat} {gd gd' : SyncReceiveData}
    (h1 : (sid, gd) ∈ gs) (h2 : (sid, gd') ∈ gs) : gd = gd' := by
  induction gs with
  | nil => simp at h1
  | cons g rest ih =>
    rcases List.mem_cons.mp h1 with rfl | h1' <;>
      rcases List.mem_cons.mp h2 with h2' | h2'
    · cases h2'; rfl
    · exact absurd (List.mem_map_of_mem Prod.fst h2')
        (by simpa [KeysUnique] using (List.nodup_cons.mp h).1)
    · cases h2'
      exact absurd (List.mem_map_of_mem Prod.fst h1')
        (by simpa [KeysUnique] using (List.nodup_cons.mp h).1)
    · exact ih (List.nodup_cons.mp h).2 h1' h2'

theorem addToGroup_keysUnique (u : Option String) (gs : List (Nat × SyncReceiveData))
    (sid : Nat) (f : SyncReceiveData → SyncReceiveData) (h : KeysUnique gs) :
    KeysUnique (addToGroup u gs sid f) := by
  unfold addToGroup
  split
  · have : (gs.map (fun g => if g.1 = sid then (g.1, f g.2) else g)).map Prod.fst =
        gs.map Prod.fst := by
      rw [List.map_map]
      refine List.map_congr_left ?_
      intro g _
      by_cases hg : g.1 = sid <;> simp [hg]
    simpa [KeysUnique, this] using h
  · rename_i hnone
    have hk : sid ∉ gs.map Prod.fst := by
      rw [← assocGet_isSome_iff_mem_keys]
      simp only [Bool.not_eq_true, Option.not_isSome, Option.isNone_iff_eq_none]
      simpa using hnone
    simpa [KeysUnique, List.nodup_append] using
      ⟨h, fun x hx => hk (by simpa using List.mem_map_of_mem Prod.fst hx)⟩

/-- Membership facts about groups survive `addToGroup` when the update
function preserves them. -/
theorem addToGroup_mem_mono (u : Option String) (gs : List (Nat × SyncReceiveData))
    (sid : Nat) (f : SyncReceiveData → SyncReceiveData)
    (P : SyncReceiveData → Prop) (hf : ∀ g, P g → P (f g)) (sid' : Nat)
    (h : ∃ gd, (sid', gd) ∈ gs ∧ P gd) :
    ∃ gd, (sid', gd) ∈ addToGroup u gs sid f ∧ P gd := by
  obtain ⟨gd, hmem, hP⟩ := h
  unfold addToGroup
  split
  · by_cases hs : sid' = sid
    · subst hs
      refine ⟨f gd, ?_, hf gd hP⟩
      have := List.mem_map_of_mem (fun g => if g.1 = sid' then (g.1, f g.2) else g) hmem
      simpa using this
    · refine ⟨gd, ?_, hP⟩
      have := List.mem_map_of_mem (fun g => if g.1 = sid then (g.1, f g.2) else g) hmem
      simpa [hs] using this
  · exact ⟨gd, List.mem_append_left _ hmem, hP⟩

/-- `addToGroup` establishes a membership fact for the touched shelter. -/
theorem addToGroup_mem_self (u : Option String) (gs : List (Nat × SyncReceiveData))
    (sid : Nat) (f : SyncReceiveData → SyncReceiveData)
    (P : SyncReceiveData → Prop) (hf : ∀ g, P (f g)) :
    ∃ gd, (sid, gd) ∈ addToGroup u gs sid f ∧ P gd := by
  unfold addToGroup
  split
  · rename_i hsome
    obtain ⟨gd0, hget⟩ := Option.isSome_iff_exists.mp hsome
    have hmem := assocGet_mem gs sid gd0 hget
    refine ⟨f gd0, ?_, hf gd0⟩
    have := List.mem_map_of_mem (fun g => if g.1 = sid then (g.1, f g.2) else g) hmem
    simpa using this
  · exact ⟨f (emptyGroup u), List.mem_append_right _ (by simp), hf _⟩

theorem groupPostsFold_mono (u : Option String) (l : List UnsyncedPost)
    (P : SyncReceiveData → Prop)
    (hf : ∀ g p, P g → P { g with posts := g.posts ++ [p] }) :
    ∀ gs sid', (∃ gd, (sid', gd) ∈ gs ∧ P gd) →
    ∃ gd, (sid', gd) ∈ groupPostsFold u gs l ∧ P gd := by
  induction l with
  | nil => intro gs sid' h; exact h
  | cons p rest ih =>
    intro gs sid' h
    exact ih _ sid' (addToGroup_mem_mono u gs p.shelter_id _ P (fun g hg => hf g p hg) sid' h)

theorem groupMediaFold_mono (u : Option String) (pmap : List (String × Nat))
    (l : List UnsyncedMedia) (P : SyncReceiveData → Prop)
    (hf : ∀ g m, P g → P { g with media := g.media ++ [m] }) :
    ∀ gs sid', (∃ gd, (sid', gd) ∈ gs ∧ P gd) →
    ∃ gd, (sid', gd) ∈ groupMediaFold u pmap gs l ∧ P gd := by
  induction l with
  | nil => intro gs sid' h; exact h
  | cons m rest ih =>
    intro gs sid' h
    unfold groupMediaFold
    simp only [List.foldl_cons]
    cases hget : assocGet pmap m.post_id with
    | none => exact ih gs sid' h
    | some sid =>
      exact ih _ sid' (addToGroup_mem_mono u gs sid _ P (fun g hg => hf g m hg) sid' h)

theorem groupCommentsFold_mono (u : Option String) (pmap : List (String × Nat))
    (l : List UnsyncedComment) (P : SyncReceiveData → Prop)
    (hf : ∀ g c, P g → P { g with comments := g.comments ++ [c] }) :
    ∀ gs sid', (∃ gd, (sid', gd) ∈ gs ∧ P gd) →
    ∃ gd, (sid', gd) ∈ groupCommentsFold u pmap gs l ∧ P gd := by
  induction l with
  | nil => intro gs sid' h; exact h
  | cons c rest ih =>
    intro gs sid' h
    unfold groupCommentsFold
    simp only [List.foldl_cons]
    cases hget : assocGet pmap c.post_id with
    | none => exact ih gs sid' h
    | some sid =>
      exact ih _ sid' (addToGroup_mem_mono u gs sid _ P (fun g hg => hf g c hg) sid' h)

theorem groupTracksFold_mono (u : Option String) (pmap : List (String × Nat))
    (l : List UnsyncedLocationTrack) (P : SyncReceiveData → Prop)
    (hf : ∀ g t, P g → P { g with locationTracks := g.locationTracks ++ [t] }) :
    ∀ gs sid', (∃ gd, (sid', gd) ∈ gs ∧ P gd) →
    ∃ gd, (sid', gd) ∈ groupTracksFold u pmap gs l ∧ P gd := by
  induction l with
  | nil => intro gs sid' h; exact h
  | cons t rest ih =>
    intro gs sid' h
    unfold groupTracksFold
    simp only [List.foldl_cons]
    cases hget : assocGet pmap t.post_id with
    | none => exact ih gs sid' h
    | some sid =>
      exact ih _ sid' (addToGroup_mem_mono u gs sid _ P (fun g hg => hf g t hg) sid' h)

theorem groupPostsFold_adds (u : Option String) (l : List UnsyncedPost) :
    ∀ gs p, p ∈ l → ∃ gd, (p.shelter_id, gd) ∈ groupPostsFold u gs l ∧ p ∈ gd.posts := by
  induction l with
  | nil => intro gs p hp; exact absurd hp (by simp)
  | cons q rest ih =>
    intro gs p hp
    rcases List.mem_cons.mp hp with rfl | hp
    · refine groupPostsFold_mono u rest (fun g => p ∈ g.posts)
        (fun g r hg => by simp [hg]) _ p.shelter_id ?_
      exact addToGroup_mem_self u gs p.shelter_id _ (fun g => p ∈ g.posts) (fun g => by simp)
    · exact ih _ p hp

theorem groupMediaFold_adds (u : Option String) (pmap : List (String × Nat))
    (l : List UnsyncedMedia) :
    ∀ gs m sid, m ∈ l → assocGet pmap m.post_id = some sid →
    ∃ gd, (sid, gd) ∈ groupMediaFold u pmap gs l ∧ m ∈ gd.media := by
  induction l with
  | nil => intro gs m sid hm _; exact absurd hm (by simp)
  | cons q rest ih =>
    intro gs m sid hm hget
    unfold groupMediaFold
    simp only [List.foldl_cons]
    rcases List.mem_cons.mp hm with rfl | hm
    · rw [hget]
      refine groupMediaFold_mono u pmap rest (fun g => m ∈ g.media)
        (fun g r hg => by simp [hg]) _ sid ?_
      exact addToGroup_mem_self u gs sid _ (fun g => m ∈ g.media) (fun g => by simp)
    · cases hget' : assocGet pmap q.post_id with
      | none => exact ih gs m sid hm hget
      | some sid' => exact ih _ m sid hm hget

theorem groupCommentsFold_adds (u : Option String) (pmap : List (String × Nat))
    (l : List UnsyncedComment) :
    ∀ gs c sid, c ∈ l → assocGet pmap c.post_id = some sid →
    ∃ gd, (sid, gd) ∈ groupCommentsFold u pmap gs l ∧ c ∈ gd.comments := by
  induction l with
  | nil => intro gs c sid hc _; exact absurd hc (by simp)
  | cons q rest ih =>
    intro gs c sid hc hget
    unfold groupCommentsFold
    simp only [List.foldl_cons]
    rcases List.mem_cons.mp hc with rfl | hc
    · rw [hget]
      refine groupCommentsFold_mono u pmap rest (fun g => c ∈ g.comments)
        (fun g r hg => by simp [hg]) _ sid ?_
      exact addToGroup_mem_self u gs sid _ (fun g => c ∈ g.comments) (fun g => by simp)
    · cases hget' : assocGet pmap q.post_id with
      | none => exact ih gs c sid hc hget
      | some sid' => exact ih _ c sid hc hget

theorem groupTracksFold_adds (u : Option String) (pmap : List (String × Nat))
    (l : List UnsyncedLocationTrack) :
    ∀ gs t sid, t ∈ l → assocGet pmap t.post_id = some sid →
    ∃ gd, (sid, gd) ∈ groupTracksFold u pmap gs l ∧ t ∈ gd.locationTracks := by
  induction l with
  | nil => intro gs t sid ht _; exact absurd ht (by simp)
  | cons q rest ih =>
    intro gs t sid ht hget
    unfold groupTracksFold
    simp only [List.foldl_cons]
    rcases List.mem_cons.mp ht with rfl | ht
    · rw [hget]
      refine groupTracksFold_mono u pmap rest (fun g => t ∈ g.locationTracks)
        (fun g r hg => by simp [hg]) _ sid ?_
      exact addToGroup_mem_self u gs sid _ (fun g => t ∈ g.locationTracks) (fun g => by simp)
    · cases hget' : assocGet pmap q.post_id with
      | none => exact ih gs t sid ht hget
      | some sid' => exact ih _ t sid ht hget

theorem groupPostsFold_keysUnique (u : Option String) (l : List UnsyncedPost) :
    ∀ gs, KeysUnique gs → KeysUnique (groupPostsFold u gs l) := by
  induction l with
  | nil => intro gs h; exact h
  | cons p rest ih =>
    intro gs h
    exact ih _ (addToGroup_keysUnique u gs p.shelter_id _ h)

theorem groupMediaFold_keysUnique (u : Option String) (pmap : List (String × Nat))
    (l : List UnsyncedMedia) :
    ∀ gs, KeysUnique gs → KeysUnique (groupMediaFold u pmap gs l) := by
  induction l with
  | nil => intro gs h; exact h
  | cons m rest ih =>
    intro gs h
    unfold groupMediaFold
    simp only [List.foldl_cons]
    cases hget : assocGet pmap m.post_id with
    | none => exact ih gs h
    | some sid => exact ih _ (addToGroup_keysUnique u gs sid _ h)

theorem groupCommentsFold_keysUnique (u : Option String) (pmap : List (String × Nat))
    (l : List UnsyncedComment) :
    ∀ gs, KeysUnique gs → KeysUnique (groupCommentsFold u pmap gs l) := by
  induction l with
  | nil => intro gs h; exact h
  | cons c rest ih =>
    intro gs h
    unfold groupCommentsFold
    simp only [List.foldl_cons]
    cases hget : assocGet pmap c.post_id with
    | none => exact ih gs h
    | some sid => exact ih _ (addToGroup_keysUnique u gs sid _ h)

theorem groupTracksFold_keysUnique (u : Option String) (pmap : List (String × Nat))
    (l : List UnsyncedLocationTrack) :
    ∀ gs, KeysUnique gs → KeysUnique (groupTracksFold u pmap gs l) := by
  induction l with
  | nil => intro gs h; exact h
  | cons t rest ih =>
    intro gs h
    unfold groupTracksFold
    simp only [List.foldl_cons]
    cases hget : assocGet pmap t.post_id with
    | none => exact ih gs h
    | some sid => exact ih _ (addToGroup_keysUnique u gs sid _ h)

/-- A child record's owning post id is resolvable when a post with that id
is in the same batch or already stored at the destination. -/
def Resolvable (db : DB) (data : SyncReceiveData) (pid : String) : Prop :=
  (∃ p ∈ data.posts, p.id = pid) ∨ (∃ r ∈ db.posts, r.id = pid)

theorem ext_map_isSome_mono (db : DB) (missing : List String) :
    ∀ acc (k : String), (assocGet (α := String) (β := Nat) acc k).isSome →
    (assocGet (missing.foldl (fun m pid =>
      match db.posts.find? (fun r => r.id = pid) with
      | some r => assocSet m pid r.shelter_id
      | none => m) acc) k).isSome := by
  induction missing with
  | nil => intro acc k h; exact h
  | cons pid rest ih =>
    intro acc k h
    simp only [List.foldl_cons]
    cases hfind : db.posts.find? (fun r => r.id = pid) with
    | none => exact ih acc k h
    | some r =>
      refine ih _ k ?_
      rw [assocGet_assocSet]
      split
      · simp
      · exact h

theorem ext_map_adds (db : DB) (missing : List String) :
    ∀ acc k, k ∈ missing → (∃ r ∈ db.posts, r.id = k) →
    (assocGet (missing.foldl (fun m pid =>
      match db.posts.find? (fun r => r.id = pid) with
      | some r => assocSet m pid r.shelter_id
      | none => m) acc) k).isSome := by
  induction missing with
  | nil => intro acc k hk _; exact absurd hk (by simp)
  | cons pid rest ih =>
    intro acc k hk hdb
    simp only [List.foldl_cons]
    rcases List.mem_cons.mp hk with rfl | hk
    · cases hfind : db.posts.find? (fun r => r.id = k) with
      | none =>
        obtain ⟨r, hr, hrid⟩ := hdb
        have := List.find?_eq_none.mp hfind r hr
        simp [hrid] at this
      | some r =>
        exact ext_map_isSome_mono db rest _ k (assocGet_isSome_of_set acc k r.shelter_id)
    · exact ih _ k hk hdb

/-- The post map binds the owning post id of every child record whose id is
resolvable, provided that id occurs among the batch's child post ids. -/
theorem buildPostShelterMap_has (db : DB) (data : SyncReceiveData) (pid : String)
    (hchild : pid ∈ childPostIds data) (hres : Resolvable db data pid) :
    (assocGet (buildPostShelterMap db data) pid).isSome := by
  unfold buildPostShelterMap
  dsimp only
  cases hbase : assocGet (data.posts.foldl (fun m p => assocSet m p.id p.shelter_id) []) pid with
  | some v => exact ext_map_isSome_mono db _ _ pid (by simp [hbase])
  | none =>
    rcases hres with ⟨p, hp, hpid⟩ | hdb
    · have := base_map_has data.posts [] pid (Or.inr ⟨p, hp, hpid⟩)
      rw [hbase] at this
      simp at this
    · refine ext_map_adds db _ _ pid ?_ hdb
      rw [List.mem_filter]
      exact ⟨hchild, by simp [hbase]⟩

/-- Well-formedness of one shelter group: every record comes from the batch,
children are resolvable, and a media row's owning post is either stored at
the destination or rides in the same group's posts. -/
def EntryWf (db : DB) (data : SyncReceiveData) (gd : SyncReceiveData) : Prop :=
  (∀ p ∈ gd.posts, p ∈ data.posts) ∧
  (∀ c ∈ gd.comments, c ∈ data.comments ∧ Resolvable db data c.post_id) ∧
  (∀ t ∈ gd.locationTracks, t ∈ data.locationTracks ∧ Resolvable db data t.post_id) ∧
  (∀ m ∈ gd.media, m ∈ data.media ∧
    ((∃ r ∈ db.posts, r.id = m.post_id) ∨ (∃ p ∈ gd.posts, p.id = m.post_id)))

def GroupsWf (db : DB) (data : SyncReceiveData) (gs : List (Nat × SyncReceiveData)) : Prop :=
  ∀ g ∈ gs, EntryWf db data g.2

/-- Every batch post has been placed in its own shelter's group. -/
def PostsPlaced (data : SyncReceiveData) (gs : List (Nat × SyncReceiveData)) : Prop :=
  ∀ p ∈ data.posts, ∃ gd, (p.shelter_id, gd) ∈ gs ∧ p ∈ gd.posts

theorem addToGroup_forall (u : Option String) (gs : List (Nat × SyncReceiveData))
    (sid0 : Nat) (f : SyncReceiveData → SyncReceiveData)
    (Q : Nat × SyncReceiveData → Prop)
    (hgs : ∀ g ∈ gs, Q g)
    (hf : ∀ gd, (sid0, gd) ∈ gs → Q (sid0, gd) → Q (sid0, f gd))
    (hempty : assocGet gs sid0 = none → Q (sid0, f (emptyGroup u))) :
    ∀ g ∈ addToGroup u gs sid0 f, Q g := by
  intro g hg
  unfold addToGroup at hg
  split at hg
  · obtain ⟨g0, hg0, hg0e⟩ := List.mem_map.mp hg
    by_cases hk : g0.1 = sid0
    · rw [if_pos hk] at hg0e
      subst hg0e
      have : (sid0, g0.2) ∈ gs := by rw [← hk]; exact hg0
      exact hk ▸ hf g0.2 this (hk ▸ hgs g0 hg0)
    · rw [if_neg hk] at hg0e
      subst hg0e
      exact hgs g0 hg0
  · rename_i hnone
    rcases List.mem_append.mp hg with hg | hg
    · exact hgs g hg
    · have : g = (sid0, f (emptyGroup u)) := by simpa using hg
      subst this
      exact hempty (by simpa using hnone)

theorem addToGroup_postsPlaced (u : Option String) (data : SyncReceiveData)
    (gs : List (Nat × SyncReceiveData)) (sid : Nat)
    (f : SyncReceiveData → SyncReceiveData)
    (hf : ∀ g p, p ∈ g.posts → p ∈ (f g).posts)
    (h : PostsPlaced data gs) : PostsPlaced data (addToGroup u gs sid f) := by
  intro p hp
  exact addToGroup_mem_mono u gs sid f (fun g => p ∈ g.posts) (fun g hg => hf g p hg)
    p.shelter_id (h p hp)

/-- The posts fold preserves group well-formedness, key uniqueness, and
placement, and places every processed post. -/
theorem groupPostsFold_wf (u : Option String) (db : DB) (data : SyncReceiveData)
    (l : List UnsyncedPost) (hl : ∀ p ∈ l, p ∈ data.posts) :
    ∀ gs, GroupsWf db data gs → KeysUnique gs →
    GroupsWf db data (groupPostsFold u gs l) ∧ KeysUnique (groupPostsFold u gs l) := by
  induction l with
  | nil => intro gs hwf hk; exact ⟨hwf, hk⟩
  | cons p rest ih =>
    intro gs hwf hk
    refine ih (fun q hq => hl q (by simp [hq])) _ ?_
      (addToGroup_keysUnique u gs p.shelter_id _ hk)
    refine addToGroup_forall u gs p.shelter_id _ _ hwf ?_ ?_
    · intro gd _ hgd
      obtain ⟨h1, h2, h3, h4⟩ := hgd
      refine ⟨?_, h2, h3, ?_⟩
      · intro q hq
        rcases List.mem_append.mp hq with hq | hq
        · exact h1 q hq
        · simp only [List.mem_singleton] at hq
          exact hq ▸ hl p (by simp)
      · intro m hm
        obtain ⟨hmd, hor⟩ := h4 m hm
        refine ⟨hmd, ?_⟩
        rcases hor with h | ⟨q, hq, hqid⟩
        · exact Or.inl h
        · exact Or.inr ⟨q, List.mem_append_left _ hq, hqid⟩
    · intro _
      refine ⟨?_, by simp [emptyGroup], by simp [emptyGroup], by simp [emptyGroup]⟩
      intro q hq
      simp only [emptyGroup, List.nil_append, List.mem_singleton] at hq
      exact hq ▸ hl p (by simp)

/-- The media fold preserves well-formedness (using post placement and key
uniqueness to justify the same-group disjunct), placement and uniqueness. -/
theorem groupMediaFold_wf (u : Option String) (db : DB) (data : SyncReceiveData)
    (l : List UnsyncedMedia) (hl : ∀ m ∈ l, m ∈ data.media) :
    ∀ gs, GroupsWf db data gs → KeysUnique gs → PostsPlaced data gs →
    GroupsWf db data (groupMediaFold u (buildPostShelterMap db data) gs l) ∧
    KeysUnique (groupMediaFold u (buildPostShelterMap db data) gs l) ∧
    PostsPlaced data (groupMediaFold u (buildPostShelterMap db data) gs l) := by
  induction l with
  | nil => intro gs hwf hk hpl; exact ⟨hwf, hk, hpl⟩
  | cons m rest ih =>
    intro gs hwf hk hpl
    unfold groupMediaFold
    simp only [List.foldl_cons]
    cases hget : assocGet (buildPostShelterMap db data) m.post_id with
    | none => exact ih (fun q hq => hl q (by simp [hq])) gs hwf hk hpl
    | some sid =>
      refine ih (fun q hq => hl q (by simp [hq])) _ ?_
        (addToGroup_keysUnique u gs sid _ hk)
        (addToGroup_postsPlaced u data gs sid _ (fun g p hp => hp) hpl)
      refine addToGroup_forall u gs sid _ _ hwf ?_ ?_
      · intro gd hmem hgd
        obtain ⟨h1, h2, h3, h4⟩ := hgd
        refine ⟨h1, h2, h3, ?_⟩
        intro q hq
        rcases List.mem_append.mp hq with hq | hq
        · exact h4 q hq
        · simp only [List.mem_singleton] at hq
          subst hq
          refine ⟨hl q (by simp), ?_⟩
          rcases buildPostShelterMap_origin db data q.post_id sid hget with
            ⟨p, hp, hpid, hpsh⟩ | hdb
          · obtain ⟨gd', hgd', hpin⟩ := hpl p hp
            rw [hpsh] at hgd'
            have := keysUnique_eq hk hgd' hmem
            exact Or.inr ⟨p, this ▸ hpin, hpid⟩
          · exact Or.inl hdb
      · intro hnone
        refine ⟨by simp [emptyGroup], by simp [emptyGroup], by simp [emptyGroup], ?_⟩
        intro q hq
        simp only [emptyGroup, List.nil_append, List.mem_singleton] at hq
        subst hq
        refine ⟨hl q (by simp), ?_⟩
        rcases buildPostShelterMap_origin db data q.post_id sid hget with
          ⟨p, hp, hpid, hpsh⟩ | hdb
        · obtain ⟨gd', hgd', -⟩ := hpl p hp
          rw [hpsh] at hgd'
          have : (assocGet gs sid).isSome := by
            rw [assocGet_isSome_iff_mem_keys]
            exact List.mem_map_of_mem Prod.fst hgd'
          rw [hnone] at this
          simp at this
        · exact Or.inl hdb

/-- The comments fold preserves well-formedness, uniqueness and placement. -/
theorem groupCommentsFold_wf (u : Option String) (db : DB) (data : SyncReceiveData)
    (l : List UnsyncedComment) (hl : ∀ c ∈ l, c ∈ data.comments) :
    ∀ gs, GroupsWf db data gs → KeysUnique gs → PostsPlaced data gs →
    GroupsWf db data (groupCommentsFold u (buildPostShelterMap db data) gs l) ∧
    KeysUnique (groupCommentsFold u (buildPostShelterMap db data) gs l) ∧
    PostsPlaced data (groupCommentsFold u (buildPostShelterMap db data) gs l) := by
  induction l with
  | nil => intro gs hwf hk hpl; exact ⟨hwf, hk, hpl⟩
  | cons c rest ih =>
    intro gs hwf hk hpl
    unfold groupCommentsFold
    simp only [List.foldl_cons]
    cases hget : assocGet (buildPostShelterMap db data) c.post_id with
    | none => exact ih (fun q hq => hl q (by simp [hq])) gs hwf hk hpl
    | some sid =>
      have hres : Resolvable db data c.post_id := by
        rcases buildPostShelterMap_origin db data c.post_id sid hget with
          ⟨p, hp, hpid, -⟩ | hdb
        · exact Or.inl ⟨p, hp, hpid⟩
        · exact Or.inr hdb
      refine ih (fun q hq => hl q (by simp [hq])) _ ?_
        (addToGroup_keysUnique u gs sid _ hk)
        (addToGroup_postsPlaced u data gs sid _ (fun g p hp => hp) hpl)
      refine addToGroup_forall u gs sid _ _ hwf ?_ ?_
      · intro gd _ hgd
        obtain ⟨h1, h2, h3, h4⟩ := hgd
        refine ⟨h1, ?_, h3, h4⟩
        intro q hq
        rcases List.mem_append.mp hq with hq | hq
        · exact h2 q hq
        · simp only [List.mem_singleton] at hq
          exact hq ▸ ⟨hl c (by simp), hres⟩
      · intro _
        refine ⟨by simp [emptyGroup], ?_, by simp [emptyGroup], by simp [emptyGroup]⟩
        intro q hq
        simp only [emptyGroup, List.nil_append, List.mem_singleton] at hq
        exact hq ▸ ⟨hl c (by simp), hres⟩

/-- The tracks fold preserves well-formedness, uniqueness and placement. -/
theorem groupTracksFold_wf (u : Option String) (db : DB) (data : SyncReceiveData)
    (l : List UnsyncedLocationTrack) (hl : ∀ t ∈ l, t ∈ data.locationTracks) :
    ∀ gs, GroupsWf db data gs → KeysUnique gs → PostsPlaced data gs →
    GroupsWf db data (groupTracksFold u (buildPostShelterMap db data) gs l) ∧
    KeysUnique (groupTracksFold u (buildPostShelterMap db data) gs l) ∧
    PostsPlaced data (groupTracksFold u (buildPostShelterMap db data) gs l) := by
  induction l with
  | nil => intro gs hwf hk hpl; exact ⟨hwf, hk, hpl⟩
  | cons t rest ih =>
    intro gs hwf hk hpl
    unfold groupTracksFold
    simp only [List.foldl_cons]
    cases hget : assocGet (buildPostShelterMap db data) t.post_id with
    | none => exact ih (fun q hq => hl q (by simp [hq])) gs hwf hk hpl
    | some sid =>
      have hres : Resolvable db data t.post_id := by
        rcases buildPostShelterMap_origin db data t.post_id sid hget with
          ⟨p, hp, hpid, -⟩ | hdb
        · exact Or.inl ⟨p, hp, hpid⟩
        · exact Or.inr hdb
      refine ih (fun q hq => hl q (by simp [hq])) _ ?_
        (addToGroup_keysUnique u gs sid _ hk)
        (addToGroup_postsPlaced u data gs sid _ (fun g p hp => hp) hpl)
      refine addToGroup_forall u gs sid _ _ hwf ?_ ?_
      · intro gd _ hgd
        obtain ⟨h1, h2, h3, h4⟩ := hgd
        refine ⟨h1, h2, ?_, h4⟩
        intro q hq
        rcases List.mem_append.mp hq with hq | hq
        · exact h3 q hq
        · simp only [List.mem_singleton] at hq
          exact hq ▸ ⟨hl t (by simp), hres⟩
      · intro _
        refine ⟨by simp [emptyGroup], by simp [emptyGroup], ?_, by simp [emptyGroup]⟩
        intro q hq
        simp only [emptyGroup, List.nil_append, List.mem_singleton] at hq
        exact hq ▸ ⟨hl t (by simp), hres⟩

/-- The grouping produced by `groupDataByShelter` is well-formed: everything
in a group comes from the batch, children in groups are resolvable, a media
row's destination post is stored or in the same group, and keys are
unique. -/
theorem groupDataByShelter_wf (db : DB) (data : SyncReceiveData) :
    GroupsWf db data (groupDataByShelter db data) ∧
    KeysUnique (groupDataByShelter db data) := by
  unfold groupDataByShelter
  dsimp only
  have hposts := groupPostsFold_wf data.sourceUrl db data data.posts (fun p hp => hp)
    [] (by intro g hg; simp at hg) (by simp [KeysUnique])
  have hplaced : PostsPlaced data (groupPostsFold data.sourceUrl [] data.posts) := by
    intro p hp
    exact groupPostsFold_adds data.sourceUrl data.posts [] p hp
  have hmedia := groupMediaFold_wf data.sourceUrl db data data.media (fun m hm => hm)
    _ hposts.1 hposts.2 hplaced
  have hcomments := groupCommentsFold_wf data.sourceUrl db data data.comments
    (fun c hc => hc) _ hmedia.1 hmedia.2.1 hmedia.2.2
  have htracks := groupTracksFold_wf data.sourceUrl db data data.locationTracks
    (fun t ht => ht) _ hcomments.1 hcomments.2.1 hcomments.2.2
  exact ⟨htracks.1, htracks.2.1⟩

/-- Every batch post, and every child record whose owning post id is
resolvable, is placed into some group of `groupDataByShelter`. -/
theorem groupDataByShelter_mem (db : DB) (data : SyncReceiveData) :
    (∀ p ∈ data.posts, ∃ sid gd, (sid, gd) ∈ groupDataByShelter db data ∧ p ∈ gd.posts) ∧
    (∀ m ∈ data.media, Resolvable db data m.post_id →
      ∃ sid gd, (sid, gd) ∈ groupDataByShelter db data ∧ m ∈ gd.media) ∧
    (∀ c ∈ data.comments, Resolvable db data c.post_id →
      ∃ sid gd, (sid, gd) ∈ groupDataByShelter db data ∧ c ∈ gd.comments) ∧
    (∀ t ∈ data.locationTracks, Resolvable db data t.post_id →
      ∃ sid gd, (sid, gd) ∈ groupDataByShelter db data ∧ t ∈ gd.locationTracks) := by
  unfold groupDataByShelter
  dsimp only
  refine ⟨?_, ?_, ?_, ?_⟩
  · intro p hp
    obtain ⟨gd, hgd, hin⟩ := groupPostsFold_adds data.sourceUrl data.posts [] p hp
    obtain ⟨gd1, hgd1, hin1⟩ := groupMediaFold_mono data.sourceUrl _ data.media
      (fun g => p ∈ g.posts) (fun g m hg => hg) _ p.shelter_id ⟨gd, hgd, hin⟩
    obtain ⟨gd2, hgd2, hin2⟩ := groupCommentsFold_mono data.sourceUrl _ data.comments
      (fun g => p ∈ g.posts) (fun g c hg => hg) _ p.shelter_id ⟨gd1, hgd1, hin1⟩
    obtain ⟨gd3, hgd3, hin3⟩ := groupTracksFold_mono data.sourceUrl _ data.locationTracks
      (fun g => p ∈ g.posts) (fun g t hg => hg) _ p.shelter_id ⟨gd2, hgd2, hin2⟩
    exact ⟨p.shelter_id, gd3, hgd3, hin3⟩
  · intro m hm hres
    have hchild : m.post_id ∈ childPostIds data := by
      unfold childPostIds
      exact List.mem_append_right _ (List.mem_map_of_mem _ hm)
    obtain ⟨sid, hget⟩ := Option.isSome_iff_exists.mp
      (buildPostShelterMap_has db data m.post_id hchild hres)
    obtain ⟨gd, hgd, hin⟩ := groupMediaFold_adds data.sourceUrl _ data.media _ m sid hm hget
    obtain ⟨gd2, hgd2, hin2⟩ := groupCommentsFold_mono data.sourceUrl _ data.comments
      (fun g => m ∈ g.media) (fun g c hg => hg) _ sid ⟨gd, hgd, hin⟩
    obtain ⟨gd3, hgd3, hin3⟩ := groupTracksFold_mono data.sourceUrl _ data.locationTracks
      (fun g => m ∈ g.media) (fun g t hg => hg) _ sid ⟨gd2, hgd2, hin2⟩
    exact ⟨sid, gd3, hgd3, hin3⟩
  · intro c hc hres
    have hchild : c.post_id ∈ childPostIds data := by
      unfold childPostIds
      exact List.mem_append_left _ (List.mem_append_left _ (List.mem_map_of_mem _ hc))
    obtain ⟨sid, hget⟩ := Option.isSome_iff_exists.mp
      (buildPostShelterMap_has db data c.post_id hchild hres)
    obtain ⟨gd, hgd, hin⟩ := groupCommentsFold_adds data.sourceUrl _ data.comments _ c sid hc hget
    obtain ⟨gd3, hgd3, hin3⟩ := groupTracksFold_mono data.sourceUrl _ data.locationTracks
      (fun g => c ∈ g.comments) (fun g t hg => hg) _ sid ⟨gd, hgd, hin⟩
    exact ⟨sid, gd3, hgd3, hin3⟩
  · intro t ht hres
    have hchild : t.post_id ∈ childPostIds data := by
      unfold childPostIds
      exact List.mem_append_left _ (List.mem_append_right _ (List.mem_map_of_mem _ ht))
    obtain ⟨sid, hget⟩ := Option.isSome_iff_exists.mp
      (buildPostShelterMap_has db data t.post_id hchild hres)
    obtain ⟨gd, hgd, hin⟩ := groupTracksFold_adds data.sourceUrl _ data.locationTracks _ t sid ht hget
    exact ⟨sid, gd, hgd, hin⟩

/-! ### SyncLog lifecycle bookkeeping -/

/-- Number of terminal-update events recorded for a log id. -/
def eventsFor (evs : List (Nat × String)) (i : Nat) : Nat :=
  (evs.filter (fun e => e.1 = i)).length

def eventCount (db : DB) (i : Nat) : Nat := eventsFor db.logEvents i

/-- Id discipline of the store: every stored log row and every recorded
event concerns an id below the auto-increment counter. -/
def LogWf (db : DB) : Prop :=
  (∀ l ∈ db.syncLogs, l.id < db.nextLogId) ∧ (∀ e ∈ db.logEvents, e.1 < db.nextLogId)

theorem eventsFor_append (a b : List (Nat × String)) (i : Nat) :
    eventsFor (a ++ b) i = eventsFor a i + eventsFor b i := by
  simp [eventsFor, List.filter_append]

theorem eventsFor_single (j : Nat) (s : String) (i : Nat) :
    eventsFor [(j, s)] i = if j = i then 1 else 0 := by
  by_cases h : j = i <;> simp [eventsFor, h]

theorem eventCount_zero_of_wf (db : DB) (hwf : LogWf db) (i : Nat)
    (hi : db.nextLogId ≤ i) : eventCount db i = 0 := by
  unfold eventCount eventsFor
  rw [List.length_eq_zero, List.filter_eq_nil_iff]
  intro e he
  have := hwf.2 e he
  simp only [decide_eq_true_eq]
  omega

theorem syncLogs_map_fresh (L : List SyncLogRow) (row : SyncLogRow) (logId : Nat)
    (f : SyncLogRow → SyncLogRow)
    (hfresh : ∀ l ∈ L, l.id ≠ logId) (hrow : row.id = logId) :
    (L ++ [row]).map (fun r => if r.id = logId then f r else r) = L ++ [f row] := by
  rw [List.map_append]
  have h1 : L.map (fun r => if r.id = logId then f r else r) = L := by
    rw [List.map_congr_left (fun l hl => if_neg (hfresh l hl))]
    exact List.map_id L
  rw [h1]
  simp [hrow]

/-- One iteration of the receive loop: the shelter gets a fresh SyncLog row
driven to the terminal state matching its own insertion outcome, exactly one
terminal event is recorded for it, entity tables only gain synced rows, and
cursors are untouched. -/
theorem receiveShelterStep_spec (err : ErrOracle) (u : Option String) (now : String)
    (db : DB) (sid : Nat) (gd : SyncReceiveData) (db' : DB) (sres : ShelterResult)
    (hwf : LogWf db)
    (h : receiveShelterStep err u now db sid gd = (db', sres)) :
    sres.shelterId = sid ∧
    db'.nextLogId = db.nextLogId + 1 ∧
    (∃ row : SyncLogRow, row.id = db.nextLogId ∧ row.shelter_id = some sid ∧
       row.status = (if sres.success then "completed" else "failed") ∧
       db'.syncLogs = db.syncLogs ++ [row]) ∧
    db'.logEvents = db.logEvents ++
      [(db.nextLogId, if sres.success then "completed" else "failed")] ∧
    ExtendsSynced db db' ∧ db'.pullCursors = db.pullCursors ∧ LogWf db' := by
  unfold receiveShelterStep at h
  simp only [createSyncLog] at h
  set db1 : DB := { db with
      syncLogs := db.syncLogs ++
        [⟨db.nextLogId, some sid, "received", "in_progress", now, none,
          0, 0, 0, 0, none, some (u.getD "unknown")⟩],
      nextLogId := db.nextLogId + 1 } with hdb1
  rcases h2 : receiveAndInsertSyncData err db1 gd with ⟨db2, res⟩
  rw [h2] at h
  obtain ⟨hx12, hl12, he12, hp12, hn12⟩ := receiveAndInsertSyncData_spec err db1 gd db2 res h2
  have hlogs2 : db2.syncLogs = db.syncLogs ++
      [⟨db.nextLogId, some sid, "received", "in_progress", now, none,
        0, 0, 0, 0, none, some (u.getD "unknown")⟩] := by rw [hl12]
  have hx01 : ExtendsSynced db db1 := ⟨⟨[], by simp [hdb1]⟩, ⟨[], by simp [hdb1]⟩,
    ⟨[], by simp [hdb1]⟩, ⟨[], by simp [hdb1]⟩⟩
  have hfresh : ∀ l ∈ db.syncLogs, l.id ≠ db.nextLogId :=
    fun l hl => Nat.ne_of_lt (hwf.1 l hl)
  split at h <;> rename_i hsucc <;>
    simp only [Prod.mk.injEq] at h <;> obtain ⟨rfl, rfl⟩ := h
  · refine ⟨rfl, ?_, ?_, ?_, ?_, ?_, ?_⟩
    · simp [completeSyncLog, hn12, hdb1]
    · refine ⟨⟨db.nextLogId, some sid, "received", "completed", now, some now,
        res.postsSynced, res.commentsSynced, res.locationTracksSynced,
        res.mediaSynced, none, some (u.getD "unknown")⟩, rfl, rfl, by simp [hsucc], ?_⟩
      simp only [completeSyncLog, hlogs2]
      rw [syncLogs_map_fresh _ _ _ _ hfresh rfl]
    · simp only [completeSyncLog, he12, hdb1]
      simp [hsucc]
    · exact extendsSynced_trans hx01 (extendsSynced_trans hx12
        ⟨⟨[], by simp [completeSyncLog]⟩, ⟨[], by simp [completeSyncLog]⟩,
         ⟨[], by simp [completeSyncLog]⟩, ⟨[], by simp [completeSyncLog]⟩⟩)
    · simp [completeSyncLog, hp12, hdb1]
    · constructor
      · intro l hl
        simp only [completeSyncLog, hlogs2] at hl
        rw [syncLogs_map_fresh _ _ _ _ hfresh rfl] at hl
        simp only [completeSyncLog, hn12, hdb1]
        rcases List.mem_append.mp hl with hl | hl
        · exact Nat.lt_succ_of_lt (hwf.1 l hl)
        · simp only [List.mem_singleton] at hl
          subst hl
          exact Nat.lt_succ_self _
      · intro e he
        simp only [completeSyncLog, he12, hdb1] at he
        simp only [completeSyncLog, hn12, hdb1]
        rcases List.mem_append.mp he with he | he
        · exact Nat.lt_succ_of_lt (hwf.2 e he)
        · simp only [List.mem_singleton] at he
          subst he
          exact Nat.lt_succ_self _
  · refine ⟨rfl, ?_, ?_, ?_, ?_, ?_, ?_⟩
    · simp [failSyncLog, hn12, hdb1]
    · refine ⟨⟨db.nextLogId, some sid, "received", "failed", now, some now,
        0, 0, 0, 0, some ((res.errorMessage).getD "データ挿入エラー"),
        some (u.getD "unknown")⟩, rfl, rfl, by simp [hsucc], ?_⟩
      simp only [failSyncLog, hlogs2]
      rw [syncLogs_map_fresh _ _ _ _ hfresh rfl]
    · simp only [failSyncLog, he12, hdb1]
      simp [hsucc]
    · exact extendsSynced_trans hx01 (extendsSynced_trans hx12
        ⟨⟨[], by simp [failSyncLog]⟩, ⟨[], by simp [failSyncLog]⟩,
         ⟨[], by simp [failSyncLog]⟩, ⟨[], by simp [failSyncLog]⟩⟩)
    · simp [failSyncLog, hp12, hdb1]
    · constructor
      · intro l hl
        simp only [failSyncLog, hlogs2] at hl
        rw [syncLogs_map_fresh _ _ _ _ hfresh rfl] at hl
        simp only [failSyncLog, hn12, hdb1]
        rcases List.mem_append.mp hl with hl | hl
        · exact Nat.lt_succ_of_lt (hwf.1 l hl)
        · simp only [List.mem_singleton] at hl
          subst hl
          exact Nat.lt_succ_self _
      · intro e he
        simp only [failSyncLog, he12, hdb1] at he
        simp only [failSyncLog, hn12, hdb1]
        rcases List.mem_append.mp he with he | he
        · exact Nat.lt_succ_of_lt (hwf.2 e he)
        · simp only [List.mem_singleton] at he
          subst he
          exact Nat.lt_succ_self _

/-- The receive loop: appends one terminal SyncLog row per shelter group,
matching each group's own outcome in order; entity tables only grow with
synced rows; cursors untouched; each created log id records exactly one
terminal event and pre-existing ids record none anew. -/
theorem receiveLoop_spec (err : ErrOracle) (u : Option String) (now : String)
    (groups : List (Nat × SyncReceiveData)) :
    ∀ db db' results, LogWf db → receiveLoop err u now db groups = (db', results) →
    ExtendsSynced db db' ∧ db'.pullCursors = db.pullCursors ∧ LogWf db' ∧
    db'.nextLogId = db.nextLogId + groups.length ∧
    (∃ newLogs, db'.syncLogs = db.syncLogs ++ newLogs ∧
       List.Forall₂ (fun (log : SyncLogRow) (sres : ShelterResult) =>
         log.shelter_id = some sres.shelterId ∧
         log.status = (if sres.success then "completed" else "failed")) newLogs results) ∧
    results.map (fun r => r.shelterId) = groups.map Prod.fst ∧
    (∀ i, i < db.nextLogId → eventCount db' i = eventCount db i) ∧
    (∀ i, db.nextLogId ≤ i → i < db'.nextLogId → eventCount db' i = 1) := by
  induction groups with
  | nil =>
    intro db db' results hwf h
    simp only [receiveLoop, Prod.mk.injEq] at h
    obtain ⟨rfl, rfl⟩ := h
    refine ⟨extendsSynced_refl db, rfl, hwf, by simp, ⟨[], by simp, List.Forall₂.nil⟩,
      by simp, fun i _ => rfl, fun i h1 h2 => ?_⟩
    omega
  | cons g rest ih =>
    obtain ⟨sid, gd⟩ := g
    intro db db' results hwf h
    simp only [receiveLoop] at h
    rcases hstep : receiveShelterStep err u now db sid gd with ⟨db1, sres⟩
    rw [hstep] at h
    dsimp only at h
    rcases hloop : receiveLoop err u now db1 rest with ⟨db2, others⟩
    rw [hloop] at h
    simp only [Prod.mk.injEq] at h
    obtain ⟨rfl, rfl⟩ := h
    obtain ⟨hsid, hn1, ⟨row, hrowid, hrowsh, hrowst, hlogs1⟩, hev1, hx1, hp1, hwf1⟩ :=
      receiveShelterStep_spec err u now db sid gd db1 sres hwf hstep
    obtain ⟨hx2, hp2, hwf2, hn2, ⟨newLogs', hlogs2, hfa2⟩, hmap2, hcl2, hch2⟩ :=
      ih db1 db2 others hwf1 hloop
    refine ⟨extendsSynced_trans hx1 hx2, hp2.trans hp1, hwf2, ?_, ?_, ?_, ?_, ?_⟩
    · rw [hn2, hn1]
      simp only [List.length_cons]
      omega
    · refine ⟨row :: newLogs', ?_, List.Forall₂.cons ⟨?_, hrowst⟩ hfa2⟩
      · rw [hlogs2, hlogs1, List.append_assoc]
        rfl
      · rw [hrowsh, hsid]
    · simp only [List.map_cons]
      rw [hmap2, hsid]
    · intro i hi
      have hcount1 : eventCount db1 i = eventCount db i := by
        unfold eventCount
        rw [hev1, eventsFor_append, eventsFor_single]
        have : ¬ db.nextLogId = i := by omega
        simp [this]
      rw [hcl2 i (by omega), hcount1]
    · intro i h1 h2
      by_cases hi : i = db.nextLogId
      · rw [hi, hcl2 db.nextLogId (by omega)]
        unfold eventCount
        rw [hev1, eventsFor_append, eventsFor_single]
        have h0 : eventsFor db.logEvents db.nextLogId = 0 :=
          eventCount_zero_of_wf db hwf db.nextLogId (Nat.le_refl _)
        simp [h0]
      · exact hch2 i (by omega) h2

/-- All records of a group are already present by id in the store. -/
def PresentAll (db : DB) (gd : SyncReceiveData) : Prop :=
  (∀ p ∈ gd.posts, ∃ r ∈ db.posts, r.id = p.id) ∧
  (∀ m ∈ gd.media, ∃ r ∈ db.media, r.id = m.id) ∧
  (∀ c ∈ gd.comments, ∃ r ∈ db.comments, r.id = c.id) ∧
  (∀ t ∈ gd.locationTracks, ∃ r ∈ db.tracks, r.id = t.id)

theorem presentAll_congr {db db' : DB} (gd : SyncReceiveData)
    (hp : db'.posts = db.posts) (hm : db'.media = db.media)
    (hc : db'.comments = db.comments) (ht : db'.tracks = db.tracks)
    (h : PresentAll db gd) : PresentAll db' gd := by
  obtain ⟨h1, h2, h3, h4⟩ := h
  exact ⟨fun p hp' => hp ▸ h1 p hp', fun m hm' => hm ▸ h2 m hm',
    fun c hc' => hc ▸ h3 c hc', fun t ht' => ht ▸ h4 t ht'⟩

/-- A shelter whose group is entirely already-applied gets a completed log
with all-zero counts, and the entity tables are untouched. -/
theorem receiveShelterStep_skip (err : ErrOracle) (u : Option String) (now : String)
    (db : DB) (sid : Nat) (gd : SyncReceiveData) (hpres : PresentAll db gd) :
    ∃ db', receiveShelterStep err u now db sid gd =
        (db', ⟨sid, true, 0, 0, 0, 0, none⟩) ∧
      db'.posts = db.posts ∧ db'.comments = db.comments ∧
      db'.tracks = db.tracks ∧ db'.media = db.media := by
  unfold receiveShelterStep
  simp only [createSyncLog]
  set db1 : DB := { db with
      syncLogs := db.syncLogs ++
        [⟨db.nextLogId, some sid, "received", "in_progress", now, none,
          0, 0, 0, 0, none, some (u.getD "unknown")⟩],
      nextLogId := db.nextLogId + 1 } with hdb1
  have hpres1 : PresentAll db1 gd :=
    presentAll_congr gd (by simp [hdb1]) (by simp [hdb1]) (by simp [hdb1]) (by simp [hdb1]) hpres
  rw [receiveAndInsertSyncData_skipAll err db1 gd hpres1.1 hpres1.2.1 hpres1.2.2.1 hpres1.2.2.2]
  refine ⟨_, rfl, ?_, ?_, ?_, ?_⟩ <;> simp [completeSyncLog, hdb1]

/-- When every group of the list is already applied, the receive loop leaves
the entity tables unchanged and reports a successful zero result per
shelter. -/
theorem receiveLoop_skipAll (err : ErrOracle) (u : Option String) (now : String)
    (groups : List (Nat × SyncReceiveData)) :
    ∀ db, (∀ g ∈ groups, PresentAll db g.2) →
    ∃ db', receiveLoop err u now db groups =
        (db', groups.map (fun g => ⟨g.1, true, 0, 0, 0, 0, none⟩)) ∧
      db'.posts = db.posts ∧ db'.comments = db.comments ∧
      db'.tracks = db.tracks ∧ db'.media = db.media := by
  induction groups with
  | nil =>
    intro db _
    exact ⟨db, by simp [receiveLoop], rfl, rfl, rfl, rfl⟩
  | cons g rest ih =>
    obtain ⟨sid, gd⟩ := g
    intro db hall
    obtain ⟨db1, hstep, hp1, hc1, ht1, hm1⟩ :=
      receiveShelterStep_skip err u now db sid gd (hall (sid, gd) (by simp))
    obtain ⟨db2, hloop, hp2, hc2, ht2, hm2⟩ := ih db1 (fun g hg =>
      presentAll_congr g.2 hp1 hm1 hc1 ht1 (hall g (by simp [hg])))
    refine ⟨db2, ?_, hp2.trans hp1, hc2.trans hc1, ht2.trans ht1, hm2.trans hm1⟩
    simp only [receiveLoop, hstep, hloop, List.map_cons]

/-- One receive-loop iteration only extends the entity tables with synced
rows (no well-formedness hypothesis needed). -/
theorem receiveShelterStep_extends (err : ErrOracle) (u : Option String) (now : String)
    (db : DB) (sid : Nat) (gd : SyncReceiveData) (db' : DB) (sres : ShelterResult)
    (h : receiveShelterStep err u now db sid gd = (db', sres)) :
    ExtendsSynced db db' := by
  unfold receiveShelterStep at h
  simp only [createSyncLog] at h
  set db1 : DB := { db with
      syncLogs := db.syncLogs ++
        [⟨db.nextLogId, some sid, "received", "in_progress", now, none,
          0, 0, 0, 0, none, some (u.getD "unknown")⟩],
      nextLogId := db.nextLogId + 1 } with hdb1
  rcases h2 : receiveAndInsertSyncData err db1 gd with ⟨db2, res⟩
  rw [h2] at h
  obtain ⟨hx12, -⟩ := receiveAndInsertSyncData_spec err db1 gd db2 res h2
  have hx01 : ExtendsSynced db db1 := ⟨⟨[], by simp [hdb1]⟩, ⟨[], by simp [hdb1]⟩,
    ⟨[], by simp [hdb1]⟩, ⟨[], by simp [hdb1]⟩⟩
  split at h <;> simp only [Prod.mk.injEq] at h <;> obtain ⟨rfl, rfl⟩ := h
  · exact extendsSynced_trans hx01 (extendsSynced_trans hx12
      ⟨⟨[], by simp [completeSyncLog]⟩, ⟨[], by simp [completeSyncLog]⟩,
       ⟨[], by simp [completeSyncLog]⟩, ⟨[], by simp [completeSyncLog]⟩⟩)
  · exact extendsSynced_trans hx01 (extendsSynced_trans hx12
      ⟨⟨[], by simp [failSyncLog]⟩, ⟨[], by simp [failSyncLog]⟩,
       ⟨[], by simp [failSyncLog]⟩, ⟨[], by simp [failSyncLog]⟩⟩)

/-- The receive loop only extends the entity tables with synced rows. -/
theorem receiveLoop_extends (err : ErrOracle) (u : Option String) (now : String)
    (groups : List (Nat × SyncReceiveData)) :
    ∀ db db' results, receiveLoop err u now db groups = (db', results) →
    ExtendsSynced db db' := by
  induction groups with
  | nil =>
    intro db db' results h
    simp only [receiveLoop, Prod.mk.injEq] at h
    obtain ⟨rfl, -⟩ := h
    exact extendsSynced_refl db
  | cons g rest ih =>
    obtain ⟨sid, gd⟩ := g
    intro db db' results h
    simp only [receiveLoop] at h
    rcases hstep : receiveShelterStep err u now db sid gd with ⟨db1, sres⟩
    rw [hstep] at h
    dsimp only at h
    rcases hloop : receiveLoop err u now db1 rest with ⟨db2, others⟩
    rw [hloop] at h
    simp only [Prod.mk.injEq] at h
    obtain ⟨rfl, -⟩ := h
    exact extendsSynced_trans (receiveShelterStep_extends err u now db sid gd db1 sres hstep)
      (ih db1 db2 others hloop)

/-- Rows appended to the `posts` table by a group's insertion pass take
their ids from the group's batch posts. -/
theorem receiveAndInsertSyncData_posts (err : ErrOracle) (db : DB)
    (data : SyncReceiveData) (db' : DB) (res : SyncResult)
    (h : receiveAndInsertSyncData err db data = (db', res)) :
    ∃ t, db'.posts = db.posts ++ t ∧ ∀ r ∈ t, ∃ p ∈ data.posts, r.id = p.id := by
  unfold receiveAndInsertSyncData at h
  rcases h1 : insertPostsLoop err db data.posts with ⟨db1, pN, e1⟩
  rw [h1] at h
  dsimp only at h
  obtain ⟨⟨t1, ht1, ht1s⟩, -⟩ := insertPostsLoop_spec err data.posts db db1 pN e1 h1
  have hids : ∀ r ∈ t1, ∃ p ∈ data.posts, r.id = p.id := fun r hr => (ht1s r hr).2
  cases e1 with
  | some m =>
    simp only [Prod.mk.injEq] at h
    obtain ⟨rfl, -⟩ := h
    exact ⟨t1, ht1, hids⟩
  | none =>
    simp only at h
    rcases h2 : insertMediaLoop err db1 data.media with ⟨db2, mN, e2⟩
    rw [h2] at h
    dsimp only at h
    have hps2 : db2.posts = db1.posts := (insertMediaLoop_spec err data.media db1 db2 mN e2 h2).2.1
    cases e2 with
    | some m =>
      simp only [Prod.mk.injEq] at h
      obtain ⟨rfl, -⟩ := h
      exact ⟨t1, hps2.trans ht1, hids⟩
    | none =>
      simp only at h
      rcases h3 : insertCommentsLoop err db2 data.comments with ⟨db3, cN, e3⟩
      rw [h3] at h
      dsimp only at h
      have hps3 : db3.posts = db2.posts :=
        (insertCommentsLoop_spec err data.comments db2 db3 cN e3 h3).2.1
      cases e3 with
      | some m =>
        simp only [Prod.mk.injEq] at h
        obtain ⟨rfl, -⟩ := h
        exact ⟨t1, (hps3.trans hps2).trans ht1, hids⟩
      | none =>
        simp only at h
        rcases h4 : insertTracksLoop err db3 data.locationTracks with ⟨db4, tN, e4⟩
        rw [h4] at h
        dsimp only at h
        have hps4 : db4.posts = db3.posts :=
          (insertTracksLoop_spec err data.locationTracks db3 db4 tN e4 h4).2.1
        cases e4 with
        | some m =>
          simp only [Prod.mk.injEq] at h
          obtain ⟨rfl, -⟩ := h
          exact ⟨t1, ((hps4.trans hps3).trans hps2).trans ht1, hids⟩
        | none =>
          simp only [Prod.mk.injEq] at h
          obtain ⟨rfl, -⟩ := h
          exact ⟨t1, ((hps4.trans hps3).trans hps2).trans ht1, hids⟩

/-- Posts appended to the store by one receive-loop iteration take their ids
from the group's batch posts. -/
theorem receiveShelterStep_posts (err : ErrOracle) (u : Option String) (now : String)
    (db : DB) (sid : Nat) (gd : SyncReceiveData) (db' : DB) (sres : ShelterResult)
    (h : receiveShelterStep err u now db sid gd = (db', sres)) :
    ∃ t, db'.posts = db.posts ++ t ∧ ∀ r ∈ t, ∃ p ∈ gd.posts, r.id = p.id := by
  unfold receiveShelterStep at h
  simp only [createSyncLog] at h
  set db1 : DB := { db with
      syncLogs := db.syncLogs ++
        [⟨db.nextLogId, some sid, "received", "in_progress", now, none,
          0, 0, 0, 0, none, some (u.getD "unknown")⟩],
      nextLogId := db.nextLogId + 1 } with hdb1
  rcases h2 : receiveAndInsertSyncData err db1 gd with ⟨db2, res⟩
  rw [h2] at h
  obtain ⟨t, ht, hids⟩ := receiveAndInsertSyncData_posts err db1 gd db2 res h2
  have hps1 : db1.posts = db.posts := by simp [hdb1]
  split at h <;> simp only [Prod.mk.injEq] at h <;> obtain ⟨rfl, rfl⟩ := h
  · exact ⟨t, by simpa [completeSyncLog, hps1] using ht, hids⟩
  · exact ⟨t, by simpa [failSyncLog, hps1] using ht, hids⟩

/-- Posts appended to the store by the whole receive loop take their ids
from the groups' batch posts. -/
theorem receiveLoop_posts (err : ErrOracle) (u : Option String) (now : String)
    (groups : List (Nat × SyncReceiveData)) :
    ∀ db db' results, receiveLoop err u now db groups = (db', results) →
    ∃ t, db'.posts = db.posts ++ t ∧
      ∀ r ∈ t, ∃ g ∈ groups, ∃ p ∈ g.2.posts, r.id = p.id := by
  induction groups with
  | nil =>
    intro db db' results h
    simp only [receiveLoop, Prod.mk.injEq] at h
    obtain ⟨rfl, -⟩ := h
    exact ⟨[], by simp⟩
  | cons g rest ih =>
    obtain ⟨sid, gd⟩ := g
    intro db db' results h
    simp only [receiveLoop] at h
    rcases hstep : receiveShelterStep err u now db sid gd with ⟨db1, sres⟩
    rw [hstep] at h
    dsimp only at h
    rcases hloop : receiveLoop err u now db1 rest with ⟨db2, others⟩
    rw [hloop] at h
    simp only [Prod.mk.injEq] at h
    obtain ⟨rfl, -⟩ := h
    obtain ⟨t1, ht1, hids1⟩ := receiveShelterStep_posts err u now db sid gd db1 sres hstep
    obtain ⟨t2, ht2, hids2⟩ := ih db1 db2 others hloop
    refine ⟨t1 ++ t2, by rw [ht2, ht1, List.append_assoc], ?_⟩
    intro r hr
    rcases List.mem_append.mp hr with hr | hr
    · obtain ⟨p, hp, hpid⟩ := hids1 r hr
      exact ⟨(sid, gd), by simp, p, hp, hpid⟩
    · obtain ⟨g', hg', p, hp, hpid⟩ := hids2 r hr
      exact ⟨g', by simp [hg'], p, hp, hpid⟩

/-- After an error-free receive loop, every record of every group is present
by id (for media: provided its post was stored beforehand or rides in the
same group). -/
theorem receiveLoop_noErr_presence (u : Option String) (now : String)
    (groups : List (Nat × SyncReceiveData)) :
    ∀ db db' results, receiveLoop noErr u now db groups = (db', results) →
    ∀ g ∈ groups,
      (∀ p ∈ g.2.posts, ∃ r ∈ db'.posts, r.id = p.id) ∧
      (∀ c ∈ g.2.comments, ∃ r ∈ db'.comments, r.id = c.id) ∧
      (∀ t ∈ g.2.locationTracks, ∃ r ∈ db'.tracks, r.id = t.id) ∧
      (∀ m ∈ g.2.media,
        ((∃ r ∈ db.posts, r.id = m.post_id) ∨ (∃ p ∈ g.2.posts, p.id = m.post_id)) →
        ∃ r ∈ db'.media, r.id = m.id) := by
  induction groups with
  | nil => intro db db' results _ g hg; exact absurd hg (by simp)
  | cons g0 rest ih =>
    obtain ⟨sid, gd⟩ := g0
    intro db db' results h g hg
    simp only [receiveLoop] at h
    rcases hstep : receiveShelterStep noErr u now db sid gd with ⟨db1, sres⟩
    rw [hstep] at h
    dsimp only at h
    rcases hloop : receiveLoop noErr u now db1 rest with ⟨db2, others⟩
    rw [hloop] at h
    simp only [Prod.mk.injEq] at h
    obtain ⟨rfl, -⟩ := h
    have hx1 : ExtendsSynced db db1 :=
      receiveShelterStep_extends noErr u now db sid gd db1 sres hstep
    have hx2 : ExtendsSynced db1 db2 := receiveLoop_extends noErr u now rest db1 db2 others hloop
    rcases List.mem_cons.mp hg with rfl | hg
    · -- the head group: presence established by its own step, preserved after
      unfold receiveShelterStep at hstep
      simp only [createSyncLog] at hstep
      set dbA : DB := { db with
          syncLogs := db.syncLogs ++
            [⟨db.nextLogId, some sid, "received", "in_progress", now, none,
              0, 0, 0, 0, none, some (u.getD "unknown")⟩],
          nextLogId := db.nextLogId + 1 } with hdbA
      rcases h2 : receiveAndInsertSyncData noErr dbA gd with ⟨dbB, res⟩
      rw [h2] at hstep
      obtain ⟨-, hpresp, hpresc, hprest, hpresm⟩ :=
        receiveAndInsertSyncData_noErr dbA gd dbB res h2
      have hBtoDb1 : dbB.posts = db1.posts ∧ dbB.comments = db1.comments ∧
          dbB.tracks = db1.tracks ∧ dbB.media = db1.media := by
        split at hstep <;> simp only [Prod.mk.injEq] at hstep <;>
          obtain ⟨rfl, -⟩ := hstep
        · exact ⟨by simp [completeSyncLog], by simp [completeSyncLog],
            by simp [completeSyncLog], by simp [completeSyncLog]⟩
        · exact ⟨by simp [failSyncLog], by simp [failSyncLog],
            by simp [failSyncLog], by simp [failSyncLog]⟩
      obtain ⟨⟨tp, htp, -⟩, ⟨tc, htc, -⟩, ⟨tt, htt, -⟩, ⟨tm, htm, -⟩⟩ := hx2
      refine ⟨?_, ?_, ?_, ?_⟩
      · intro p hp
        obtain ⟨r, hr, hrid⟩ := hpresp p hp
        exact ⟨r, by rw [htp, ← hBtoDb1.1]; exact List.mem_append_left _ hr, hrid⟩
      · intro c hc
        obtain ⟨r, hr, hrid⟩ := hpresc c hc
        exact ⟨r, by rw [htc, ← hBtoDb1.2.1]; exact List.mem_append_left _ hr, hrid⟩
      · intro t ht
        obtain ⟨r, hr, hrid⟩ := hprest t ht
        exact ⟨r, by rw [htt, ← hBtoDb1.2.2.1]; exact List.mem_append_left _ hr, hrid⟩
      · intro m hm hpost
        have hpostA : (∃ r ∈ dbA.posts, r.id = m.post_id) ∨
            (∃ p ∈ gd.posts, p.id = m.post_id) := by
          rcases hpost with ⟨r, hr, hrid⟩ | hbatch
          · exact Or.inl ⟨r, by simp [hdbA, hr], hrid⟩
          · exact Or.inr hbatch
        obtain ⟨r, hr, hrid⟩ := hpresm m hm hpostA
        exact ⟨r, by rw [htm, ← hBtoDb1.2.2.2]; exact List.mem_append_left _ hr, hrid⟩
    · -- a later group: apply the induction hypothesis from db1
      have := ih db1 db2 others hloop g hg
      refine ⟨this.1, this.2.1, this.2.2.1, ?_⟩
      intro m hm hpost
      refine this.2.2.2 m hm ?_
      rcases hpost with ⟨r, hr, hrid⟩ | hbatch
      · obtain ⟨⟨tp, htp, -⟩, -⟩ := hx1
        exact Or.inl ⟨r, by rw [htp]; exact List.mem_append_left _ hr, hrid⟩
      · exact Or.inr hbatch

/-- Receive-route master spec: per-shelter isolation (one fresh terminal log
per group, matching that group's own outcome, in order), `success` as the
AND over groups, totals as the sums over successful groups, monotone
entity-table growth, and exactly one terminal event per created log id. -/
theorem receiveRoute_spec (err : ErrOracle) (db : DB) (data : SyncReceiveData)
    (now : String) (db' : DB) (resp : ReceiveResponse) (hwf : LogWf db)
    (h : receiveRoute err db data now = (db', resp)) :
    resp.success = resp.shelterResults.all (fun r => r.success) ∧
    (∃ newLogs, db'.syncLogs = db.syncLogs ++ newLogs ∧
       List.Forall₂ (fun (log : SyncLogRow) (sres : ShelterResult) =>
         log.shelter_id = some sres.shelterId ∧
         log.status = (if sres.success then "completed" else "failed"))
         newLogs resp.shelterResults) ∧
    resp.postsSynced = ((resp.shelterResults.filter (fun r => r.success)).map
      (fun r => r.postsSynced)).sum ∧
    resp.commentsSynced = ((resp.shelterResults.filter (fun r => r.success)).map
      (fun r => r.commentsSynced)).sum ∧
    resp.locationTracksSynced = ((resp.shelterResults.filter (fun r => r.success)).map
      (fun r => r.locationTracksSynced)).sum ∧
    resp.mediaSynced = ((resp.shelterResults.filter (fun r => r.success)).map
      (fun r => r.mediaSynced)).sum ∧
    ExtendsSynced db db' ∧ db'.pullCursors = db.pullCursors ∧ LogWf db' ∧
    (∀ i, i < db.nextLogId → eventCount db' i = eventCount db i) ∧
    (∀ i, db.nextLogId ≤ i → i < db'.nextLogId → eventCount db' i = 1) := by
  unfold receiveRoute at h
  split at h
  · simp only [Prod.mk.injEq] at h
    obtain ⟨rfl, rfl⟩ := h
    exact ⟨rfl, ⟨[], by simp, List.Forall₂.nil⟩, rfl, rfl, rfl, rfl,
      extendsSynced_refl db, rfl, hwf, fun i _ => rfl, fun i h1 h2 => by omega⟩
  · dsimp only at h
    rcases hloop : receiveLoop err data.sourceUrl now db (groupDataByShelter db data)
      with ⟨db2, results⟩
    rw [hloop] at h
    simp only [Prod.mk.injEq] at h
    obtain ⟨rfl, rfl⟩ := h
    obtain ⟨hx, hp, hwf', hn, ⟨newLogs, hlogs, hfa⟩, -, hcl, hch⟩ :=
      receiveLoop_spec err data.sourceUrl now (groupDataByShelter db data)
        db db2 results hwf hloop
    exact ⟨rfl, ⟨newLogs, hlogs, hfa⟩, rfl, rfl, rfl, rfl, hx, hp, hwf', hcl, hch⟩

/-- After an error-free receive of a batch, every batch post is present, and
every batch child whose owning post id is resolvable is present. -/
theorem receiveRoute_noErr_presence (db : DB) (data : SyncReceiveData) (now : String)
    (db' : DB) (resp : ReceiveResponse)
    (h : receiveRoute noErr db data now = (db', resp)) :
    (∀ p ∈ data.posts, ∃ r ∈ db'.posts, r.id = p.id) ∧
    (∀ c ∈ data.comments, Resolvable db data c.post_id → ∃ r ∈ db'.comments, r.id = c.id) ∧
    (∀ t ∈ data.locationTracks, Resolvable db data t.post_id → ∃ r ∈ db'.tracks, r.id = t.id) ∧
    (∀ m ∈ data.media, Resolvable db data m.post_id → ∃ r ∈ db'.media, r.id = m.id) := by
  unfold receiveRoute at h
  split at h
  · rename_i hempty
    simp only [Prod.mk.injEq] at h
    obtain ⟨rfl, -⟩ := h
    obtain ⟨he1, he2, he3, he4⟩ := hempty
    exact ⟨fun p hp => absurd hp (by simp [he1]),
      fun c hc => absurd hc (by simp [he2]),
      fun t ht => absurd ht (by simp [he3]),
      fun m hm => absurd hm (by simp [he4])⟩
  · dsimp only at h
    rcases hloop : receiveLoop noErr data.sourceUrl now db (groupDataByShelter db data)
      with ⟨db2, results⟩
    rw [hloop] at h
    simp only [Prod.mk.injEq] at h
    obtain ⟨rfl, -⟩ := h
    have hpres := receiveLoop_noErr_presence data.sourceUrl now
      (groupDataByShelter db data) db db2 results hloop
    obtain ⟨hmp, hmm, hmc, hmt⟩ := groupDataByShelter_mem db data
    obtain ⟨hwfg, -⟩ := groupDataByShelter_wf db data
    refine ⟨?_, ?_, ?_, ?_⟩
    · intro p hp
      obtain ⟨sid, gd, hgd, hin⟩ := hmp p hp
      exact (hpres (sid, gd) hgd).1 p hin
    · intro c hc hres
      obtain ⟨sid, gd, hgd, hin⟩ := hmc c hc hres
      exact (hpres (sid, gd) hgd).2.1 c hin
    · intro t ht hres
      obtain ⟨sid, gd, hgd, hin⟩ := hmt t ht hres
      exact (hpres (sid, gd) hgd).2.2.1 t hin
    · intro m hm hres
      obtain ⟨sid, gd, hgd, hin⟩ := hmm m hm hres
      refine (hpres (sid, gd) hgd).2.2.2 m hin ?_
      exact (hwfg (sid, gd) hgd).2.2.2 m hin |>.2

/-- Posts appended to the store by a receive take their ids from the batch's
posts. -/
theorem receiveRoute_posts (err : ErrOracle) (db : DB) (data : SyncReceiveData)
    (now : String) (db' : DB) (resp : ReceiveResponse)
    (h : receiveRoute err db data now = (db', resp)) :
    ∃ t, db'.posts = db.posts ++ t ∧ ∀ r ∈ t, ∃ p ∈ data.posts, r.id = p.id := by
  unfold receiveRoute at h
  split at h
  · simp only [Prod.mk.injEq] at h
    obtain ⟨rfl, -⟩ := h
    exact ⟨[], by simp⟩
  · dsimp only at h
    rcases hloop : receiveLoop err data.sourceUrl now db (groupDataByShelter db data)
      with ⟨db2, results⟩
    rw [hloop] at h
    simp only [Prod.mk.injEq] at h
    obtain ⟨rfl, -⟩ := h
    obtain ⟨t, ht, hids⟩ := receiveLoop_posts err data.sourceUrl now
      (groupDataByShelter db data) db db2 results hloop
    refine ⟨t, ht, ?_⟩
    intro r hr
    obtain ⟨g, hg, p, hp, hpid⟩ := hids r hr
    obtain ⟨hwfg, -⟩ := groupDataByShelter_wf db data
    exact ⟨p, (hwfg g hg).1 p hp, hpid⟩

/-- Appending only synced rows leaves the unsynced-posts query unchanged. -/
theorem fetchUnsyncedPosts_extends {db db' : DB} (h : ExtendsSynced db db') :
    fetchUnsyncedPosts db' = fetchUnsyncedPosts db := by
  obtain ⟨⟨t, ht, hts⟩, -, -, -⟩ := h
  unfold fetchUnsyncedPosts
  rw [ht, List.filter_append]
  have : t.filter (fun r => decide (r.is_synced = 0 ∧ r.deleted_at = none)) = [] := by
    rw [List.filter_eq_nil_iff]
    intro r hr
    simp [hts r hr]
  rw [this, List.append_nil]

theorem fetchUnsyncedComments_extends {db db' : DB} (h : ExtendsSynced db db') :
    fetchUnsyncedComments db' = fetchUnsyncedComments db := by
  obtain ⟨-, ⟨t, ht, hts⟩, -, -⟩ := h
  unfold fetchUnsyncedComments
  rw [ht, List.filter_append]
  have : t.filter (fun r => decide (r.is_synced = 0 ∧ r.deleted_at = none)) = [] := by
    rw [List.filter_eq_nil_iff]
    intro r hr
    simp [hts r hr]
  rw [this, List.append_nil]

theorem fetchUnsyncedLocationTracks_extends {db db' : DB} (h : ExtendsSynced db db') :
    fetchUnsyncedLocationTracks db' = fetchUnsyncedLocationTracks db := by
  obtain ⟨-, -, ⟨t, ht, hts⟩, -⟩ := h
  unfold fetchUnsyncedLocationTracks
  rw [ht, List.filter_append]
  have : t.filter (fun r => decide (r.is_synced = 0 ∧ r.deleted_at = none)) = [] := by
    rw [List.filter_eq_nil_iff]
    intro r hr
    simp [hts r hr]
  rw [this, List.append_nil]

theorem fetchUnsyncedMedia_extends {db db' : DB} (h : ExtendsSynced db db') :
    fetchUnsyncedMedia db' = fetchUnsyncedMedia db := by
  obtain ⟨-, -, -, ⟨t, ht, hts⟩⟩ := h
  unfold fetchUnsyncedMedia
  rw [ht, List.filter_append]
  have : t.filter (fun r => decide (r.is_synced = 0 ∧ r.deleted_at = none)) = [] := by
    rw [List.filter_eq_nil_iff]
    intro r hr
    simp [hts r hr]
  rw [this, List.append_nil]

/-- Core of idempotent ingest: a second submission of an identical batch
changes no entity table and reports zero counts and success. -/
theorem receiveRoute_second_pass (db : DB) (data : SyncReceiveData)
    (now1 now2 : String) (db1 db2 : DB) (r1 r2 : ReceiveResponse)
    (h1 : receiveRoute noErr db data now1 = (db1, r1))
    (h2 : receiveRoute noErr db1 data now2 = (db2, r2)) :
    db2.posts = db1.posts ∧ db2.comments = db1.comments ∧
    db2.tracks = db1.tracks ∧ db2.media = db1.media ∧
    r2.success = true ∧ r2.postsSynced = 0 ∧ r2.commentsSynced = 0 ∧
    r2.locationTracksSynced = 0 ∧ r2.mediaSynced = 0 := by
  obtain ⟨hpp, hpc, hpt, hpm⟩ := receiveRoute_noErr_presence db data now1 db1 r1 h1
  obtain ⟨tnew, htnew, hids⟩ := receiveRoute_posts noErr db data now1 db1 r1 h1
  have hdowngrade : ∀ pid, Resolvable db1 data pid → Resolvable db data pid := by
    intro pid hres
    rcases hres with hbatch | ⟨r, hr, hrid⟩
    · exact Or.inl hbatch
    · rw [htnew] at hr
      rcases List.mem_append.mp hr with hr | hr
      · exact Or.inr ⟨r, hr, hrid⟩
      · obtain ⟨p, hp, hpid⟩ := hids r hr
        exact Or.inl ⟨p, hp, hpid ▸ hrid⟩
  unfold receiveRoute at h2
  split at h2
  · simp only [Prod.mk.injEq] at h2
    obtain ⟨rfl, rfl⟩ := h2
    exact ⟨rfl, rfl, rfl, rfl, rfl, rfl, rfl, rfl, rfl⟩
  · dsimp only at h2
    obtain ⟨hwfg, -⟩ := groupDataByShelter_wf db1 data
    have hallpres : ∀ g ∈ groupDataByShelter db1 data, PresentAll db1 g.2 := by
      intro g hg
      obtain ⟨hgp, hgc, hgt, hgm⟩ := hwfg g hg
      refine ⟨?_, ?_, ?_, ?_⟩
      · intro p hp
        exact hpp p (hgp p hp)
      · intro m hm
        obtain ⟨hmd, hor⟩ := hgm m hm
        refine hpm m hmd (hdowngrade m.post_id ?_)
        rcases hor with h | ⟨p, hp, hpid⟩
        · exact Or.inr h
        · exact Or.inl ⟨p, hgp p hp, hpid⟩
      · intro c hc
        obtain ⟨hcd, hres⟩ := hgc c hc
        exact hpc c hcd (hdowngrade c.post_id hres)
      · intro t ht
        obtain ⟨htd, hres⟩ := hgt t ht
        exact hpt t htd (hdowngrade t.post_id hres)
    obtain ⟨db2', hloop, hp2, hc2, ht2, hm2⟩ := receiveLoop_skipAll noErr data.sourceUrl
      now2 (groupDataByShelter db1 data) db1 hallpres
    rw [hloop] at h2
    simp only [Prod.mk.injEq] at h2
    obtain ⟨rfl, rfl⟩ := h2
    refine ⟨hp2, hc2, ht2, hm2, ?_, ?_, ?_, ?_, ?_⟩
    · rw [List.all_eq_true]
      intro r hr
      rw [List.mem_map] at hr
      obtain ⟨g, -, hgr⟩ := hr
      rw [← hgr]
    all_goals
      refine List.sum_eq_zero ?_
      intro n hn
      rw [List.mem_map] at hn
      obtain ⟨r, hr, hrn⟩ := hn
      rw [List.mem_filter] at hr
      obtain ⟨hr, -⟩ := hr
      rw [List.mem_map] at hr
      obtain ⟨g, -, hgr⟩ := hr
      rw [← hrn, ← hgr]

theorem foldl_insert_noop {α β : Type} (f : β → α → β) (x : α)
    (hx : ∀ b, f b x = b) (l1 l2 : List α) (init : β) :
    (l1 ++ x :: l2).foldl f init = (l1 ++ l2).foldl f init := by
  rw [List.foldl_append, List.foldl_append, List.foldl_cons, hx]

theorem base_map_none (data : SyncReceiveData) (pid : String)
    (h : ¬ ∃ p ∈ data.posts, p.id = pid) :
    assocGet (data.posts.foldl (fun m p => assocSet m p.id p.shelter_id) []) pid = none := by
  cases hget : assocGet (data.posts.foldl (fun m p => assocSet m p.id p.shelter_id) []) pid with
  | none => rfl
  | some v =>
    rcases base_map_origin data.posts [] pid v hget with ⟨p, hp, hpid, -⟩ | hacc
    · exact absurd ⟨p, hp, hpid⟩ h
    · simp [assocGet] at hacc

theorem buildPostShelterMap_none (db : DB) (data : SyncReceiveData) (pid : String)
    (h : ¬ Resolvable db data pid) :
    assocGet (buildPostShelterMap db data) pid = none := by
  cases hget : assocGet (buildPostShelterMap db data) pid with
  | none => rfl
  | some v =>
    rcases buildPostShelterMap_origin db data pid v hget with ⟨p, hp, hpid, -⟩ | hdb
    · exact absurd (Or.inl ⟨p, hp, hpid⟩) h
    · exact absurd (Or.inr hdb) h

/-- The destination-lookup step of the post map is a no-op on a post id
absent from the destination store. -/
theorem ext_step_noop (db : DB) (pid : String)
    (h : ¬ ∃ r ∈ db.posts, r.id = pid) :
    ∀ m : List (String × Nat),
      (match db.posts.find? (fun r => r.id = pid) with
       | some r => assocSet m pid r.shelter_id
       | none => m) = m := by
  intro m
  have hfind : db.posts.find? (fun r => r.id = pid) = none := by
    rw [List.find?_eq_none]
    intro r hr
    simp only [decide_eq_true_eq]
    exact fun hid => h ⟨r, hr, hid⟩
  rw [hfind]

/-- Appending a comment with an unresolvable owning post id does not change
the post map. -/
theorem buildPostShelterMap_comment (db : DB) (data : SyncReceiveData)
    (c : UnsyncedComment) (hres : ¬ Resolvable db data c.post_id) :
    buildPostShelterMap db { data with comments := data.comments ++ [c] } =
    buildPostShelterMap db data := by
  unfold buildPostShelterMap childPostIds
  dsimp only
  have hbase : assocGet (data.posts.foldl (fun m p => assocSet m p.id p.shelter_id) [])
      c.post_id = none :=
    base_map_none data c.post_id (fun hn => hres (Or.inl hn))
  rw [List.map_append]
  have hshape : (data.comments.map (fun c => c.post_id) ++ [c].map (fun c => c.post_id)) ++
      data.locationTracks.map (fun t => t.post_id) ++
      data.media.map (fun m => m.post_id) =
      data.comments.map (fun c => c.post_id) ++ c.post_id ::
        (data.locationTracks.map (fun t => t.post_id) ++
         data.media.map (fun m => m.post_id)) := by
    simp
  rw [hshape]
  rw [List.filter_append, List.filter_cons]
  have hq : ((assocGet (data.posts.foldl (fun m p => assocSet m p.id p.shelter_id) [])
      c.post_id).isNone : Bool) = true := by simp [hbase]
  rw [if_pos hq]
  rw [foldl_insert_noop _ c.post_id
    (ext_step_noop db c.post_id (fun hn => hres (Or.inr hn))) _ _ _]
  rw [← List.filter_append, ← List.append_assoc]

/-- Appending a track with an unresolvable owning post id does not change
the post map. -/
theorem buildPostShelterMap_track (db : DB) (data : SyncReceiveData)
    (t : UnsyncedLocationTrack) (hres : ¬ Resolvable db data t.post_id) :
    buildPostShelterMap db { data with locationTracks := data.locationTracks ++ [t] } =
    buildPostShelterMap db data := by
  unfold buildPostShelterMap childPostIds
  dsimp only
  have hbase : assocGet (data.posts.foldl (fun m p => assocSet m p.id p.shelter_id) [])
      t.post_id = none :=
    base_map_none data t.post_id (fun hn => hres (Or.inl hn))
  rw [List.map_append]
  have hshape : data.comments.map (fun c => c.post_id) ++
      (data.locationTracks.map (fun x => x.post_id) ++ [t].map (fun x => x.post_id)) ++
      data.media.map (fun m => m.post_id) =
      (data.comments.map (fun c => c.post_id) ++
        data.locationTracks.map (fun x => x.post_id)) ++ t.post_id ::
        data.media.map (fun m => m.post_id) := by
    simp
  rw [hshape]
  rw [List.filter_append, List.filter_cons]
  have hq : ((assocGet (data.posts.foldl (fun m p => assocSet m p.id p.shelter_id) [])
      t.post_id).isNone : Bool) = true := by simp [hbase]
  rw [if_pos hq]
  rw [foldl_insert_noop _ t.post_id
    (ext_step_noop db t.post_id (fun hn => hres (Or.inr hn))) _ _ _]
  rw [← List.filter_append]

/-- Appending a media row with an unresolvable owning post id does not
change the post map. -/
theorem buildPostShelterMap_media (db : DB) (data : SyncReceiveData)
    (m : UnsyncedMedia) (hres : ¬ Resolvable db data m.post_id) :
    buildPostShelterMap db { data with media := data.media ++ [m] } =
    buildPostShelterMap db data := by
  unfold buildPostShelterMap childPostIds
  dsimp only
  have hbase : assocGet (data.posts.foldl (fun p_1 p => assocSet p_1 p.id p.shelter_id) [])
      m.post_id = none :=
    base_map_none data m.post_id (fun hn => hres (Or.inl hn))
  rw [List.map_append]
  have hshape : data.comments.map (fun c => c.post_id) ++
      data.locationTracks.map (fun t => t.post_id) ++
      (data.media.map (fun x => x.post_id) ++ [m].map (fun x => x.post_id)) =
      (data.comments.map (fun c => c.post_id) ++
       data.locationTracks.map (fun t => t.post_id) ++
       data.media.map (fun x => x.post_id)) ++ m.post_id :: [] := by
    simp
  rw [hshape]
  rw [List.filter_append, List.filter_cons]
  have hq : ((assocGet (data.posts.foldl (fun p_1 p => assocSet p_1 p.id p.shelter_id) [])
      m.post_id).isNone : Bool) = true := by simp [hbase]
  rw [if_pos hq]
  rw [foldl_insert_noop _ m.post_id
    (ext_step_noop db m.post_id (fun hn => hres (Or.inr hn))) _ _ _]
  simp

theorem groupDataByShelter_empty (db : DB) (data : SyncReceiveData)
    (hp : data.posts = []) (hc : data.comments = []) (ht : data.locationTracks = [])
    (hm : data.media = []) : groupDataByShelter db data = [] := by
  unfold groupDataByShelter groupTracksFold groupCommentsFold groupMediaFold groupPostsFold
  rw [hp, hc, ht, hm]
  rfl

/-- Appending a comment whose owning post id is unresolvable produces the
same shelter grouping. -/
theorem groupDataByShelter_comment (db : DB) (data : SyncReceiveData)
    (c : UnsyncedComment) (hres : ¬ Resolvable db data c.post_id) :
    groupDataByShelter db { data with comments := data.comments ++ [c] } =
    groupDataByShelter db data := by
  unfold groupDataByShelter
  dsimp only
  rw [buildPostShelterMap_comment db data c hres]
  unfold groupCommentsFold
  rw [List.foldl_append]
  simp only [List.foldl_cons, List.foldl_nil]
  rw [buildPostShelterMap_none db data c.post_id hres]

/-- Appending a track whose owning post id is unresolvable produces the same
shelter grouping. -/
theorem groupDataByShelter_track (db : DB) (data : SyncReceiveData)
    (t : UnsyncedLocationTrack) (hres : ¬ Resolvable db data t.post_id) :
    groupDataByShelter db { data with locationTracks := data.locationTracks ++ [t] } =
    groupDataByShelter db data := by
  unfold groupDataByShelter
  dsimp only
  rw [buildPostShelterMap_track db data t hres]
  unfold groupTracksFold
  rw [List.foldl_append]
  simp only [List.foldl_cons, List.foldl_nil]
  rw [buildPostShelterMap_none db data t.post_id hres]

/-- Appending a media row whose owning post id is unresolvable produces the
same shelter grouping. -/
theorem groupDataByShelter_media (db : DB) (data : SyncReceiveData)
    (m : UnsyncedMedia) (hres : ¬ Resolvable db data m.post_id) :
    groupDataByShelter db { data with media := data.media ++ [m] } =
    groupDataByShelter db data := by
  unfold groupDataByShelter
  dsimp only
  rw [buildPostShelterMap_media db data m hres]
  unfold groupMediaFold
  rw [List.foldl_append]
  simp only [List.foldl_cons, List.foldl_nil]
  rw [buildPostShelterMap_none db data m.post_id hres]

/-- The receive route ignores an unresolvable comment entirely: same final
store, same response. -/
theorem receiveRoute_skips_comment (err : ErrOracle) (db : DB) (data : SyncReceiveData)
    (now : String) (c : UnsyncedComment) (hres : ¬ Resolvable db data c.post_id) :
    receiveRoute err db { data with comments := data.comments ++ [c] } now =
    receiveRoute err db data now := by
  unfold receiveRoute
  have hne : ¬ (data.posts = [] ∧ data.comments ++ [c] = [] ∧
      data.locationTracks = [] ∧ data.media = []) := by
    intro hcontr
    exact absurd hcontr.2.1 (by simp)
  rw [if_neg (by simpa using hne)]
  by_cases hempty : data.posts = [] ∧ data.comments = [] ∧
      data.locationTracks = [] ∧ data.media = []
  · rw [if_pos (by simpa using hempty)]
    dsimp only
    rw [groupDataByShelter_comment db data c hres,
      groupDataByShelter_empty db data hempty.1 hempty.2.1 hempty.2.2.1 hempty.2.2.2]
    simp [receiveLoop]
  · rw [if_neg (by simpa using hempty)]
    dsimp only
    rw [groupDataByShelter_comment db data c hres]

/-- The receive route ignores an unresolvable location track entirely. -/
theorem receiveRoute_skips_track (err : ErrOracle) (db : DB) (data : SyncReceiveData)
    (now : String) (t : UnsyncedLocationTrack) (hres : ¬ Resolvable db data t.post_id) :
    receiveRoute err db { data with locationTracks := data.locationTracks ++ [t] } now =
    receiveRoute err db data now := by
  unfold receiveRoute
  have hne : ¬ (data.posts = [] ∧ data.comments = [] ∧
      data.locationTracks ++ [t] = [] ∧ data.media = []) := by
    intro hcontr
    exact absurd hcontr.2.2.1 (by simp)
  rw [if_neg (by simpa using hne)]
  by_cases hempty : data.posts = [] ∧ data.comments = [] ∧
      data.locationTracks = [] ∧ data.media = []
  · rw [if_pos (by simpa using hempty)]
    dsimp only
    rw [groupDataByShelter_track db data t hres,
      groupDataByShelter_empty db data hempty.1 hempty.2.1 hempty.2.2.1 hempty.2.2.2]
    simp [receiveLoop]
  · rw [if_neg (by simpa using hempty)]
    dsimp only
    rw [groupDataByShelter_track db data t hres]

/-- The receive route ignores an unresolvable media row entirely. -/
theorem receiveRoute_skips_media (err : ErrOracle) (db : DB) (data : SyncReceiveData)
    (now : String) (m : UnsyncedMedia) (hres : ¬ Resolvable db data m.post_id) :
    receiveRoute err db { data with media := data.media ++ [m] } now =
    receiveRoute err db data now := by
  unfold receiveRoute
  have hne : ¬ (data.posts = [] ∧ data.comments = [] ∧
      data.locationTracks = [] ∧ data.media ++ [m] = []) := by
    intro hcontr
    exact absurd hcontr.2.2.2 (by simp)
  rw [if_neg (by simpa using hne)]
  by_cases hempty : data.posts = [] ∧ data.comments = [] ∧
      data.locationTracks = [] ∧ data.media = []
  · rw [if_pos (by simpa using hempty)]
    dsimp only
    rw [groupDataByShelter_media db data m hres,
      groupDataByShelter_empty db data hempty.1 hempty.2.1 hempty.2.2.1 hempty.2.2.2]
    simp [receiveLoop]
  · rw [if_neg (by simpa using hempty)]
    dsimp only
    rw [groupDataByShelter_media db data m hres]

/-- The pull apply step only appends synced rows to the entity tables and
never touches logs, events or cursors — also when it fails partway. -/
theorem applyPulledData_spec (err : ErrOracle) (db : DB) (d : SyncPullData)
    (db' : DB) (applied : ApplyResult) (aerr : Option String)
    (h : applyPulledData err db d = (db', applied, aerr)) :
    ExtendsSynced db db' ∧ NonEntityUnchanged db db' := by
  unfold applyPulledData at h
  rcases h1 : insertPostsLoop err db d.posts with ⟨db1, pN, e1⟩
  rw [h1] at h
  dsimp only at h
  obtain ⟨hx1, hu1⟩ := insertPostsLoop_extends err d.posts db db1 pN e1 h1
  cases e1 with
  | some m =>
    simp only [Prod.mk.injEq] at h
    obtain ⟨rfl, -⟩ := h
    exact ⟨hx1, hu1⟩
  | none =>
    simp only at h
    rcases h2 : insertCommentsLoop err db1 d.comments with ⟨db2, cN, e2⟩
    rw [h2] at h
    dsimp only at h
    obtain ⟨hx2, hu2⟩ := insertCommentsLoop_extends err d.comments db1 db2 cN e2 h2
    cases e2 with
    | some m =>
      simp only [Prod.mk.injEq] at h
      obtain ⟨rfl, -⟩ := h
      exact ⟨extendsSynced_trans hx1 hx2, nonEntityUnchanged_trans hu1 hu2⟩
    | none =>
      simp only at h
      rcases h3 : insertTracksLoop err db2 d.locationTracks with ⟨db3, tN, e3⟩
      rw [h3] at h
      dsimp only at h
      obtain ⟨hx3, hu3⟩ := insertTracksLoop_extends err d.locationTracks db2 db3 tN e3 h3
      cases e3 with
      | some m =>
        simp only [Prod.mk.injEq] at h
        obtain ⟨rfl, -⟩ := h
        exact ⟨extendsSynced_trans (extendsSynced_trans hx1 hx2) hx3,
          nonEntityUnchanged_trans (nonEntityUnchanged_trans hu1 hu2) hu3⟩
      | none =>
        simp only at h
        rcases h4 : insertMediaLoop err db3 d.media with ⟨db4, mN, e4⟩
        rw [h4] at h
        dsimp only at h
        obtain ⟨hx4, hu4⟩ := insertMediaLoop_extends err d.media db3 db4 mN e4 h4
        cases e4 with
        | some m =>
          simp only [Prod.mk.injEq] at h
          obtain ⟨rfl, -⟩ := h
          exact ⟨extendsSynced_trans (extendsSynced_trans (extendsSynced_trans hx1 hx2) hx3) hx4,
            nonEntityUnchanged_trans (nonEntityUnchanged_trans
              (nonEntityUnchanged_trans hu1 hu2) hu3) hu4⟩
        | none =>
          simp only [Prod.mk.injEq] at h
          obtain ⟨rfl, -⟩ := h
          exact ⟨extendsSynced_trans (extendsSynced_trans (extendsSynced_trans hx1 hx2) hx3) hx4,
            nonEntityUnchanged_trans (nonEntityUnchanged_trans
              (nonEntityUnchanged_trans hu1 hu2) hu3) hu4⟩

/-- Pull-route master spec: the stored cursor moves only on success — and
then to the remote's server time, after a successful apply — while every
failure leaves it untouched; the pull's SyncLog row is driven to exactly one
terminal state matching the outcome. -/
theorem pullRoute_spec (err : ErrOracle) (xfer : XferOracle) (db : DB)
    (bucket : BucketState) (url : String) (sid : Nat) (o : PullOutcome) (now : String)
    (db' : DB) (bucket' : BucketState) (r : PullResponse) (hwf : LogWf db)
    (h : pullRoute err xfer db bucket url sid o now = (db', bucket', r)) :
    (r.success = false → db'.pullCursors = db.pullCursors) ∧
    (r.success = true → ∃ payload, o = .okJson payload ∧
       (applyPulledData err ((createSyncLog db "pull" url (some sid) now).1) payload).2.2 = none ∧
       db'.pullCursors = assocSet db.pullCursors ("shelter:" ++ toString sid)
         payload.serverTime ∧
       r.lastPulledAt = some payload.serverTime) ∧
    (∃ row : SyncLogRow, row.id = db.nextLogId ∧
       row.status = (if r.success then "completed" else "failed") ∧
       db'.syncLogs = db.syncLogs ++ [row]) ∧
    db'.logEvents = db.logEvents ++
      [(db.nextLogId, if r.success then "completed" else "failed")] ∧
    db'.nextLogId = db.nextLogId + 1 ∧ LogWf db' := by
  unfold pullRoute at h
  simp only [createSyncLog] at h
  set db1 : DB := { db with
      syncLogs := db.syncLogs ++
        [⟨db.nextLogId, some sid, "pull", "in_progress", now, none,
          0, 0, 0, 0, none, some url⟩],
      nextLogId := db.nextLogId + 1 } with hdb1
  have hfresh : ∀ l ∈ db.syncLogs, l.id ≠ db.nextLogId :=
    fun l hl => Nat.ne_of_lt (hwf.1 l hl)
  have hwf1 : LogWf db1 := by
    constructor
    · intro l hl
      simp only [hdb1] at hl ⊢
      rcases List.mem_append.mp hl with hl | hl
      · exact Nat.lt_succ_of_lt (hwf.1 l hl)
      · simp only [List.mem_singleton] at hl
        subst hl
        exact Nat.lt_succ_self _
    · intro e he
      simp only [hdb1] at he ⊢
      exact Nat.lt_succ_of_lt (hwf.2 e he)
  have hterm : ∀ (msg : String),
      (failSyncLog db1 db.nextLogId msg now).syncLogs = db.syncLogs ++
        [⟨db.nextLogId, some sid, "pull", "failed", now, some now,
          0, 0, 0, 0, some msg, some url⟩] := by
    intro msg
    simp only [failSyncLog, hdb1]
    rw [syncLogs_map_fresh _ _ _ _ hfresh rfl]
  have hwfFail : ∀ (msg : String), LogWf (failSyncLog db1 db.nextLogId msg now) := by
    intro msg
    constructor
    · intro l hl
      rw [hterm msg] at hl
      simp only [failSyncLog, hdb1]
      rcases List.mem_append.mp hl with hl | hl
      · exact Nat.lt_succ_of_lt (hwf.1 l hl)
      · simp only [List.mem_singleton] at hl
        subst hl
        exact Nat.lt_succ_self _
    · intro e he
      simp only [failSyncLog, hdb1] at he ⊢
      rcases List.mem_append.mp he with he | he
      · exact Nat.lt_succ_of_lt (hwf.2 e he)
      · simp only [List.mem_singleton] at he
        subst he
        exact Nat.lt_succ_self _
  cases o with
  | netError m =>
    simp only [Prod.mk.injEq] at h
    obtain ⟨rfl, rfl, rfl⟩ := h
    refine ⟨fun _ => by simp [failSyncLog, hdb1], fun hc => by simp at hc,
      ⟨_, rfl, by simp, hterm _⟩, by simp [failSyncLog, hdb1], by simp [failSyncLog, hdb1],
      hwfFail _⟩
  | httpError s b =>
    simp only [Prod.mk.injEq] at h
    obtain ⟨rfl, rfl, rfl⟩ := h
    refine ⟨fun _ => by simp [failSyncLog, hdb1], fun hc => by simp at hc,
      ⟨_, rfl, by simp, hterm _⟩, by simp [failSyncLog, hdb1], by simp [failSyncLog, hdb1],
      hwfFail _⟩
  | badJson m =>
    simp only [Prod.mk.injEq] at h
    obtain ⟨rfl, rfl, rfl⟩ := h
    refine ⟨fun _ => by simp [failSyncLog, hdb1], fun hc => by simp at hc,
      ⟨_, rfl, by simp, hterm _⟩, by simp [failSyncLog, hdb1], by simp [failSyncLog, hdb1],
      hwfFail _⟩
  | okJson payload =>
    dsimp only at h
    rcases happl : applyPulledData err db1 payload with ⟨db2, applied, aerr⟩
    rw [happl] at h
    obtain ⟨hx12, hl12, he12, hp12, hn12⟩ := applyPulledData_spec err db1 payload
      db2 applied aerr happl
    have hlogs2 : db2.syncLogs = db.syncLogs ++
        [⟨db.nextLogId, some sid, "pull", "in_progress", now, none,
          0, 0, 0, 0, none, some url⟩] := by rw [hl12]
    cases aerr with
    | some m =>
      simp only [Prod.mk.injEq] at h
      obtain ⟨rfl, rfl, rfl⟩ := h
      have hterm2 : (failSyncLog db2 db.nextLogId m now).syncLogs = db.syncLogs ++
          [⟨db.nextLogId, some sid, "pull", "failed", now, some now,
            0, 0, 0, 0, some m, some url⟩] := by
        simp only [failSyncLog, hlogs2]
        rw [syncLogs_map_fresh _ _ _ _ hfresh rfl]
      refine ⟨fun _ => by simp [failSyncLog, hp12, hdb1], fun hc => by simp at hc,
        ⟨_, rfl, by simp, hterm2⟩, ?_, ?_, ?_⟩
      · simp only [failSyncLog]
        rw [he12]
        simp [hdb1]
      · simp [failSyncLog, hn12, hdb1]
      · constructor
        · intro l hl
          rw [hterm2] at hl
          simp only [failSyncLog, hn12, hdb1]
          rcases List.mem_append.mp hl with hl | hl
          · exact Nat.lt_succ_of_lt (hwf.1 l hl)
          · simp only [List.mem_singleton] at hl
            subst hl
            exact Nat.lt_succ_self _
        · intro e he
          simp only [failSyncLog] at he
          rw [he12] at he
          simp only [hdb1] at he
          simp only [failSyncLog, hn12, hdb1]
          rcases List.mem_append.mp he with he | he
          · exact Nat.lt_succ_of_lt (hwf.2 e he)
          · simp only [List.mem_singleton] at he
            subst he
            exact Nat.lt_succ_self _
    | none =>
      rcases hmo : (if payload.media.length > 0
          then syncMediaFiles xfer bucket payload.media
          else (bucket, ⟨0, 0, []⟩)) with ⟨bucketX, mo⟩
      rw [hmo] at h
      simp only [Prod.mk.injEq] at h
      obtain ⟨rfl, rfl, rfl⟩ := h
      have hterm2 : ∀ (p c l m2 : Nat),
          (completeSyncLog (setLastPulledAt db2 ("shelter:" ++ toString sid)
            payload.serverTime) db.nextLogId p c l m2 now).syncLogs = db.syncLogs ++
          [⟨db.nextLogId, some sid, "pull", "completed", now, some now,
            p, c, l, m2, none, some url⟩] := by
        intro p c l m2
        simp only [completeSyncLog, setLastPulledAt, hlogs2]
        rw [syncLogs_map_fresh _ _ _ _ hfresh rfl]
      refine ⟨fun hc => by simp at hc,
        fun _ => ⟨payload, rfl,
          by rw [show (createSyncLog db "pull" url (some sid) now).1 = db1 from rfl, happl],
          ?_, rfl⟩,
        ⟨_, rfl, by simp, hterm2 _ _ _ _⟩, ?_, ?_, ?_⟩
      · simp [completeSyncLog, setLastPulledAt, hp12, hdb1]
      · simp [completeSyncLog, setLastPulledAt, he12, hdb1]
      · simp [completeSyncLog, setLastPulledAt, hn12, hdb1]
      · constructor
        · intro l hl
          rw [hterm2] at hl
          simp only [completeSyncLog, setLastPulledAt, hn12, hdb1]
          rcases List.mem_append.mp hl with hl | hl
          · exact Nat.lt_succ_of_lt (hwf.1 l hl)
          · simp only [List.mem_singleton] at hl
            subst hl
            exact Nat.lt_succ_self _
        · intro e he
          simp only [completeSyncLog, setLastPulledAt] at he
          rw [he12] at he
          simp only [hdb1] at he
          simp only [completeSyncLog, setLastPulledAt, hn12, hdb1]
          rcases List.mem_append.mp he with he | he
          · exact Nat.lt_succ_of_lt (hwf.2 e he)
          · simp only [List.mem_singleton] at he
            subst he
            exact Nat.lt_succ_self _

/-- Push-route success spec (`okJson`, marks succeed): every unsynced,
non-deleted post/comment/track row ends marked `is_synced = 1`; the `media`
table is not touched at all (`markMediaAsSynced` is never called on this
path); the SyncLog row is completed — after the marking, which precedes it
in the handler — with the four collection counts. -/
theorem pushRoute_success_spec (db : DB) (url : String) (sid : Option Nat)
    (now : String) (db' : DB) (r : PushResponse) (hwf : LogWf db)
    (h : pushRoute db url sid .okJson none now = (db', r)) :
    r.success = true ∧
    db'.media = db.media ∧
    (∀ row ∈ db.posts, row.is_synced = 0 → row.deleted_at = none →
       ∃ row' ∈ db'.posts, row'.id = row.id ∧ row'.is_synced = 1) ∧
    (∀ row ∈ db.comments, row.is_synced = 0 → row.deleted_at = none →
       ∃ row' ∈ db'.comments, row'.id = row.id ∧ row'.is_synced = 1) ∧
    (∀ row ∈ db.tracks, row.is_synced = 0 → row.deleted_at = none →
       ∃ row' ∈ db'.tracks, row'.id = row.id ∧ row'.is_synced = 1) ∧
    (∃ logRow : SyncLogRow, logRow.id = db.nextLogId ∧ logRow.status = "completed" ∧
       logRow.posts_synced = (fetchUnsyncedPosts db).length ∧
       logRow.comments_synced = (fetchUnsyncedComments db).length ∧
       logRow.location_tracks_synced = (fetchUnsyncedLocationTracks db).length ∧
       logRow.media_synced = (fetchMediaByPostIds db
         ((fetchUnsyncedPosts db).map (fun p => p.id))).length ∧
       db'.syncLogs = db.syncLogs ++ [logRow]) ∧
    db'.logEvents = db.logEvents ++ [(db.nextLogId, "completed")] := by
  unfold pushRoute at h
  simp only [createSyncLog] at h
  set db1 : DB := { db with
      syncLogs := db.syncLogs ++
        [⟨db.nextLogId, sid, "manual", "in_progress", now, none,
          0, 0, 0, 0, none, some url⟩],
      nextLogId := db.nextLogId + 1 } with hdb1
  have hfresh : ∀ l ∈ db.syncLogs, l.id ≠ db.nextLogId :=
    fun l hl => Nat.ne_of_lt (hwf.1 l hl)
  have hfp : fetchUnsyncedPosts db1 = fetchUnsyncedPosts db := rfl
  have hfc : fetchUnsyncedComments db1 = fetchUnsyncedComments db := rfl
  have hft : fetchUnsyncedLocationTracks db1 = fetchUnsyncedLocationTracks db := rfl
  split at h
  · rename_i hempty
    simp only [Prod.mk.injEq] at h
    obtain ⟨rfl, rfl⟩ := h
    obtain ⟨he1, he2, he3⟩ := hempty
    rw [hfp] at he1
    rw [hfc] at he2
    rw [hft] at he3
    have hmempty : fetchMediaByPostIds db ((fetchUnsyncedPosts db).map (fun p => p.id)) = [] := by
      rw [he1]
      unfold fetchMediaByPostIds
      simp
    refine ⟨rfl, by simp [completeSyncLog, hdb1], ?_, ?_, ?_, ?_, ?_⟩
    · intro row hrow h0 hd
      have : (⟨row.id, row.author_name, row.shelter_id, row.content, row.latitude,
          row.longitude, row.posted_at, row.created_at, row.updated_at,
          row.is_free_chat, row.status⟩ : UnsyncedPost) ∈ fetchUnsyncedPosts db := by
        unfold fetchUnsyncedPosts
        refine List.mem_map.mpr ⟨row, List.mem_filter.mpr ⟨hrow, by simp [h0, hd]⟩, rfl⟩
      rw [he1] at this
      exact absurd this (by simp)
    · intro row hrow h0 hd
      have : (⟨row.id, row.post_id, row.author_name, row.content, row.status,
          row.created_at, row.updated_at⟩ : UnsyncedComment) ∈ fetchUnsyncedComments db := by
        unfold fetchUnsyncedComments
        refine List.mem_map.mpr ⟨row, List.mem_filter.mpr ⟨hrow, by simp [h0, hd]⟩, rfl⟩
      rw [he2] at this
      exact absurd this (by simp)
    · intro row hrow h0 hd
      have : (⟨row.id, row.post_id, row.recorded_at, row.latitude, row.longitude,
          row.created_at, row.updated_at⟩ :
          UnsyncedLocationTrack) ∈ fetchUnsyncedLocationTracks db := by
        unfold fetchUnsyncedLocationTracks
        refine List.mem_map.mpr ⟨row, List.mem_filter.mpr ⟨hrow, by simp [h0, hd]⟩, rfl⟩
      rw [he3] at this
      exact absurd this (by simp)
    · refine ⟨⟨db.nextLogId, sid, "manual", "completed", now, some now,
        0, 0, 0, 0, none, some url⟩, rfl, rfl,
        by simp [he1], by simp [he2], by simp [he3], by simp [hmempty], ?_⟩
      simp only [completeSyncLog, hdb1]
      rw [syncLogs_map_fresh _ _ _ _ hfresh rfl]
    · simp [completeSyncLog, hdb1]
  · simp only [Prod.mk.injEq] at h
    obtain ⟨rfl, rfl⟩ := h
    refine ⟨rfl, by simp [completeSyncLog, markLocationTracksAsSynced,
        markCommentsAsSynced, markPostsAsSynced, hdb1], ?_, ?_, ?_, ?_, ?_⟩
    · intro row hrow h0 hd
      refine ⟨{ row with is_synced := 1, updated_at := now }, ?_, rfl, rfl⟩
      have hidin : ((fetchUnsyncedPosts db1).map (fun p => p.id)).contains row.id := by
        rw [hfp]
        simp only [List.contains_eq_any_beq, List.any_eq_true]
        refine ⟨row.id, List.mem_map.mpr ⟨⟨row.id, row.author_name, row.shelter_id,
          row.content, row.latitude, row.longitude, row.posted_at, row.created_at,
          row.updated_at, row.is_free_chat, row.status⟩, ?_, rfl⟩, by simp⟩
        unfold fetchUnsyncedPosts
        exact List.mem_map.mpr ⟨row, List.mem_filter.mpr ⟨hrow, by simp [h0, hd]⟩, rfl⟩
      simp only [completeSyncLog, markLocationTracksAsSynced, markCommentsAsSynced,
        markPostsAsSynced]
      have hrow1 : row ∈ db1.posts := by simp [hdb1, hrow]
      refine List.mem_map.mpr ⟨row, hrow1, ?_⟩
      rw [if_pos hidin]
    · intro row hrow h0 hd
      refine ⟨{ row with is_synced := 1, updated_at := now }, ?_, rfl, rfl⟩
      have hidin : ((fetchUnsyncedComments db1).map (fun c => c.id)).contains row.id := by
        rw [hfc]
        simp only [List.contains_eq_any_beq, List.any_eq_true]
        refine ⟨row.id, List.mem_map.mpr ⟨⟨row.id, row.post_id, row.author_name,
          row.content, row.status, row.created_at, row.updated_at⟩, ?_, rfl⟩, by simp⟩
        unfold fetchUnsyncedComments
        exact List.mem_map.mpr ⟨row, List.mem_filter.mpr ⟨hrow, by simp [h0, hd]⟩, rfl⟩
      simp only [completeSyncLog, markLocationTracksAsSynced, markCommentsAsSynced,
        markPostsAsSynced]
      have hrow1 : row ∈ db1.comments := by simp [hdb1, hrow]
      refine List.mem_map.mpr ⟨row, hrow1, ?_⟩
      rw [if_pos hidin]
    · intro row hrow h0 hd
      refine ⟨{ row with is_synced := 1, updated_at := now }, ?_, rfl, rfl⟩
      have hidin : ((fetchUnsyncedLocationTracks db1).map (fun t => t.id)).contains row.id := by
        rw [hft]
        simp only [List.contains_eq_any_beq, List.any_eq_true]
        refine ⟨row.id, List.mem_map.mpr ⟨⟨row.id, row.post_id, row.recorded_at,
          row.latitude, row.longitude, row.created_at, row.updated_at⟩, ?_, rfl⟩, by simp⟩
        unfold fetchUnsyncedLocationTracks
        exact List.mem_map.mpr ⟨row, List.mem_filter.mpr ⟨hrow, by simp [h0, hd]⟩, rfl⟩
      simp only [completeSyncLog, markLocationTracksAsSynced, markCommentsAsSynced,
        markPostsAsSynced]
      have hrow1 : row ∈ db1.tracks := by simp [hdb1, hrow]
      refine List.mem_map.mpr ⟨row, hrow1, ?_⟩
      rw [if_pos hidin]
    · refine ⟨⟨db.nextLogId, sid, "manual", "completed", now, some now,
        (fetchUnsyncedPosts db).length, (fetchUnsyncedComments db).length,
        (fetchUnsyncedLocationTracks db).length,
        (fetchMediaByPostIds db ((fetchUnsyncedPosts db).map (fun p => p.id))).length,
        none, some url⟩, rfl, rfl, rfl, rfl, rfl, rfl, ?_⟩
      simp only [completeSyncLog, markLocationTracksAsSynced, markCommentsAsSynced,
        markPostsAsSynced, hfp, hfc, hft]
      rw [syncLogs_map_fresh _ _ _ _ hfresh rfl]
      rfl
    · simp [completeSyncLog, markLocationTracksAsSynced, markCommentsAsSynced,
        markPostsAsSynced, hdb1]

/-- Push-route failure spec: on transport error, non-success status or
unparseable body (given something to push), the handler fails the SyncLog
with the branch's error text and leaves every entity table — and so every
`is_synced` flag — untouched. -/
theorem pushRoute_failure_spec (db : DB) (url : String) (sid : Option Nat)
    (now : String) (o : FetchOutcome) (mf : Option String) (db' : DB) (r : PushResponse)
    (hwf : LogWf db) (ho : o ≠ .okJson)
    (hne : ¬ (fetchUnsyncedPosts db = [] ∧ fetchUnsyncedComments db = [] ∧
      fetchUnsyncedLocationTracks db = []))
    (h : pushRoute db url sid o mf now = (db', r)) :
    r.success = false ∧
    db'.posts = db.posts ∧ db'.comments = db.comments ∧
    db'.tracks = db.tracks ∧ db'.media = db.media ∧
    db'.pullCursors = db.pullCursors ∧
    (∃ row : SyncLogRow, row.id = db.nextLogId ∧ row.status = "failed" ∧
       row.error_message = pushFailText o ∧
       db'.syncLogs = db.syncLogs ++ [row]) ∧
    db'.logEvents = db.logEvents ++ [(db.nextLogId, "failed")] := by
  unfold pushRoute at h
  simp only [createSyncLog] at h
  have hfresh : ∀ l ∈ db.syncLogs, l.id ≠ db.nextLogId :=
    fun l hl => Nat.ne_of_lt (hwf.1 l hl)
  split at h
  · rename_i hempty
    exact absurd hempty (by simpa using hne)
  · cases o with
    | okJson => exact absurd rfl ho
    | netError m =>
      simp only [Prod.mk.injEq] at h
      obtain ⟨rfl, rfl⟩ := h
      refine ⟨rfl, by simp [failSyncLog], by simp [failSyncLog], by simp [failSyncLog],
        by simp [failSyncLog], by simp [failSyncLog],
        ⟨⟨db.nextLogId, sid, "manual", "failed", now, some now, 0, 0, 0, 0,
          some ("fetch失敗: " ++ m), some url⟩, rfl, rfl, rfl, ?_⟩,
        by simp [failSyncLog]⟩
      simp only [failSyncLog]
      rw [syncLogs_map_fresh _ _ _ _ hfresh rfl]
    | httpError s b =>
      simp only [Prod.mk.injEq] at h
      obtain ⟨rfl, rfl⟩ := h
      refine ⟨rfl, by simp [failSyncLog], by simp [failSyncLog], by simp [failSyncLog],
        by simp [failSyncLog], by simp [failSyncLog],
        ⟨⟨db.nextLogId, sid, "manual", "failed", now, some now, 0, 0, 0, 0,
          some ("本番API応答エラー: " ++ toString s ++ " " ++ b), some url⟩, rfl, rfl, rfl, ?_⟩,
        by simp [failSyncLog]⟩
      simp only [failSyncLog]
      rw [syncLogs_map_fresh _ _ _ _ hfresh rfl]
    | badJson m =>
      simp only [Prod.mk.injEq] at h
      obtain ⟨rfl, rfl⟩ := h
      refine ⟨rfl, by simp [failSyncLog], by simp [failSyncLog], by simp [failSyncLog],
        by simp [failSyncLog], by simp [failSyncLog],
        ⟨⟨db.nextLogId, sid, "manual", "failed", now, some now, 0, 0, 0, 0,
          some ("レスポンスJSON解析失敗: " ++ m), some url⟩, rfl, rfl, rfl, ?_⟩,
        by simp [failSyncLog]⟩
      simp only [failSyncLog]
      rw [syncLogs_map_fresh _ _ _ _ hfresh rfl]

/-- Push-route mark-failure spec: when the remote accepted the batch but the
local mark-as-synced step rejects, the outer catch returns the error without
touching the SyncLog — the created row is left `in_progress` and no terminal
event is recorded for it. -/
theorem pushRoute_markFail_spec (db : DB) (url : String) (sid : Option Nat)
    (now : String) (m : String) (db' : DB) (r : PushResponse)
    (hne : ¬ (fetchUnsyncedPosts db = [] ∧ fetchUnsyncedComments db = [] ∧
      fetchUnsyncedLocationTracks db = []))
    (h : pushRoute db url sid .okJson (some m) now = (db', r)) :
    r.success = false ∧ r.error = some m ∧
    (∃ row : SyncLogRow, row.id = db.nextLogId ∧ row.status = "in_progress" ∧
       db'.syncLogs = db.syncLogs ++ [row]) ∧
    db'.logEvents = db.logEvents := by
  unfold pushRoute at h
  simp only [createSyncLog] at h
  split at h
  · rename_i hempty
    exact absurd hempty (by simpa using hne)
  · simp only [Prod.mk.injEq] at h
    obtain ⟨rfl, rfl⟩ := h
    exact ⟨rfl, rfl, ⟨_, rfl, rfl, rfl⟩, rfl⟩

/-- One settled batch: transfers exactly its input's paths, never removes a
key, and adds the key of every successful transfer. -/
theorem runXferBatch_spec (xfer : XferOracle) (l : List UnsyncedMedia) :
    ∀ b, ((runXferBatch xfer b l).2.transfers = l.map (fun m => m.file_path)) ∧
    (∀ p, bucketHas b p = true → bucketHas (runXferBatch xfer b l).1 p = true) ∧
    (∀ m ∈ l, xfer m.file_path = true →
      bucketHas (runXferBatch xfer b l).1 m.file_path = true) := by
  induction l with
  | nil => intro b; exact ⟨rfl, fun p hp => hp, by simp⟩
  | cons m rest ih =>
    intro b
    simp only [runXferBatch]
    by_cases hx : xfer m.file_path = true
    · simp only [hx, if_pos rfl]
      obtain ⟨htr, hmono, hadd⟩ := ih (bucketPut b m.file_path)
      refine ⟨by simp [htr], ?_, ?_⟩
      · intro p hp
        refine hmono p ?_
        simp only [bucketHas, bucketPut, List.contains_eq_any_beq, List.any_append] at hp ⊢
        simp [hp]
      · intro q hq hxq
        rcases List.mem_cons.mp hq with rfl | hq
        · refine hmono q.file_path ?_
          simp [bucketHas, bucketPut, List.contains_eq_any_beq]
        · exact hadd q hq hxq
    · rw [if_neg hx]
      obtain ⟨htr, hmono, hadd⟩ := ih b
      refine ⟨by simp [htr], hmono, ?_⟩
      intro q hq hxq
      rcases List.mem_cons.mp hq with rfl | hq
      · exact absurd hxq hx
      · exact hadd q hq hxq

/-- The chunked loop: same three facts as a single batch, for slices of 3. -/
theorem runXferChunks_spec (xfer : XferOracle) :
    ∀ n (l : List UnsyncedMedia), l.length ≤ n → ∀ b,
    ((runXferChunks xfer b l).2.transfers = l.map (fun m => m.file_path)) ∧
    (∀ p, bucketHas b p = true → bucketHas (runXferChunks xfer b l).1 p = true) ∧
    (∀ m ∈ l, xfer m.file_path = true →
      bucketHas (runXferChunks xfer b l).1 m.file_path = true) := by
  intro n
  induction n with
  | zero =>
    intro l hl b
    have : l = [] := List.length_eq_zero.mp (Nat.le_zero.mp hl)
    subst this
    exact ⟨rfl, fun p hp => hp, by simp⟩
  | succ n ih =>
    intro l hl b
    match l with
    | [] => exact ⟨rfl, fun p hp => hp, by simp⟩
    | [a] => exact runXferBatch_spec xfer [a] b
    | [a, a2] => exact runXferBatch_spec xfer [a, a2] b
    | a :: a2 :: a3 :: rest =>
      simp only [runXferChunks]
      rcases hbatch : runXferBatch xfer b [a, a2, a3] with ⟨b1, o1⟩
      obtain ⟨htr1, hmono1, hadd1⟩ := runXferBatch_spec xfer [a, a2, a3] b
      rw [hbatch] at htr1 hmono1 hadd1
      dsimp only at htr1 hmono1 hadd1
      have hrest : rest.length ≤ n := by
        simp only [List.length_cons] at hl
        omega
      obtain ⟨htr2, hmono2, hadd2⟩ := ih rest hrest b1
      refine ⟨?_, ?_, ?_⟩
      · dsimp only
        rw [htr2, htr1]
        simp
      · intro p hp
        exact hmono2 p (hmono1 p hp)
      · intro m hm hx
        rcases List.mem_cons.mp hm with rfl | hm
        · exact hmono2 m.file_path (hadd1 m (by simp) hx)
        · rcases List.mem_cons.mp hm with rfl | hm
          · exact hmono2 m.file_path (hadd1 m (by simp) hx)
          · rcases List.mem_cons.mp hm with rfl | hm
            · exact hmono2 m.file_path (hadd1 m (by simp) hx)
            · exact hadd2 m hm hx

/-- `syncMediaFiles` attempts a transfer exactly for the objects whose key
was absent from the destination bucket. -/
theorem syncMediaFiles_transfers (xfer : XferOracle) (b : BucketState)
    (l : List UnsyncedMedia) :
    (syncMediaFiles xfer b l).2.transfers =
      (l.filter (fun m => ¬ bucketHas b m.file_path)).map (fun m => m.file_path) := by
  unfold syncMediaFiles
  dsimp only
  split
  · rename_i hnil
    rw [hnil]
    rfl
  · exact (runXferChunks_spec xfer (l.filter (fun m => ¬ bucketHas b m.file_path)).length
      _ (Nat.le_refl _) b).1

/-- An object already present at the destination is never transferred. -/
theorem syncMediaFiles_skip_present (xfer : XferOracle) (b : BucketState)
    (l : List UnsyncedMedia) (m : UnsyncedMedia)
    (hb : bucketHas b m.file_path = true) :
    m.file_path ∉ (syncMediaFiles xfer b l).2.transfers := by
  rw [syncMediaFiles_transfers]
  intro hmem
  obtain ⟨m', hm', hpath⟩ := List.mem_map.mp hmem
  rw [List.mem_filter] at hm'
  have := hm'.2
  rw [hpath] at this
  simp [hb] at this

/-- With all transfers succeeding, every listed object's key is in the
destination bucket afterwards. -/
theorem syncMediaFiles_fills (b : BucketState) (l : List UnsyncedMedia) :
    ∀ m ∈ l, bucketHas (syncMediaFiles allXferOk b l).1 m.file_path = true := by
  intro m hm
  unfold syncMediaFiles
  dsimp only
  split
  · rename_i hnil
    by_cases hb : bucketHas b m.file_path = true
    · exact hb
    · have : m ∈ l.filter (fun m => ¬ bucketHas b m.file_path) :=
        List.mem_filter.mpr ⟨hm, by simp [hb]⟩
      rw [hnil] at this
      exact absurd this (by simp)
  · obtain ⟨-, hmono, hadd⟩ := runXferChunks_spec allXferOk
      (l.filter (fun m => ¬ bucketHas b m.file_path)).length
      (l.filter (fun m => ¬ bucketHas b m.file_path)) (Nat.le_refl _) b
    by_cases hb : bucketHas b m.file_path = true
    · exact hmono m.file_path hb
    · exact hadd m (List.mem_filter.mpr ⟨hm, by simp [hb]⟩) rfl

/-- When nothing is left after the existence probes, `syncMediaFiles`
returns early with a zero report. -/
theorem syncMediaFiles_nothing (xfer : XferOracle) (b : BucketState)
    (l : List UnsyncedMedia)
    (h : l.filter (fun m => ¬ bucketHas b m.file_path) = []) :
    syncMediaFiles xfer b l = (b, ⟨0, 0, []⟩) := by
  unfold syncMediaFiles
  dsimp only
  rw [h]
  rfl

/-- Second replication pass over the same list: nothing is transferred, the
bucket is unchanged, and the report is `synced = 0`, `failed = 0`. -/
theorem syncMediaFiles_second (b : BucketState) (l : List UnsyncedMedia) :
    syncMediaFiles allXferOk (syncMediaFiles allXferOk b l).1 l =
      ((syncMediaFiles allXferOk b l).1, ⟨0, 0, []⟩) := by
  refine syncMediaFiles_nothing allXferOk _ l ?_
  rw [List.filter_eq_nil_iff]
  intro m hm
  simp only [decide_eq_true_eq]
  intro hcontr
  rw [syncMediaFiles_fills b l m hm] at hcontr
  simp at hcontr

theorem forall₂_left_mem {α β : Type} {R : α → β → Prop} :
    ∀ {l1 : List α} {l2 : List β}, List.Forall₂ R l1 l2 →
    ∀ a ∈ l1, ∃ b ∈ l2, R a b := by
  intro l1 l2 h
  induction h with
  | nil => simp
  | cons hR _ ih =>
    intro a ha
    rcases List.mem_cons.mp ha with rfl | ha
    · exact ⟨_, by simp, hR⟩
    · obtain ⟨b, hb, hab⟩ := ih a ha
      exact ⟨b, by simp [hb], hab⟩

/-- Whenever there is anything to push, the handler performs the outbound
fetch — no guard is consulted. -/
theorem pushRoute_fetchIssued (db : DB) (url : String) (sid : Option Nat)
    (o : FetchOutcome) (mf : Option String) (now : String)
    (hne : ¬ (fetchUnsyncedPosts db = [] ∧ fetchUnsyncedComments db = [] ∧
      fetchUnsyncedLocationTracks db = [])) :
    (pushRoute db url sid o mf now).2.fetchIssued = true := by
  unfold pushRoute
  simp only [createSyncLog]
  rw [if_neg (by simpa using hne)]
  cases o with
  | netError m => rfl
  | httpError s b => rfl
  | badJson m => rfl
  | okJson => cases mf with
    | some m => rfl
    | none => rfl

/-- The receive route only extends the entity tables with synced rows. -/
theorem receiveRoute_extends (err : ErrOracle) (db : DB) (data : SyncReceiveData)
    (now : String) (db' : DB) (resp : ReceiveResponse)
    (h : receiveRoute err db data now = (db', resp)) : ExtendsSynced db db' := by
  unfold receiveRoute at h
  split at h
  · simp only [Prod.mk.injEq] at h
    obtain ⟨rfl, -⟩ := h
    exact extendsSynced_refl db
  · dsimp only at h
    rcases hloop : receiveLoop err data.sourceUrl now db (groupDataByShelter db data)
      with ⟨db2, results⟩
    rw [hloop] at h
    simp only [Prod.mk.injEq] at h
    obtain ⟨rfl, -⟩ := h
    exact receiveLoop_extends err data.sourceUrl now (groupDataByShelter db data)
      db db2 results hloop

theorem fetchUnsyncedPosts_sound (db : DB) (q : UnsyncedPost)
    (h : q ∈ fetchUnsyncedPosts db) :
    ∃ row ∈ db.posts, row.id = q.id ∧ row.is_synced = 0 := by
  unfold fetchUnsyncedPosts at h
  obtain ⟨row, hrow, hq⟩ := List.mem_map.mp h
  rw [List.mem_filter] at hrow
  refine ⟨row, hrow.1, ?_, ?_⟩
  · rw [← hq]
  · simpa using (of_decide_eq_true hrow.2).1

theorem fetchUnsyncedComments_sound (db : DB) (q : UnsyncedComment)
    (h : q ∈ fetchUnsyncedComments db) :
    ∃ row ∈ db.comments, row.id = q.id ∧ row.is_synced = 0 := by
  unfold fetchUnsyncedComments at h
  obtain ⟨row, hrow, hq⟩ := List.mem_map.mp h
  rw [List.mem_filter] at hrow
  refine ⟨row, hrow.1, ?_, ?_⟩
  · rw [← hq]
  · simpa using (of_decide_eq_true hrow.2).1

theorem fetchUnsyncedLocationTracks_sound (db : DB) (q : UnsyncedLocationTrack)
    (h : q ∈ fetchUnsyncedLocationTracks db) :
    ∃ row ∈ db.tracks, row.id = q.id ∧ row.is_synced = 0 := by
  unfold fetchUnsyncedLocationTracks at h
  obtain ⟨row, hrow, hq⟩ := List.mem_map.mp h
  rw [List.mem_filter] at hrow
  refine ⟨row, hrow.1, ?_, ?_⟩
  · rw [← hq]
  · simpa using (of_decide_eq_true hrow.2).1

theorem fetchUnsyncedMedia_sound (db : DB) (q : UnsyncedMedia)
    (h : q ∈ fetchUnsyncedMedia db) :
    ∃ row ∈ db.media, row.id = q.id ∧ row.is_synced = 0 := by
  unfold fetchUnsyncedMedia at h
  obtain ⟨row, hrow, hq⟩ := List.mem_map.mp h
  rw [List.mem_filter] at hrow
  refine ⟨row, hrow.1, ?_, ?_⟩
  · rw [← hq]
  · simpa using (of_decide_eq_true hrow.2).1

/-! ### Concrete fixtures used by witnesses and counterexamples -/

def exPostRow : PostRow :=
  ⟨"p1", "alice", 1, some "hello", 35, 139, "2025-01-01T00:00:00Z",
   "2025-01-01T00:00:00Z", "2025-01-01T00:00:00Z", 0, none, 0, none⟩

def exMediaRow : MediaRow :=
  ⟨"m1", "p1", "media/m1.jpg", "image/jpeg", some "m1.jpg",
   "2025-01-01T00:00:00Z", "2025-01-01T00:00:00Z", none, none, 0⟩

/-- A store holding one unsynced post and one unsynced media row of that
post; no logs yet. -/
def exDb : DB := ⟨[exPostRow], [], [], [exMediaRow], [], [], [], 0⟩

/-- An empty destination store. -/
def emptyDb : DB := ⟨[], [], [], [], [], [], [], 0⟩

def exUPost : UnsyncedPost :=
  ⟨"p2", "bob", 2, none, 34, 135, "2025-02-01T00:00:00Z",
   "2025-02-01T00:00:00Z", "2025-02-01T00:00:00Z", 0, none⟩

def exUComment : UnsyncedComment :=
  ⟨"c1", "p2", "carol", "on my way", "open", "2025-02-01T01:00:00Z",
   "2025-02-01T01:00:00Z"⟩

def exBatch : SyncReceiveData := ⟨[exUPost], [exUComment], [], [], some "http://edge"⟩

def exOrphanComment : UnsyncedComment :=
  ⟨"c9", "nope", "dave", "lost", "open", "2025-02-01T02:00:00Z",
   "2025-02-01T02:00:00Z"⟩

def exUMedia : UnsyncedMedia :=
  ⟨"m2", "p2", "media/m2.jpg", "image/jpeg", none,
   "2025-02-01T00:00:00Z", "2025-02-01T00:00:00Z", none⟩

def exPullPayload : SyncPullData :=
  ⟨"2025-03-01T00:00:00Z", [exUPost], [], [], []⟩

/-! ### Claim theorems -/

/-- C1 (counterexample).  The claim says a successful push marks every
transmitted id across all four entity types as synced.  Concretely: a store
with one unsynced post and one media row of that post; the push transmits
the media row (and even reports `mediaSynced = 1` and completes the log),
yet the media row's `is_synced` flag is left at 0 — `markMediaAsSynced` is
never invoked by the push handler. -/
theorem claim_C1_counterexample :
    (fetchMediaByPostIds exDb ((fetchUnsyncedPosts exDb).map (fun p => p.id))).map
      (fun m => m.id) = ["m1"] ∧
    (pushRoute exDb "http://prod" none .okJson none "T").2.success = true ∧
    (pushRoute exDb "http://prod" none .okJson none "T").2.mediaSynced = 1 ∧
    ¬ (∀ m ∈ fetchMediaByPostIds exDb ((fetchUnsyncedPosts exDb).map (fun p => p.id)),
        ∃ row ∈ (pushRoute exDb "http://prod" none .okJson none "T").1.media,
          row.id = m.id ∧ row.is_synced = 1) := by
  decide

/-- C1 (amended).  For every push in which the remote returns a success
status and a parseable JSON body and the local marking succeeds, the engine
marks every transmitted id across posts, comments and location tracks as
synced (`is_synced = 1`); the media table is not touched (media ids are not
marked by this path), and only after the marking does it set the SyncLog row
to `completed` with the four per-entity counts. -/
theorem claim_C1_push_success_marks (db : DB) (url : String) (sid : Option Nat)
    (now : String) (db' : DB) (r : PushResponse) (hwf : LogWf db)
    (h : pushRoute db url sid .okJson none now = (db', r)) :
    r.success = true ∧
    db'.media = db.media ∧
    (∀ row ∈ db.posts, row.is_synced = 0 → row.deleted_at = none →
       ∃ row' ∈ db'.posts, row'.id = row.id ∧ row'.is_synced = 1) ∧
    (∀ row ∈ db.comments, row.is_synced = 0 → row.deleted_at = none →
       ∃ row' ∈ db'.comments, row'.id = row.id ∧ row'.is_synced = 1) ∧
    (∀ row ∈ db.tracks, row.is_synced = 0 → row.deleted_at = none →
       ∃ row' ∈ db'.tracks, row'.id = row.id ∧ row'.is_synced = 1) ∧
    (∃ logRow : SyncLogRow, logRow.id = db.nextLogId ∧ logRow.status = "completed" ∧
       logRow.posts_synced = (fetchUnsyncedPosts db).length ∧
       logRow.comments_synced = (fetchUnsyncedComments db).length ∧
       logRow.location_tracks_synced = (fetchUnsyncedLocationTracks db).length ∧
       logRow.media_synced = (fetchMediaByPostIds db
         ((fetchUnsyncedPosts db).map (fun p => p.id))).length ∧
       db'.syncLogs = db.syncLogs ++ [logRow]) :=
  let spec := pushRoute_success_spec db url sid now db' r hwf h
  ⟨spec.1, spec.2.1, spec.2.2.1, spec.2.2.2.1, spec.2.2.2.2.1, spec.2.2.2.2.2.1⟩

/-- C1 (witness): the amended theorem applied to the concrete store. -/
theorem claim_C1_witness :
    (pushRoute exDb "http://prod" none .okJson none "T").1.media = exDb.media :=
  (claim_C1_push_success_marks exDb "http://prod" none "T" _ _ ⟨by decide, by decide⟩ rfl).2.1

/-- C2.  For every push attempt in which the outbound request throws, comes
back non-ok, or has an unparseable body, the SyncLog row is set to `failed`
with the branch's error text, the handler returns a failure, and no local
entity row changes — in particular no `is_synced` flag. -/
theorem claim_C2_push_failure_no_marks (db : DB) (url : String) (sid : Option Nat)
    (now : String) (o : FetchOutcome) (mf : Option String) (db' : DB) (r : PushResponse)
    (hwf : LogWf db) (ho : o ≠ .okJson)
    (hne : ¬ (fetchUnsyncedPosts db = [] ∧ fetchUnsyncedComments db = [] ∧
      fetchUnsyncedLocationTracks db = []))
    (h : pushRoute db url sid o mf now = (db', r)) :
    r.success = false ∧
    db'.posts = db.posts ∧ db'.comments = db.comments ∧
    db'.tracks = db.tracks ∧ db'.media = db.media ∧
    (∃ row : SyncLogRow, row.id = db.nextLogId ∧ row.status = "failed" ∧
       row.error_message = pushFailText o ∧
       db'.syncLogs = db.syncLogs ++ [row]) :=
  let spec := pushRoute_failure_spec db url sid now o mf db' r hwf ho hne h
  ⟨spec.1, spec.2.1, spec.2.2.1, spec.2.2.2.1, spec.2.2.2.2.1, spec.2.2.2.2.2.2.1⟩

/-- C2 (witness): a transport failure on the concrete store changes no
table. -/
theorem claim_C2_witness :
    (pushRoute exDb "http://prod" none (.netError "boom") none "T").1.posts = exDb.posts :=
  (claim_C2_push_failure_no_marks exDb "http://prod" none "T" (.netError "boom") none
    _ _ ⟨by decide, by decide⟩ (by decide) (by decide) rfl).2.1

/-- C3.  Submitting an identical batch to the receive pipeline a second time
leaves every entity table exactly as after the first submission and reports
success with zero inserted counts; and a record whose id already exists is
skipped by the insert primitives without a count and without an error. -/
theorem claim_C3_receive_idempotent (db : DB) (data : SyncReceiveData)
    (now1 now2 : String) (db1 db2 : DB) (r1 r2 : ReceiveResponse)
    (h1 : receiveRoute noErr db data now1 = (db1, r1))
    (h2 : receiveRoute noErr db1 data now2 = (db2, r2)) :
    (db2.posts = db1.posts ∧ db2.comments = db1.comments ∧
     db2.tracks = db1.tracks ∧ db2.media = db1.media ∧
     r2.success = true ∧ r2.postsSynced = 0 ∧ r2.commentsSynced = 0 ∧
     r2.locationTracksSynced = 0 ∧ r2.mediaSynced = 0) ∧
    (∀ err (db0 : DB) p, (∃ r ∈ db0.posts, r.id = p.id) →
       insertPostIfNotExists err db0 p = .ok (db0, false)) ∧
    (∀ err (db0 : DB) c, (∃ r ∈ db0.comments, r.id = c.id) →
       insertCommentIfNotExists err db0 c = .ok (db0, false)) ∧
    (∀ err (db0 : DB) t, (∃ r ∈ db0.tracks, r.id = t.id) →
       insertLocationTrackIfNotExists err db0 t = .ok (db0, false)) ∧
    (∀ err (db0 : DB) m, (∃ r ∈ db0.media, r.id = m.id) →
       insertMediaIfNotExists err db0 m = .ok (db0, false)) :=
  ⟨receiveRoute_second_pass db data now1 now2 db1 db2 r1 r2 h1 h2,
   insertPostIfNotExists_skip, insertCommentIfNotExists_skip,
   insertLocationTrackIfNotExists_skip, insertMediaIfNotExists_skip⟩

/-- C3 (witness): a concrete batch of one post and one comment ingested
twice into an empty store; the second pass succeeds with zero counts. -/
theorem claim_C3_witness :
    (receiveRoute noErr (receiveRoute noErr emptyDb exBatch "T1").1 exBatch "T2").2.success
      = true ∧
    (receiveRoute noErr (receiveRoute noErr emptyDb exBatch "T1").1 exBatch "T2").2.postsSynced
      = 0 :=
  ⟨(claim_C3_receive_idempotent emptyDb exBatch "T1" "T2" _ _ _ _ rfl rfl).1.2.2.2.2.1,
   (claim_C3_receive_idempotent emptyDb exBatch "T1" "T2" _ _ _ _ rfl rfl).1.2.2.2.2.2.1⟩

/-- C4.  The pull cursor for the scope key is overwritten with the remote's
returned server time only when the pull succeeded — i.e. after the apply
step over the fetched records completed without error; every failing pull
(transport, remote rejection, parse, or apply) leaves the cursor unchanged,
so the next pull re-requests the same window. -/
theorem claim_C4_pull_cursor (err : ErrOracle) (xfer : XferOracle) (db : DB)
    (bucket : BucketState) (url : String) (sid : Nat) (o : PullOutcome) (now : String)
    (db' : DB) (bucket' : BucketState) (r : PullResponse) (hwf : LogWf db)
    (h : pullRoute err xfer db bucket url sid o now = (db', bucket', r)) :
    (r.success = false → db'.pullCursors = db.pullCursors) ∧
    (r.success = true → ∃ payload, o = .okJson payload ∧
       (applyPulledData err ((createSyncLog db "pull" url (some sid) now).1) payload).2.2
         = none ∧
       db'.pullCursors = assocSet db.pullCursors ("shelter:" ++ toString sid)
         payload.serverTime ∧
       r.lastPulledAt = some payload.serverTime) :=
  let spec := pullRoute_spec err xfer db bucket url sid o now db' bucket' r hwf h
  ⟨spec.1, spec.2.1⟩

/-- C4 (witness): a successful concrete pull advances the cursor to the
remote server time; the theorem's second branch applied concretely. -/
theorem claim_C4_witness :
    ∃ payload, PullOutcome.okJson exPullPayload = PullOutcome.okJson payload ∧
      (applyPulledData noErr
        ((createSyncLog exDb "pull" "http://prod" (some 2) "T").1) payload).2.2 = none ∧
      (pullRoute noErr allXferOk exDb ⟨[]⟩ "http://prod" 2
        (.okJson exPullPayload) "T").1.pullCursors =
        assocSet exDb.pullCursors ("shelter:" ++ toString 2) payload.serverTime ∧
      (pullRoute noErr allXferOk exDb ⟨[]⟩ "http://prod" 2
        (.okJson exPullPayload) "T").2.2.lastPulledAt = some payload.serverTime :=
  (claim_C4_pull_cursor noErr allXferOk exDb ⟨[]⟩ "http://prod" 2
    (.okJson exPullPayload) "T" _ _ _ ⟨by decide, by decide⟩ rfl).2 (by decide)

/-- C5.  A received batch is processed shelter group by shelter group: each
group gets its own SyncLog row, completed exactly when that group succeeded;
entity tables only ever grow (no group's failure rolls back another group's
inserted rows); the aggregate totals are the sums over the successful
groups; and `overallSuccess` is the logical AND of every group's success
flag. -/
theorem claim_C5_per_shelter_isolation (err : ErrOracle) (db : DB)
    (data : SyncReceiveData) (now : String) (db' : DB) (resp : ReceiveResponse)
    (hwf : LogWf db) (h : receiveRoute err db data now = (db', resp)) :
    resp.success = resp.shelterResults.all (fun r => r.success) ∧
    (∃ newLogs, db'.syncLogs = db.syncLogs ++ newLogs ∧
       List.Forall₂ (fun (log : SyncLogRow) (sres : ShelterResult) =>
         log.shelter_id = some sres.shelterId ∧
         log.status = (if sres.success then "completed" else "failed"))
         newLogs resp.shelterResults) ∧
    (∃ t, db'.posts = db.posts ++ t) ∧ (∃ t, db'.comments = db.comments ++ t) ∧
    (∃ t, db'.tracks = db.tracks ++ t) ∧ (∃ t, db'.media = db.media ++ t) ∧
    resp.postsSynced = ((resp.shelterResults.filter (fun r => r.success)).map
      (fun r => r.postsSynced)).sum ∧
    resp.commentsSynced = ((resp.shelterResults.filter (fun r => r.success)).map
      (fun r => r.commentsSynced)).sum ∧
    resp.locationTracksSynced = ((resp.shelterResults.filter (fun r => r.success)).map
      (fun r => r.locationTracksSynced)).sum ∧
    resp.mediaSynced = ((resp.shelterResults.filter (fun r => r.success)).map
      (fun r => r.mediaSynced)).sum :=
  let spec := receiveRoute_spec err db data now db' resp hwf h
  let ext := spec.2.2.2.2.2.2.1
  ⟨spec.1, spec.2.1,
   ⟨ext.1.choose, ext.1.choose_spec.1⟩,
   ⟨ext.2.1.choose, ext.2.1.choose_spec.1⟩,
   ⟨ext.2.2.1.choose, ext.2.2.1.choose_spec.1⟩,
   ⟨ext.2.2.2.choose, ext.2.2.2.choose_spec.1⟩,
   spec.2.2.1, spec.2.2.2.1, spec.2.2.2.2.1, spec.2.2.2.2.2.1⟩

/-- C5 (witness): the theorem applied to the concrete one-shelter batch on
the empty store. -/
theorem claim_C5_witness :
    (receiveRoute noErr emptyDb exBatch "T").2.success =
      (receiveRoute noErr emptyDb exBatch "T").2.shelterResults.all
        (fun r => r.success) :=
  (claim_C5_per_shelter_isolation noErr emptyDb exBatch "T" _ _
    ⟨by decide, by decide⟩ rfl).1

/-- C6.  A comment, location track or media record whose owning post id
resolves neither in the batch nor in the destination store is dropped by
grouping: the receive route computes exactly the same state and response as
on the batch without that record — so it causes no failure of the batch or
of any shelter group; and a media row is actually inserted only when its
referenced post exists at the destination, a non-existent referenced post
making the insert a silent skip. -/
theorem claim_C6_unresolvable_skipped :
    (∀ err (db : DB) (data : SyncReceiveData) now (c : UnsyncedComment),
       ¬ Resolvable db data c.post_id →
       receiveRoute err db { data with comments := data.comments ++ [c] } now =
         receiveRoute err db data now) ∧
    (∀ err (db : DB) (data : SyncReceiveData) now (t : UnsyncedLocationTrack),
       ¬ Resolvable db data t.post_id →
       receiveRoute err db { data with locationTracks := data.locationTracks ++ [t] } now =
         receiveRoute err db data now) ∧
    (∀ err (db : DB) (data : SyncReceiveData) now (m : UnsyncedMedia),
       ¬ Resolvable db data m.post_id →
       receiveRoute err db { data with media := data.media ++ [m] } now =
         receiveRoute err db data now) ∧
    (∀ err (db : DB) (m : UnsyncedMedia), (¬ ∃ r ∈ db.posts, r.id = m.post_id) →
       insertMediaIfNotExists err db m = .ok (db, false)) ∧
    (∀ err (db : DB) (m : UnsyncedMedia) (db' : DB),
       insertMediaIfNotExists err db m = .ok (db', true) →
       ∃ r ∈ db.posts, r.id = m.post_id) :=
  ⟨fun err db data now c h => receiveRoute_skips_comment err db data now c h,
   fun err db data now t h => receiveRoute_skips_track err db data now t h,
   fun err db data now m h => receiveRoute_skips_media err db data now m h,
   fun err db m h => insertMediaIfNotExists_noPost err db m h,
   fun err db m db' h => insertMediaIfNotExists_post_exists err db m db' h⟩

/-- C6 (witness): a comment whose post id resolves nowhere, appended to the
concrete batch, changes nothing about the receive outcome. -/
theorem claim_C6_witness :
    receiveRoute noErr emptyDb
      { exBatch with comments := exBatch.comments ++ [exOrphanComment] } "T" =
      receiveRoute noErr emptyDb exBatch "T" :=
  claim_C6_unresolvable_skipped.1 noErr emptyDb exBatch "T" exOrphanComment
    (by unfold Resolvable; decide)

/-- C7 (counterexample).  The claim says every sync attempt that creates a
SyncLog row drives it to exactly one terminal state, including the push path
where marking-as-synced fails after a successful remote transmission.  In
the code that push path rethrows out of the inner `try`, and the outer
`catch` references a `syncLogId` that is not in scope there, so no
`failSyncLog` runs: concretely, a push whose remote call succeeds but whose
local marking throws leaves its SyncLog row `in_progress` forever, with no
terminal transition recorded. -/
theorem claim_C7_counterexample :
    (pushRoute exDb "u" none .okJson (some "D1_ERROR") "T").1.syncLogs.map
      (fun l => l.status) = ["in_progress"] ∧
    (pushRoute exDb "u" none .okJson (some "D1_ERROR") "T").1.logEvents = [] ∧
    ¬ (∀ row ∈ (pushRoute exDb "u" none .okJson (some "D1_ERROR") "T").1.syncLogs,
        row.status = "completed" ∨ row.status = "failed") := by
  refine ⟨by decide, by decide, ?_⟩
  intro hall
  have := hall ⟨0, none, "manual", "in_progress", "T", none, 0, 0, 0, 0, none, some "u"⟩
    (by decide)
  simp at this

/-- C7 (amended).  Every sync attempt that creates a SyncLog row drives it
to exactly one terminal state — a successful push records one `completed`
transition, a failed push one `failed` transition, a pull one transition to
`completed` or `failed`, and a receive one terminal transition per shelter
group, never touching pre-existing rows' counts — EXCEPT the push path
where marking-as-synced fails after a successful remote transmission: there
the row stays `in_progress` and zero terminal transitions are recorded. -/
theorem claim_C7_terminal_sync_logs :
    (∀ (db : DB) url sid now (db' : DB) (r : PushResponse), LogWf db →
       pushRoute db url sid .okJson none now = (db', r) →
       eventCount db' db.nextLogId = 1 ∧
       ∃ row ∈ db'.syncLogs, row.id = db.nextLogId ∧ row.status = "completed") ∧
    (∀ (db : DB) url sid (o : FetchOutcome) mf now (db' : DB) (r : PushResponse),
       LogWf db → o ≠ .okJson →
       ¬ (fetchUnsyncedPosts db = [] ∧ fetchUnsyncedComments db = [] ∧
         fetchUnsyncedLocationTracks db = []) →
       pushRoute db url sid o mf now = (db', r) →
       eventCount db' db.nextLogId = 1 ∧
       ∃ row ∈ db'.syncLogs, row.id = db.nextLogId ∧ row.status = "failed") ∧
    (∀ (db : DB) url sid m now (db' : DB) (r : PushResponse), LogWf db →
       ¬ (fetchUnsyncedPosts db = [] ∧ fetchUnsyncedComments db = [] ∧
         fetchUnsyncedLocationTracks db = []) →
       pushRoute db url sid .okJson (some m) now = (db', r) →
       eventCount db' db.nextLogId = 0 ∧
       ∃ row ∈ db'.syncLogs, row.id = db.nextLogId ∧ row.status = "in_progress") ∧
    (∀ err xfer (db : DB) bucket url sid (o : PullOutcome) now
       (db' : DB) bucket' (r : PullResponse), LogWf db →
       pullRoute err xfer db bucket url sid o now = (db', bucket', r) →
       eventCount db' db.nextLogId = 1 ∧
       ∃ row ∈ db'.syncLogs, row.id = db.nextLogId ∧
         (row.status = "completed" ∨ row.status = "failed")) ∧
    (∀ err (db : DB) (data : SyncReceiveData) now (db' : DB)
       (resp : ReceiveResponse), LogWf db →
       receiveRoute err db data now = (db', resp) →
       (∀ i, db.nextLogId ≤ i → i < db'.nextLogId → eventCount db' i = 1) ∧
       (∀ i, i < db.nextLogId → eventCount db' i = eventCount db i) ∧
       ∃ newLogs, db'.syncLogs = db.syncLogs ++ newLogs ∧
         ∀ log ∈ newLogs, log.status = "completed" ∨ log.status = "failed") := by
  refine ⟨?_, ?_, ?_, ?_, ?_⟩
  · intro db url sid now db' r hwf h
    obtain ⟨-, -, -, -, -, ⟨lr, hid, hst, -, -, -, -, happ⟩, hev⟩ :=
      pushRoute_success_spec db url sid now db' r hwf h
    refine ⟨?_, lr, by simp [happ], hid, hst⟩
    unfold eventCount
    rw [hev, eventsFor_append, eventsFor_single]
    have h0 := eventCount_zero_of_wf db hwf db.nextLogId (Nat.le_refl _)
    unfold eventCount at h0
    rw [h0]
    simp
  · intro db url sid o mf now db' r hwf ho hne h
    obtain ⟨-, -, -, -, -, -, ⟨row, hid, hst, -, happ⟩, hev⟩ :=
      pushRoute_failure_spec db url sid now o mf db' r hwf ho hne h
    refine ⟨?_, row, by simp [happ], hid, hst⟩
    unfold eventCount
    rw [hev, eventsFor_append, eventsFor_single]
    have h0 := eventCount_zero_of_wf db hwf db.nextLogId (Nat.le_refl _)
    unfold eventCount at h0
    rw [h0]
    simp
  · intro db url sid m now db' r hwf hne h
    obtain ⟨-, -, ⟨row, hid, hst, happ⟩, hev⟩ :=
      pushRoute_markFail_spec db url sid now m db' r hne h
    refine ⟨?_, row, by simp [happ], hid, hst⟩
    unfold eventCount
    rw [hev]
    exact eventCount_zero_of_wf db hwf db.nextLogId (Nat.le_refl _)
  · intro err xfer db bucket url sid o now db' bucket' r hwf h
    obtain ⟨-, -, ⟨row, hid, hst, happ⟩, hev, -, -⟩ :=
      pullRoute_spec err xfer db bucket url sid o now db' bucket' r hwf h
    refine ⟨?_, row, by simp [happ], hid, ?_⟩
    · unfold eventCount
      rw [hev, eventsFor_append, eventsFor_single]
      have h0 := eventCount_zero_of_wf db hwf db.nextLogId (Nat.le_refl _)
      unfold eventCount at h0
      rw [h0]
      simp
    · rw [hst]
      cases r.success
      · exact Or.inr rfl
      · exact Or.inl rfl
  · intro err db data now db' resp hwf h
    obtain ⟨-, ⟨newLogs, happ, hcorr⟩, -, -, -, -, -, -, -, hold, hnew⟩ :=
      receiveRoute_spec err db data now db' resp hwf h
    refine ⟨hnew, hold, newLogs, happ, ?_⟩
    intro log hlog
    obtain ⟨sres, -, -, hst⟩ := forall₂_left_mem hcorr log hlog
    rw [hst]
    cases sres.success
    · exact Or.inr rfl
    · exact Or.inl rfl

/-- C7 (witness): a clean successful push on the concrete store records
exactly one terminal event for its log row. -/
theorem claim_C7_witness :
    eventCount (pushRoute exDb "u" none .okJson none "T").1 exDb.nextLogId = 1 :=
  (claim_C7_terminal_sync_logs.1 exDb "u" none "T" _ _ ⟨by decide, by decide⟩ rfl).1

/-- C8 (counterexample).  The claim says at most one push may be in flight
per node and that two concurrent triggers make exactly one network call.
Neither the route entry nor the frontend trigger consults any in-flight
state, so two concurrently triggered pushes on the concrete store both
issue their network call: two calls, not one, and the frontend decision to
issue the request is true even while another sync is already running. -/
theorem claim_C8_counterexample :
    concurrentPushFetchCount exDb "u" none .okJson none "T" = 2 ∧
    ¬ concurrentPushFetchCount exDb "u" none .okJson none "T" = 1 ∧
    syncDbToProductionIssues ⟨true, true⟩ (some "u") = true := by
  decide

/-- C8 (amended).  There is no in-flight push guard: whenever there is
anything to push, each of two concurrently triggered pushes issues its own
network call to the remote receive endpoint (two calls total), and the
frontend's `syncDbToProduction` issues the request whenever a production
API URL is configured, regardless of the `syncInProgress` /
`pullInProgress` flags. -/
theorem claim_C8_no_inflight_guard :
    (∀ (db : DB) url sid (o : FetchOutcome) mf now,
       ¬ (fetchUnsyncedPosts db = [] ∧ fetchUnsyncedComments db = [] ∧
         fetchUnsyncedLocationTracks db = []) →
       concurrentPushFetchCount db url sid o mf now = 2) ∧
    (∀ (s : SvcState) url, syncDbToProductionIssues s (some url) = true) := by
  refine ⟨?_, fun s url => rfl⟩
  intro db url sid o mf now hne
  unfold concurrentPushFetchCount pushFetchCount
  rw [pushRoute_fetchIssued db url sid o mf now hne]
  simp

/-- C8 (witness): the amended theorem on the concrete store with a failing
transport. -/
theorem claim_C8_witness :
    concurrentPushFetchCount exDb "u2" none (.netError "x") none "T" = 2 :=
  claim_C8_no_inflight_guard.1 exDb "u2" none (.netError "x") none "T" (by decide)

/-- C9.  The media replicator probes the destination bucket before any
transfer: an object whose storage key is already present is never
downloaded or re-uploaded (its path never enters the transfer trace), and
replicating the same list twice transfers nothing on the second pass,
reporting zero synced, zero failed and an empty transfer trace. -/
theorem claim_C9_media_dedup :
    (∀ xfer (b : BucketState) (l : List UnsyncedMedia) (m : UnsyncedMedia),
       bucketHas b m.file_path = true →
       m.file_path ∉ (syncMediaFiles xfer b l).2.transfers) ∧
    (∀ (b : BucketState) (l : List UnsyncedMedia),
       syncMediaFiles allXferOk (syncMediaFiles allXferOk b l).1 l =
         ((syncMediaFiles allXferOk b l).1, ⟨0, 0, []⟩)) :=
  ⟨fun xfer b l m h => syncMediaFiles_skip_present xfer b l m h,
   fun b l => syncMediaFiles_second b l⟩

/-- C9 (witness): a concrete media object whose key is already in the
bucket is not transferred. -/
theorem claim_C9_witness :
    exUMedia.file_path ∉
      (syncMediaFiles allXferOk ⟨["media/m2.jpg"]⟩ [exUMedia]).2.transfers :=
  claim_C9_media_dedup.1 allXferOk ⟨["media/m2.jpg"]⟩ [exUMedia] exUMedia (by decide)

/-- A destination store holding one unsynced post `p1` and no media. -/
def exDbP : DB := ⟨[exPostRow], [], [], [], [], [], [], 0⟩

/-- A media row for the destination's own still-unsynced post `p1`. -/
def exMediaForP1 : UnsyncedMedia :=
  ⟨"m9", "p1", "media/m9.jpg", "image/jpeg", none,
   "2025-02-02T00:00:00Z", "2025-02-02T00:00:00Z", none⟩

def exMediaBatch : SyncReceiveData := ⟨[], [], [], [exMediaForP1], some "http://edge"⟩

/-- C10 (counterexample).  The claim says the push engine's collection
queries select only `is_synced = 0` rows, so a received record is never
re-transmitted by the destination's own subsequent push.  False for media:
the push collects media with `fetchMediaByPostIds`, whose query has no
`is_synced` filter.  Concretely: the destination holds one still-unsynced
post `p1`; receiving a batch with only a media row `m9` for `p1` stores it
with `is_synced = 1`, yet the destination's next push collects `m9` (its
post is unsynced) and transmits it, reporting `mediaSynced = 1`. -/
theorem claim_C10_counterexample :
    ((receiveRoute noErr exDbP exMediaBatch "TR").1.media.map
       (fun r => (r.id, r.is_synced))) = [("m9", 1)] ∧
    ((fetchMediaByPostIds (receiveRoute noErr exDbP exMediaBatch "TR").1
        ((fetchUnsyncedPosts (receiveRoute noErr exDbP exMediaBatch "TR").1).map
          (fun p => p.id))).map (fun m => m.id)) = ["m9"] ∧
    (pushRoute (receiveRoute noErr exDbP exMediaBatch "TR").1 "u" none .okJson none
      "TP").2.mediaSynced = 1 ∧
    ¬ (∀ q ∈ fetchMediaByPostIds (receiveRoute noErr exDbP exMediaBatch "TR").1
          ((fetchUnsyncedPosts (receiveRoute noErr exDbP exMediaBatch "TR").1).map
            (fun p => p.id)), q.id ≠ "m9") := by
  decide

/-- C10 (amended).  Ingest stores every inserted row with `is_synced = 1`,
and the push collection queries for posts, comments and location tracks
select exactly the rows with `is_synced = 0` (and not deleted) — a receive
leaves those queries (and the unsynced-media query) unchanged, so a
received post, comment or location track is never picked up by the
destination's own subsequent push.  This does NOT extend to media: the push
collects media by post id via `fetchMediaByPostIds`, which has no
`is_synced` filter — every non-deleted media row of a collected post is
picked up regardless of its `is_synced` flag, so a received media row
attached to a still-unsynced local post is re-transmitted. -/
theorem claim_C10_received_not_repushed_except_media (err : ErrOracle) (db : DB)
    (data : SyncReceiveData) (now : String) (db' : DB) (resp : ReceiveResponse)
    (h : receiveRoute err db data now = (db', resp)) :
    (∃ t, db'.posts = db.posts ++ t ∧ ∀ r ∈ t, r.is_synced = 1) ∧
    (∃ t, db'.comments = db.comments ++ t ∧ ∀ r ∈ t, r.is_synced = 1) ∧
    (∃ t, db'.tracks = db.tracks ++ t ∧ ∀ r ∈ t, r.is_synced = 1) ∧
    (∃ t, db'.media = db.media ++ t ∧ ∀ r ∈ t, r.is_synced = 1) ∧
    fetchUnsyncedPosts db' = fetchUnsyncedPosts db ∧
    fetchUnsyncedComments db' = fetchUnsyncedComments db ∧
    fetchUnsyncedLocationTracks db' = fetchUnsyncedLocationTracks db ∧
    fetchUnsyncedMedia db' = fetchUnsyncedMedia db ∧
    (∀ q ∈ fetchUnsyncedPosts db', ∃ row ∈ db'.posts, row.id = q.id ∧ row.is_synced = 0) ∧
    (∀ q ∈ fetchUnsyncedComments db',
       ∃ row ∈ db'.comments, row.id = q.id ∧ row.is_synced = 0) ∧
    (∀ q ∈ fetchUnsyncedLocationTracks db',
       ∃ row ∈ db'.tracks, row.id = q.id ∧ row.is_synced = 0) ∧
    (∀ q ∈ fetchUnsyncedMedia db',
       ∃ row ∈ db'.media, row.id = q.id ∧ row.is_synced = 0) ∧
    (∀ (d : DB) (ids : List String) (row : MediaRow), row ∈ d.media →
       row.post_id ∈ ids → row.deleted_at = none →
       ∃ q ∈ fetchMediaByPostIds d ids, q.id = row.id ∧ q.post_id = row.post_id) :=
  let ext := receiveRoute_extends err db data now db' resp h
  ⟨ext.1, ext.2.1, ext.2.2.1, ext.2.2.2,
   fetchUnsyncedPosts_extends ext, fetchUnsyncedComments_extends ext,
   fetchUnsyncedLocationTracks_extends ext, fetchUnsyncedMedia_extends ext,
   fetchUnsyncedPosts_sound db', fetchUnsyncedComments_sound db',
   fetchUnsyncedLocationTracks_sound db', fetchUnsyncedMedia_sound db',
   fun d ids row hrow hin hdel =>
     ⟨⟨row.id, row.post_id, row.file_path, row.media_type, row.file_name,
       row.created_at, row.updated_at, row.deleted_at⟩,
      List.mem_map.mpr ⟨row,
        List.mem_filter.mpr ⟨hrow, by simp [hin, hdel]⟩, rfl⟩, rfl, rfl⟩⟩

/-- C10 (witness): ingesting the concrete batch into the empty store leaves
the unsynced-posts query (empty) unchanged. -/
theorem claim_C10_witness :
    fetchUnsyncedPosts (receiveRoute noErr emptyDb exBatch "T").1 =
      fetchUnsyncedPosts emptyDb :=
  (claim_C10_received_not_repushed_except_media noErr emptyDb exBatch "T"
    _ _ rfl).2.2.2.2.1

end SyncSpec
